import Mathlib

/-!
# ARO-RP: document repositories, deployer configuration and the shutdown sequence

A shallow embedding of `pkg/database/asyncoperations.go` and `pkg/database/portal.go`
(`Create`, `Get` and `Patch` of both repositories), of `mergeConfig` in
`pkg/deploy/config.go`, and of the shutdown sequence at the end of `rp` in
`cmd/aro/rp.go`.  A repository is a thin layer over a document-store client; every call
to the client and every invocation of the caller's mutator is recorded in a ghost log so
that statements such as "no store call is issued" can be made about the code.

Go values are modelled as follows.

* A pointer `*T` is an `Option T`; dereferencing `none` is a run-time panic.
* A Go `(doc, err)` result is a pair of two options: nothing in the Go types forces
  exactly one of them to be nil.
* The client behind the interface is a deterministic state machine over a state `σ`.
  Documents are values: what the client hands out is a copy, as with a client that
  decodes each response, so updating a fetched document in memory does not touch the
  store.
* The mutator `func(*AsyncOperationDocument) error` is a closure; the variables it
  captures are its own state `μ`, disjoint from the store.
-/

namespace Database

/-! ## Go values -/

/-- Go's `http.StatusConflict`. -/
def StatusConflict : Int := 409

/-- Go's `http.StatusPreconditionFailed`. -/
def StatusPreconditionFailed : Int := 412

/-- Go's `http.StatusNotFound`. -/
def StatusNotFound : Int := 404

/-- Modelled from the spec: the declaration of `cosmosdb.Error` is not among the sources.
Per spec §6 a store error carries a machine-checkable status code; the code reads and
writes its field `StatusCode`.  A non-nil Go `error` is either such a `*cosmosdb.Error`
or any other error value, here the ones built by `fmt.Errorf` (format and arguments are
kept apart, so no quoting has to be modelled). -/
inductive GoError where
  | cosmosdbError (StatusCode : Int) (Message : String)
  | errorf (format : String) (args : List String)
  deriving DecidableEq, Repr

/-- Modelled from the spec: the status enum of spec §3 and §4.3. -/
inductive OperationStatus where
  | InProgress
  | Succeeded
  | Failed
  | Canceled
  deriving DecidableEq, Repr

/-- Modelled from the spec: `api.AsyncOperationDocument` is declared outside the sources.
The code reads the field `ID`; spec §3 gives the version token, the reference to the
target resource and the status. -/
structure AsyncOperationDocument where
  ID : String
  ETag : String
  OpenShiftClusterKey : String
  Status : OperationStatus
  deriving DecidableEq, Repr

/-- A Go result `(*api.AsyncOperationDocument, error)`. -/
abbrev DocResult := Option AsyncOperationDocument × Option GoError

/-- The non-ASCII part of Go's `unicode.ToLower` is a table of the standard library;
it is the parameter `lowerTable` below.  On ASCII the mapping is the one of the Go
library: `A`..`Z` are shifted by `'a' - 'A'`, every other ASCII rune is kept. -/
def unicodeToLower (lowerTable : Char → Char) (r : Char) : Char :=
  if r.isUpper then Char.ofNat (r.toNat + 32)
  else if r.toNat < 128 then r
  else lowerTable r

/-- Go's `strings.ToLower` on a valid UTF-8 string: `unicode.ToLower` applied to every
rune. -/
def ToLower (lowerTable : Char → Char) (s : String) : String :=
  String.mk (s.data.map (unicodeToLower lowerTable))

/-- A rune whose lower-case form differs from it: an ASCII capital letter, or a
non-ASCII rune that the lower-case table changes.  These are the runes that
`strings.ToLower` changes. -/
def LowerCaseDiffers (lowerTable : Char → Char) (r : Char) : Prop :=
  r.isUpper = true ∨ (128 ≤ r.toNat ∧ lowerTable r ≠ r)

/-- An upper-case character in the sense of Go's `unicode.IsUpper`: on ASCII the capital
letters `A`..`Z`; the non-ASCII part (the letters of category Lu) is a table of the
standard library, the parameter `upperTable`. -/
def IsUpper (upperTable : Char → Bool) (r : Char) : Bool :=
  if r.toNat < 128 then r.isUpper else upperTable r

/-- The rune U+2102, DOUBLE-STRUCK CAPITAL C.  It is an upper-case letter (category Lu)
without a lower-case form: `unicode.IsUpper` holds of it and `unicode.ToLower` returns
it as it is. -/
def doubleStruckC : Char := Char.ofNat 0x2102

/-- The table of `unicode.IsUpper` as far as the concrete runs need it: it holds of
U+2102. -/
def upperTableC (r : Char) : Bool := r == doubleStruckC

/-! ## The store client and the ghost log -/

/-- Modelled from the spec: the interface `cosmosdb.AsyncOperationDocumentClient` is
declared outside the sources.  These are the three methods the repository calls, with
the argument lists of the call sites (`ctx` and the nil options are dropped); spec §6
names them `create`, `get` and `replace`.  Each method reads and updates the client
state. -/
structure AsyncOperationDocumentClient (σ : Type) where
  Create : String → AsyncOperationDocument → σ → DocResult × σ
  Get : String → String → σ → DocResult × σ
  Replace : String → AsyncOperationDocument → σ → DocResult × σ

/-- One recorded step: a call of a client method with its arguments and its result, or
an invocation of the mutator with the pointer it received, the pointee afterwards and the
error it returned. -/
inductive Event where
  | create (partitionkey : String) (doc : AsyncOperationDocument) (ret : DocResult)
  | get (partitionkey : String) (id : String) (ret : DocResult)
  | replace (partitionkey : String) (doc : AsyncOperationDocument) (ret : DocResult)
  | mutator (arg : Option AsyncOperationDocument) (out : Option AsyncOperationDocument)
      (err : Option GoError)
  deriving DecidableEq, Repr

/-- The state a repository call runs in: the state of the client and the log. -/
structure World (σ : Type) where
  store : σ
  log : List Event
  deriving DecidableEq, Repr

/-- How a Go call ended: it returned, it panicked, or (for the retry loop, which has no
bound) it is still running when the fuel of the model is used up. -/
inductive Outcome (α : Type) where
  | returned (a : α)
  | panicked
  | running
  deriving DecidableEq, Repr

/-- A Go closure `func(*api.AsyncOperationDocument) error` with captured state `μ`.
`run` is the call on a non-nil pointer: it may update the pointee and returns an error
or nil.  `runNil` is the call on a nil pointer, where there is no pointee to update. -/
structure Mutator (μ : Type) where
  run : AsyncOperationDocument → μ → (AsyncOperationDocument × Option GoError) × μ
  runNil : μ → Option GoError × μ

/-! ## `pkg/database/asyncoperations.go` -/

/-- The struct `asyncOperations`. -/
structure asyncOperations (σ : Type) where
  c : AsyncOperationDocumentClient σ

/-- The error of `fmt.Errorf("id %q is not lower case", id)`. -/
def notLowerCase (id : String) : GoError :=
  GoError.errorf "id %q is not lower case" [id]

/-- The method `asyncOperations.Create` (`doc` is a non-nil pointer). -/
def asyncOperations.Create {σ : Type} (a : asyncOperations σ) (lowerTable : Char → Char)
    (doc : AsyncOperationDocument) (w : World σ) : DocResult × World σ :=
  if doc.ID ≠ ToLower lowerTable doc.ID then
    ((none, some (notLowerCase doc.ID)), w)
  else
    let r := a.c.Create doc.ID doc w.store
    let w1 : World σ := ⟨r.2, w.log ++ [Event.create doc.ID doc r.1]⟩
    match r.1.2 with
    | some (GoError.cosmosdbError sc msg) =>
      if sc = StatusConflict then
        ((r.1.1, some (GoError.cosmosdbError StatusPreconditionFailed msg)), w1)
      else (r.1, w1)
    | _ => (r.1, w1)

/-- The method `asyncOperations.Get`. -/
def asyncOperations.Get {σ : Type} (a : asyncOperations σ) (lowerTable : Char → Char)
    (id : String) (w : World σ) : DocResult × World σ :=
  if id ≠ ToLower lowerTable id then
    ((none, some (notLowerCase id)), w)
  else
    let r := a.c.Get id id w.store
    (r.1, ⟨r.2, w.log ++ [Event.get id id r.1]⟩)

/-- Modelled from the spec: `cosmosdb.IsErrorStatusCode` is not among the sources.  An
error has a status code when it is a `*cosmosdb.Error`; nil and other errors have none. -/
def IsErrorStatusCode (err : Option GoError) (statusCode : Int) : Bool :=
  match err with
  | some (GoError.cosmosdbError sc _) => decide (sc = statusCode)
  | _ => false

/-- Modelled from the spec: `cosmosdb.RetryOnPreconditionFailed` is not among the
sources.  Spec §4.2, steps 5 and 6: the function is run again whenever it fails with
PreconditionFailed, and no retry limit is imposed; any other result ends the loop and is
returned.  A panic of the function unwinds through the loop.  The loop has no bound, so
the model takes fuel: the number of runs after which it reports `Outcome.running`. -/
def RetryOnPreconditionFailed {S : Type} (f : S → Outcome (Option GoError) × S) :
    Nat → S → Outcome (Option GoError) × S
  | 0, s => (Outcome.running, s)
  | fuel + 1, s =>
    match f s with
    | (Outcome.returned err, s1) =>
      if IsErrorStatusCode err StatusPreconditionFailed then
        RetryOnPreconditionFailed f fuel s1
      else (Outcome.returned err, s1)
    | r => r

/-- The variables the closure inside `Patch` works on: the captured `doc`, the world and
the state of the mutator. -/
structure PatchState (σ μ : Type) where
  doc : Option AsyncOperationDocument
  world : World σ
  captured : μ

/-- The closure that `asyncOperations.Patch` hands to `RetryOnPreconditionFailed`: one
attempt.  `doc.ID` on a nil `doc` is the one place where it can panic. -/
def asyncOperations.patchAttempt {σ μ : Type} (a : asyncOperations σ)
    (lowerTable : Char → Char) (id : String) (f : Mutator μ) (s : PatchState σ μ) :
    Outcome (Option GoError) × PatchState σ μ :=
  let g := a.Get lowerTable id s.world
  match g.1.2 with
  | some e => (Outcome.returned (some e), ⟨g.1.1, g.2, s.captured⟩)
  | none =>
    match g.1.1 with
    | none =>
      let m := f.runNil s.captured
      let w2 : World σ := ⟨g.2.store, g.2.log ++ [Event.mutator none none m.1]⟩
      match m.1 with
      | some e => (Outcome.returned (some e), ⟨none, w2, m.2⟩)
      | none => (Outcome.panicked, ⟨none, w2, m.2⟩)
    | some d =>
      let m := f.run d s.captured
      let w2 : World σ :=
        ⟨g.2.store, g.2.log ++ [Event.mutator (some d) (some m.1.1) m.1.2]⟩
      match m.1.2 with
      | some e => (Outcome.returned (some e), ⟨some m.1.1, w2, m.2⟩)
      | none =>
        let r := a.c.Replace m.1.1.ID m.1.1 w2.store
        (Outcome.returned r.1.2,
          ⟨r.1.1, ⟨r.2, w2.log ++ [Event.replace m.1.1.ID m.1.1 r.1]⟩, m.2⟩)

/-- The method `asyncOperations.Patch`: the closure is retried, then the captured `doc`
and the error of the loop are returned. -/
def asyncOperations.Patch {σ μ : Type} (a : asyncOperations σ) (lowerTable : Char → Char)
    (fuel : Nat) (id : String) (f : Mutator μ) (w : World σ) (m : μ) :
    Outcome DocResult × World σ × μ :=
  let r := RetryOnPreconditionFailed (a.patchAttempt lowerTable id f) fuel ⟨none, w, m⟩
  match r.1 with
  | Outcome.returned err => (Outcome.returned (r.2.doc, err), r.2.world, r.2.captured)
  | Outcome.panicked => (Outcome.panicked, r.2.world, r.2.captured)
  | Outcome.running => (Outcome.running, r.2.world, r.2.captured)

/-! ## A store that honours the contract, and clients that script a run -/

/-- Modelled from the spec: the document store itself is outside the sources.  Spec §3,
§4.1 and §6: documents are keyed by ID, and every successful write assigns a version
token that was not used before (the count of writes so far names the next token). -/
structure MemStore where
  docs : List AsyncOperationDocument
  writes : Nat
  deriving DecidableEq, Repr

/-- Modelled from the spec: the version token of the write number `n` (spec §3: an
opaque value, changed on every successful write). -/
def MemStore.token (n : Nat) : String :=
  String.mk (List.replicate (n + 1) '#')

/-- Modelled from the spec: the stored document with the given ID, if any. -/
def MemStore.lookup (s : MemStore) (id : String) : Option AsyncOperationDocument :=
  s.docs.find? (fun d => d.ID == id)

/-- Modelled from the spec: a successful write stores the document under a new version
token (spec §3) and hands the stored document back (spec §6). -/
def MemStore.put (s : MemStore) (doc : AsyncOperationDocument) :
    AsyncOperationDocument × MemStore :=
  let d : AsyncOperationDocument := { doc with ETag := MemStore.token s.writes }
  (d, ⟨d :: s.docs.filter (fun x => x.ID != doc.ID), s.writes + 1⟩)

/-- Modelled from the spec: the store contract of spec §4.1 and §6.  `create` fails with
Conflict when a document with the same ID exists; `get` fails with NotFound when the
document is absent; `replace` fails with PreconditionFailed when the stored version
token differs from the one presented (and with NotFound when there is nothing to
replace, a case the spec leaves open). -/
def memClient : AsyncOperationDocumentClient MemStore where
  Create := fun _ doc s =>
    match s.lookup doc.ID with
    | some _ => ((none, some (GoError.cosmosdbError StatusConflict "Conflict")), s)
    | none => ((some (s.put doc).1, none), (s.put doc).2)
  Get := fun _ id s =>
    match s.lookup id with
    | some d => ((some d, none), s)
    | none => ((none, some (GoError.cosmosdbError StatusNotFound "NotFound")), s)
  Replace := fun _ doc s =>
    match s.lookup doc.ID with
    | none => ((none, some (GoError.cosmosdbError StatusNotFound "NotFound")), s)
    | some d =>
      if d.ETag = doc.ETag then ((some (s.put doc).1, none), (s.put doc).2)
      else ((none, some (GoError.cosmosdbError StatusPreconditionFailed "PreconditionFailed")), s)

/-- The repository over the contract-honouring store. -/
def memRepo : asyncOperations MemStore := ⟨memClient⟩

/-- An operation document used in the concrete runs. -/
def op1 : AsyncOperationDocument :=
  { ID := "op-1", ETag := "", OpenShiftClusterKey := "cluster", Status := OperationStatus.InProgress }

/-- An operation document whose ID is the one rune U+2102. -/
def opC : AsyncOperationDocument :=
  { ID := String.mk [doubleStruckC], ETag := "", OpenShiftClusterKey := "cluster",
    Status := OperationStatus.InProgress }

/-- The store holding `op1` after its creation, with an empty log. -/
def world1 : World MemStore :=
  ⟨⟨[{ op1 with ETag := MemStore.token 0 }], 1⟩, []⟩

/-- A mutator that sets the status and never fails. -/
def setStatus (st : OperationStatus) : Mutator Unit where
  run := fun d m => (({ d with Status := st }, none), m)
  runNil := fun m => (none, m)

/-- A mutator whose captured counter makes it fail with a PreconditionFailed store error
on its first call (as when it forwards the error of a nested store operation) and return
`later` on every call after that. -/
def failsOnceWith412 (later : Option GoError) : Mutator Nat where
  run := fun d n =>
    if n = 0 then
      ((d, some (GoError.cosmosdbError StatusPreconditionFailed "PreconditionFailed")), n + 1)
    else (({ d with Status := OperationStatus.Failed }, later), n + 1)
  runNil := fun n => (later, n + 1)

/-- A mutator without captured state that leaves the document alone and fails with the
given error on every call. -/
def failsWith (e : GoError) : Mutator Unit where
  run := fun d m => ((d, some e), m)
  runNil := fun m => (some e, m)

/-- A client that scripts contention: its state counts the replace calls made so far.
Every get returns `op1` as stored; the first `k` replace calls are beaten by another
writer and fail with PreconditionFailed, every later one succeeds. -/
def contendedClient (k : Nat) : AsyncOperationDocumentClient Nat where
  Create := fun _ doc n => ((some doc, none), n)
  Get := fun _ _ n => ((some { op1 with ETag := MemStore.token 0 }, none), n)
  Replace := fun _ doc n =>
    if n < k then
      ((none, some (GoError.cosmosdbError StatusPreconditionFailed "PreconditionFailed")), n + 1)
    else ((some { doc with ETag := MemStore.token 1 }, none), n + 1)

/-- The run in which the store's replace fails with PreconditionFailed on the first `k`
attempts and succeeds on the next one, every get returning a document with a nil error
and the mutator returning nil throughout; `st` and `m` are the states of the store and
of the mutator when the first of these attempts starts. -/
def replaceFailsThenSucceeds {σ μ : Type} (a : asyncOperations σ) (id : String)
    (f : Mutator μ) : Nat → σ → μ → Bool
  | 0, st, m =>
    match (a.c.Get id id st).1 with
    | (some d, none) =>
      match (f.run d m).1.2 with
      | none =>
        (a.c.Replace (f.run d m).1.1.ID (f.run d m).1.1 (a.c.Get id id st).2).1.2.isNone
      | some _ => false
    | _ => false
  | k + 1, st, m =>
    match (a.c.Get id id st).1 with
    | (some d, none) =>
      match (f.run d m).1.2 with
      | none =>
        IsErrorStatusCode
            (a.c.Replace (f.run d m).1.1.ID (f.run d m).1.1 (a.c.Get id id st).2).1.2
            StatusPreconditionFailed &&
          replaceFailsThenSucceeds a id f k
            (a.c.Replace (f.run d m).1.1.ID (f.run d m).1.1 (a.c.Get id id st).2).2
            (f.run d m).2
      | some _ => false
    | _ => false

/-! ## Reading the log -/

/-- Is the event a store get? -/
def Event.isGet : Event → Bool
  | Event.get _ _ _ => true
  | _ => false

/-- Is the event a store replace? -/
def Event.isReplace : Event → Bool
  | Event.replace _ _ _ => true
  | _ => false

/-- Is the event an invocation of the mutator? -/
def Event.isMutator : Event → Bool
  | Event.mutator _ _ _ => true
  | _ => false

/-- The number of store gets in a log. -/
def getCount (log : List Event) : Nat := log.countP Event.isGet

/-- The number of store replaces in a log. -/
def replaceCount (log : List Event) : Nat := log.countP Event.isReplace

/-- The number of mutator invocations in a log. -/
def mutatorCount (log : List Event) : Nat := log.countP Event.isMutator

/-- The events one attempt of `Patch` adds to the log for a canonical id, with the
outcome of the closure: the get failed; the get returned nil and nil and the mutator
failed on the nil pointer, or did not and `doc.ID` panicked; the mutator failed on the
fetched document; or the mutated document was submitted to replace. -/
inductive AttemptLog {μ : Type} (id : String) (f : Mutator μ) :
    List Event → Outcome (Option GoError) → Prop where
  | getFailed (rd : Option AsyncOperationDocument) (e : GoError) :
      AttemptLog id f [Event.get id id (rd, some e)] (Outcome.returned (some e))
  | nilFailed (mu : μ) (e : GoError) : (f.runNil mu).1 = some e →
      AttemptLog id f [Event.get id id (none, none), Event.mutator none none (some e)]
        (Outcome.returned (some e))
  | nilPanicked (mu : μ) : (f.runNil mu).1 = none →
      AttemptLog id f [Event.get id id (none, none), Event.mutator none none none]
        Outcome.panicked
  | mutatorFailed (d : AsyncOperationDocument) (mu : μ) (e : GoError) :
      (f.run d mu).1.2 = some e →
      AttemptLog id f
        [Event.get id id (some d, none),
          Event.mutator (some d) (some (f.run d mu).1.1) (some e)]
        (Outcome.returned (some e))
  | replaced (d : AsyncOperationDocument) (mu : μ) (ret : DocResult) :
      (f.run d mu).1.2 = none →
      AttemptLog id f
        [Event.get id id (some d, none),
          Event.mutator (some d) (some (f.run d mu).1.1) none,
          Event.replace (f.run d mu).1.1.ID (f.run d mu).1.1 ret]
        (Outcome.returned ret.2)

/-- The events a run of `Patch` adds to the log, with the outcome of the retry loop: a
sequence of attempts in which every attempt but the last failed with PreconditionFailed.
The run ends with an attempt that did not, or (in the model) with the fuel used up; for
an id that is not canonical it ends at once, with nothing logged. -/
inductive PatchLog {μ : Type} (lowerTable : Char → Char) (id : String) (f : Mutator μ) :
    List Event → Outcome (Option GoError) → Prop where
  | outOfFuel : PatchLog lowerTable id f [] Outcome.running
  | invalidId : id ≠ ToLower lowerTable id →
      PatchLog lowerTable id f [] (Outcome.returned (some (notLowerCase id)))
  | last (b : List Event) (o : Outcome (Option GoError)) :
      id = ToLower lowerTable id → AttemptLog id f b o →
      (∀ err, o = Outcome.returned err →
        IsErrorStatusCode err StatusPreconditionFailed = false) →
      PatchLog lowerTable id f b o
  | retried (b : List Event) (err : Option GoError) (rest : List Event)
      (o : Outcome (Option GoError)) :
      id = ToLower lowerTable id → AttemptLog id f b (Outcome.returned err) →
      IsErrorStatusCode err StatusPreconditionFailed = true →
      PatchLog lowerTable id f rest o →
      PatchLog lowerTable id f (b ++ rest) o

/-- The store before anything was written, with an empty log. -/
def world0 : World MemStore :=
  ⟨⟨[], 0⟩, []⟩

/-- The terminal states of spec §4.3: every status but InProgress. -/
def OperationStatus.isTerminal : OperationStatus → Bool
  | OperationStatus.InProgress => false
  | _ => true

/-- The store holding `op1` in status Succeeded, with an empty log. -/
def worldSucceeded : World MemStore :=
  ⟨⟨[{ op1 with ETag := MemStore.token 0, Status := OperationStatus.Succeeded }], 1⟩, []⟩

/-- A mutator that moves an operation out of InProgress to the given status and leaves
an operation in a terminal status as it is. -/
def completeWith (st : OperationStatus) : Mutator Unit where
  run := fun d m =>
    if d.Status = OperationStatus.InProgress then (({ d with Status := st }, none), m)
    else ((d, none), m)
  runNil := fun m => (none, m)

/-! ## `pkg/database/portal.go` -/

/-- Modelled from the spec: `api.PortalDocument` is declared outside the sources.  The
code reads the field `ID`; spec §3 gives it the same identifier and version contract as
the operation document and a payload of its own (session metadata). -/
structure PortalDocument where
  ID : String
  ETag : String
  Session : String
  deriving DecidableEq, Repr

/-- A Go result `(*api.PortalDocument, error)`. -/
abbrev PortalDocResult := Option PortalDocument × Option GoError

/-- Modelled from the spec: the interface `cosmosdb.PortalDocumentClient` is declared
outside the sources.  These are the three methods `portals` calls, with the argument
lists of the call sites (`ctx` and the nil options are dropped). -/
structure PortalDocumentClient (σ : Type) where
  Create : String → PortalDocument → σ → PortalDocResult × σ
  Get : String → String → σ → PortalDocResult × σ
  Replace : String → PortalDocument → σ → PortalDocResult × σ

/-- One recorded step of the portal repository: a call of a client method with its
arguments and its result, or an invocation of the mutator. -/
inductive PortalEvent where
  | create (partitionkey : String) (doc : PortalDocument) (ret : PortalDocResult)
  | get (partitionkey : String) (id : String) (ret : PortalDocResult)
  | replace (partitionkey : String) (doc : PortalDocument) (ret : PortalDocResult)
  | mutator (arg : Option PortalDocument) (out : Option PortalDocument)
      (err : Option GoError)
  deriving DecidableEq, Repr

/-- The state a call of the portal repository runs in. -/
structure PortalWorld (σ : Type) where
  store : σ
  log : List PortalEvent
  deriving DecidableEq, Repr

/-- A Go closure `func(*api.PortalDocument) error` with captured state `μ`. -/
structure PortalMutator (μ : Type) where
  run : PortalDocument → μ → (PortalDocument × Option GoError) × μ
  runNil : μ → Option GoError × μ

/-- The struct `portals`. -/
structure portals (σ : Type) where
  c : PortalDocumentClient σ

/-- The method `portals.Create` (`doc` is a non-nil pointer). -/
def portals.Create {σ : Type} (a : portals σ) (lowerTable : Char → Char)
    (doc : PortalDocument) (w : PortalWorld σ) : PortalDocResult × PortalWorld σ :=
  if doc.ID ≠ ToLower lowerTable doc.ID then
    ((none, some (notLowerCase doc.ID)), w)
  else
    let r := a.c.Create doc.ID doc w.store
    let w1 : PortalWorld σ := ⟨r.2, w.log ++ [PortalEvent.create doc.ID doc r.1]⟩
    match r.1.2 with
    | some (GoError.cosmosdbError sc msg) =>
      if sc = StatusConflict then
        ((r.1.1, some (GoError.cosmosdbError StatusPreconditionFailed msg)), w1)
      else (r.1, w1)
    | _ => (r.1, w1)

/-- The method `portals.Get`. -/
def portals.Get {σ : Type} (a : portals σ) (lowerTable : Char → Char)
    (id : String) (w : PortalWorld σ) : PortalDocResult × PortalWorld σ :=
  if id ≠ ToLower lowerTable id then
    ((none, some (notLowerCase id)), w)
  else
    let r := a.c.Get id id w.store
    (r.1, ⟨r.2, w.log ++ [PortalEvent.get id id r.1]⟩)

/-- The variables the closure inside `portals.Patch` works on. -/
structure PortalPatchState (σ μ : Type) where
  doc : Option PortalDocument
  world : PortalWorld σ
  captured : μ

/-- The closure that `portals.Patch` hands to `RetryOnPreconditionFailed`: one
attempt. -/
def portals.patchAttempt {σ μ : Type} (a : portals σ) (lowerTable : Char → Char)
    (id : String) (f : PortalMutator μ) (s : PortalPatchState σ μ) :
    Outcome (Option GoError) × PortalPatchState σ μ :=
  let g := a.Get lowerTable id s.world
  match g.1.2 with
  | some e => (Outcome.returned (some e), ⟨g.1.1, g.2, s.captured⟩)
  | none =>
    match g.1.1 with
    | none =>
      let m := f.runNil s.captured
      let w2 : PortalWorld σ :=
        ⟨g.2.store, g.2.log ++ [PortalEvent.mutator none none m.1]⟩
      match m.1 with
      | some e => (Outcome.returned (some e), ⟨none, w2, m.2⟩)
      | none => (Outcome.panicked, ⟨none, w2, m.2⟩)
    | some d =>
      let m := f.run d s.captured
      let w2 : PortalWorld σ :=
        ⟨g.2.store, g.2.log ++ [PortalEvent.mutator (some d) (some m.1.1) m.1.2]⟩
      match m.1.2 with
      | some e => (Outcome.returned (some e), ⟨some m.1.1, w2, m.2⟩)
      | none =>
        let r := a.c.Replace m.1.1.ID m.1.1 w2.store
        (Outcome.returned r.1.2,
          ⟨r.1.1, ⟨r.2, w2.log ++ [PortalEvent.replace m.1.1.ID m.1.1 r.1]⟩, m.2⟩)

/-- The method `portals.Patch`. -/
def portals.Patch {σ μ : Type} (a : portals σ) (lowerTable : Char → Char)
    (fuel : Nat) (id : String) (f : PortalMutator μ) (w : PortalWorld σ) (m : μ) :
    Outcome PortalDocResult × PortalWorld σ × μ :=
  let r := RetryOnPreconditionFailed (a.patchAttempt lowerTable id f) fuel ⟨none, w, m⟩
  match r.1 with
  | Outcome.returned err => (Outcome.returned (r.2.doc, err), r.2.world, r.2.captured)
  | Outcome.panicked => (Outcome.panicked, r.2.world, r.2.captured)
  | Outcome.running => (Outcome.running, r.2.world, r.2.captured)

/-! ## Reading the portal repository in terms of operation documents

`toAsync` is any way of writing a portal document as an operation document and `ofAsync`
reads it back; everything the portal repository handles is carried over along them. -/

/-- A result of the portal client or repository, carried over. -/
def asAsyncResult (toAsync : PortalDocument → AsyncOperationDocument)
    (r : PortalDocResult) : DocResult :=
  (r.1.map toAsync, r.2)

/-- An event of the portal log, carried over. -/
def asAsyncEvent (toAsync : PortalDocument → AsyncOperationDocument) :
    PortalEvent → Event
  | PortalEvent.create pk doc ret => Event.create pk (toAsync doc) (asAsyncResult toAsync ret)
  | PortalEvent.get pk id ret => Event.get pk id (asAsyncResult toAsync ret)
  | PortalEvent.replace pk doc ret =>
    Event.replace pk (toAsync doc) (asAsyncResult toAsync ret)
  | PortalEvent.mutator arg out err => Event.mutator (arg.map toAsync) (out.map toAsync) err

/-- A world of the portal repository, carried over: same store state, the log event by
event. -/
def asAsyncWorld {σ : Type} (toAsync : PortalDocument → AsyncOperationDocument)
    (w : PortalWorld σ) : World σ :=
  ⟨w.store, w.log.map (asAsyncEvent toAsync)⟩

/-- A portal client seen as a client for operation documents. -/
def asAsyncClient {σ : Type} (toAsync : PortalDocument → AsyncOperationDocument)
    (ofAsync : AsyncOperationDocument → PortalDocument) (c : PortalDocumentClient σ) :
    AsyncOperationDocumentClient σ where
  Create := fun pk doc s =>
    (asAsyncResult toAsync (c.Create pk (ofAsync doc) s).1, (c.Create pk (ofAsync doc) s).2)
  Get := fun pk id s => (asAsyncResult toAsync (c.Get pk id s).1, (c.Get pk id s).2)
  Replace := fun pk doc s =>
    (asAsyncResult toAsync (c.Replace pk (ofAsync doc) s).1,
      (c.Replace pk (ofAsync doc) s).2)

/-- A mutator of portal documents seen as a mutator of operation documents. -/
def asAsyncMutator {μ : Type} (toAsync : PortalDocument → AsyncOperationDocument)
    (ofAsync : AsyncOperationDocument → PortalDocument) (f : PortalMutator μ) :
    Mutator μ where
  run := fun doc m =>
    ((toAsync (f.run (ofAsync doc) m).1.1, (f.run (ofAsync doc) m).1.2),
      (f.run (ofAsync doc) m).2)
  runNil := f.runNil

/-- The state of the closure in `portals.Patch`, carried over. -/
def asAsyncState {σ μ : Type} (toAsync : PortalDocument → AsyncOperationDocument)
    (s : PortalPatchState σ μ) : PatchState σ μ :=
  ⟨s.doc.map toAsync, asAsyncWorld toAsync s.world, s.captured⟩

/-- The outcome of `portals.Patch`, carried over. -/
def asAsyncOutcome (toAsync : PortalDocument → AsyncOperationDocument) :
    Outcome PortalDocResult → Outcome DocResult
  | Outcome.returned r => Outcome.returned (asAsyncResult toAsync r)
  | Outcome.panicked => Outcome.panicked
  | Outcome.running => Outcome.running

/-- One way of writing a portal document as an operation document: the session takes the
place of the cluster key. -/
def sessionAsOperation (d : PortalDocument) : AsyncOperationDocument :=
  { ID := d.ID, ETag := d.ETag, OpenShiftClusterKey := d.Session,
    Status := OperationStatus.InProgress }

/-- Reading back what `sessionAsOperation` wrote. -/
def operationAsSession (a : AsyncOperationDocument) : PortalDocument :=
  { ID := a.ID, ETag := a.ETag, Session := a.OpenShiftClusterKey }

/-- A portal client over a store of at most one session document, keyed by nothing but
its presence: create fails with Conflict when a document is there, get fails with
NotFound when none is, replace stores what it is given. -/
def sessionClient : PortalDocumentClient (Option PortalDocument) where
  Create := fun _ doc s =>
    match s with
    | some _ => ((none, some (GoError.cosmosdbError StatusConflict "Conflict")), s)
    | none => ((some doc, none), some doc)
  Get := fun _ _ s =>
    match s with
    | some d => ((some d, none), s)
    | none => ((none, some (GoError.cosmosdbError StatusNotFound "NotFound")), s)
  Replace := fun _ doc _ => ((some doc, none), some doc)

/-- A mutator of portal documents that renews the session and never fails. -/
def renewSession : PortalMutator Unit where
  run := fun d m => (({ d with Session := "renewed" }, none), m)
  runNil := fun m => (none, m)

/-- A session document used in the concrete runs. -/
def session1 : PortalDocument :=
  { ID := "session-1", ETag := "", Session := "fresh" }

end Database

/-! # `pkg/deploy/config.go`

The code walks over `Configuration` by reflection, so the struct is embedded the way
`reflect` sees it: a table of fields (name, type, `value` tag) in declaration order, and
a value for every field index. -/

namespace Deploy

/-- The field types that occur in `Configuration`: `*string`, `*bool`, `*int`,
`[]interface{}` and `[]string`. -/
inductive Kind where
  | stringPtr
  | boolPtr
  | intPtr
  | interfaceSlice
  | stringSlice
  deriving DecidableEq, Repr

/-- What `reflect` tells about one field of a struct type: its Go name, its type and
whether it carries the tag `value:"required"`. -/
structure StructField where
  Name : String
  Typ : Kind
  required : Bool
  deriving DecidableEq, Repr

/-- The fields of the struct `Configuration`, in declaration order. -/
def ConfigurationType : List StructField :=
  [
    ⟨"ACRLocationOverride", Kind.stringPtr, false⟩,
    ⟨"ACRResourceID", Kind.stringPtr, true⟩,
    ⟨"RPVersionStorageAccountName", Kind.stringPtr, true⟩,
    ⟨"ACRReplicaDisabled", Kind.boolPtr, false⟩,
    ⟨"AdminAPICABundle", Kind.stringPtr, true⟩,
    ⟨"AdminAPIClientCertCommonName", Kind.stringPtr, true⟩,
    ⟨"ARMAPICABundle", Kind.stringPtr, false⟩,
    ⟨"ARMAPIClientCertCommonName", Kind.stringPtr, false⟩,
    ⟨"ARMClientID", Kind.stringPtr, false⟩,
    ⟨"BillingE2EStorageAccountID", Kind.stringPtr, false⟩,
    ⟨"BillingServicePrincipalID", Kind.stringPtr, false⟩,
    ⟨"ClusterMDSDConfigVersion", Kind.stringPtr, true⟩,
    ⟨"ClusterParentDomainName", Kind.stringPtr, true⟩,
    ⟨"DatabaseAccountName", Kind.stringPtr, true⟩,
    ⟨"ExtraClusterKeyvaultAccessPolicies", Kind.interfaceSlice, true⟩,
    ⟨"ExtraCosmosDBIPs", Kind.stringSlice, false⟩,
    ⟨"ExtraPortalKeyvaultAccessPolicies", Kind.interfaceSlice, true⟩,
    ⟨"ExtraServiceKeyvaultAccessPolicies", Kind.interfaceSlice, true⟩,
    ⟨"FPClientID", Kind.stringPtr, true⟩,
    ⟨"FPServerCertCommonName", Kind.stringPtr, false⟩,
    ⟨"FPServicePrincipalID", Kind.stringPtr, true⟩,
    ⟨"GlobalResourceGroupName", Kind.stringPtr, true⟩,
    ⟨"GlobalResourceGroupLocation", Kind.stringPtr, true⟩,
    ⟨"GlobalSubscriptionID", Kind.stringPtr, true⟩,
    ⟨"KeyvaultPrefix", Kind.stringPtr, true⟩,
    ⟨"MDMFrontendURL", Kind.stringPtr, true⟩,
    ⟨"MDSDEnvironment", Kind.stringPtr, true⟩,
    ⟨"PortalAccessGroupIDs", Kind.stringSlice, true⟩,
    ⟨"PortalClientID", Kind.stringPtr, true⟩,
    ⟨"PortalElevatedGroupIDs", Kind.stringSlice, true⟩,
    ⟨"RPFeatures", Kind.stringSlice, false⟩,
    ⟨"RPImagePrefix", Kind.stringPtr, true⟩,
    ⟨"RPMDSDConfigVersion", Kind.stringPtr, true⟩,
    ⟨"RPNSGSourceAddressPrefixes", Kind.stringSlice, true⟩,
    ⟨"RPParentDomainName", Kind.stringPtr, true⟩,
    ⟨"SubscriptionResourceGroupName", Kind.stringPtr, true⟩,
    ⟨"SubscriptionResourceGroupLocation", Kind.stringPtr, true⟩,
    ⟨"RPVMSSCapacity", Kind.intPtr, false⟩,
    ⟨"SSHPublicKey", Kind.stringPtr, true⟩,
    ⟨"StorageAccountDomain", Kind.stringPtr, true⟩,
    ⟨"VMSize", Kind.stringPtr, true⟩
  ]

/-- The result of `NumField()` on a `Configuration`. -/
def NumField : Nat := 41

/-- An element of a `[]interface{}`: a decoded YAML value, kept as its text. -/
structure Interface where
  yaml : String
  deriving DecidableEq, Repr

/-- The value of one field: a pointer is `none` when nil, a slice is `none` when nil
(an empty slice that is not nil is `some []`). -/
inductive Value where
  | stringPtr (p : Option String)
  | boolPtr (p : Option Bool)
  | intPtr (p : Option Int)
  | interfaceSlice (s : Option (List Interface))
  | stringSlice (s : Option (List String))
  deriving DecidableEq, Repr

/-- Go's `reflect.Value.IsZero` on a field of `Configuration`: a pointer is zero when it
is nil, a slice is zero when it is nil. -/
def Value.IsZero : Value → Bool
  | Value.stringPtr p => p.isNone
  | Value.boolPtr p => p.isNone
  | Value.intPtr p => p.isNone
  | Value.interfaceSlice s => s.isNone
  | Value.stringSlice s => s.isNone

/-- A value of the struct `Configuration`: `c i` is what `Field(i)` yields. -/
abbrev Configuration := Fin NumField → Value

/-- The loop of `mergeConfig` over the field indices still to visit: a zero field of
`primary` is set to the field of `secondary` with the same index.  `secondary` is the
pointer as passed; `Field(i)` on the `Elem()` of a nil pointer panics, which is `none`. -/
def mergeFields (secondary : Option Configuration) :
    List (Fin NumField) → Configuration → Option Configuration
  | [], p => some p
  | i :: rest, p =>
    if (p i).IsZero then
      match secondary with
      | none => none
      | some s => mergeFields secondary rest (Function.update p i (s i))
    else mergeFields secondary rest p

/-- The function `mergeConfig`.  `primary` is updated in place and returned, with a nil
error; `NumField()` on the `Elem()` of a nil `primary` panics. -/
def mergeConfig (primary secondary : Option Configuration) :
    Database.Outcome (Option Configuration × Option Database.GoError) :=
  match primary with
  | none => Database.Outcome.panicked
  | some p =>
    match mergeFields secondary (List.finRange NumField) p with
    | none => Database.Outcome.panicked
    | some q => Database.Outcome.returned (some q, none)

/-- What `v.Type().Field(i)` yields for a `Configuration`. -/
def typeField (i : Fin NumField) : StructField :=
  ConfigurationType.getD i.val ⟨"", Kind.stringPtr, false⟩

/-- The struct `RPConfig`. -/
structure RPConfig where
  Location : String
  SubscriptionID : String
  RPResourceGroupName : String
  Configuration : Option Configuration

/-- The struct `Config`. -/
structure Config where
  RPs : List RPConfig
  Configuration : Option Configuration

/-- The loop of `validate` over the field indices still to visit: the name of a field is
appended to `missingFields` when the field carries the tag `value:"required"` and is
zero. -/
def missingFieldsLoop (c : Configuration) : List (Fin NumField) → List String → List String
  | [], missingFields => missingFields
  | i :: rest, missingFields =>
    if (typeField i).required && (c i).IsZero then
      missingFieldsLoop c rest (missingFields ++ [(typeField i).Name])
    else missingFieldsLoop c rest missingFields

/-- The method `RPConfig.validate`.  `*configuration` on a nil `Configuration` panics;
`strings.Join` is `String.intercalate`. -/
def RPConfig.validate (conf : RPConfig) : Database.Outcome (Option Database.GoError) :=
  match conf.Configuration with
  | none => Database.Outcome.panicked
  | some c =>
    let missingFields := missingFieldsLoop c (List.finRange NumField) []
    if missingFields.length = 0 then Database.Outcome.returned none
    else
      Database.Outcome.returned
        (some (Database.GoError.errorf "configuration has missing fields: %s"
          [String.intercalate "," missingFields]))

/-- The loop of `GetConfig` over `config.RPs`: the first entry whose `Location` is the
requested one is returned as a copy with its `Configuration` replaced by the result of
`mergeConfig`; without such an entry the result is the "not found" error. -/
def getConfigLoop (config : Config) (path location : String) :
    List RPConfig → Database.Outcome (Option RPConfig × Option Database.GoError)
  | [] =>
    Database.Outcome.returned
      (none, some (Database.GoError.errorf "location %s not found in %s" [location, path]))
  | c :: rest =>
    if c.Location = location then
      match mergeConfig c.Configuration config.Configuration with
      | Database.Outcome.returned (_, some err) => Database.Outcome.returned (none, some err)
      | Database.Outcome.returned (configuration, none) =>
        Database.Outcome.returned (some { c with Configuration := configuration }, none)
      | Database.Outcome.panicked => Database.Outcome.panicked
      | Database.Outcome.running => Database.Outcome.running
    else getConfigLoop config path location rest

/-- The function `GetConfig`.  Reading the file and decoding the YAML are done by
libraries: `readFile` stands for `ioutil.ReadFile` and `unmarshal` for `yaml.Unmarshal`
into `config`, which stays nil when the document is empty; `config.RPs` on a nil
`config` panics. -/
def GetConfig (readFile : String → String × Option Database.GoError)
    (unmarshal : String → Option Config × Option Database.GoError)
    (path location : String) :
    Database.Outcome (Option RPConfig × Option Database.GoError) :=
  match (readFile path).2 with
  | some err => Database.Outcome.returned (none, some err)
  | none =>
    match unmarshal (readFile path).1 with
    | (_, some err) => Database.Outcome.returned (none, some err)
    | (none, none) => Database.Outcome.panicked
    | (some config, none) => getConfigLoop config path location config.RPs

/-- The names of the fields that carry the tag `value:"required"` and are zero, in
declaration order. -/
def zeroRequiredFields (c : Configuration) : List String :=
  ((List.finRange NumField).filter
    (fun i => (typeField i).required && (c i).IsZero)).map (fun i => (typeField i).Name)

/-- A Configuration in which every field is zero. -/
def zeroConfiguration : Configuration := fun i =>
  match (typeField i).Typ with
  | Kind.stringPtr => Value.stringPtr none
  | Kind.boolPtr => Value.boolPtr none
  | Kind.intPtr => Value.intPtr none
  | Kind.interfaceSlice => Value.interfaceSlice none
  | Kind.stringSlice => Value.stringSlice none

/-- A Configuration in which every field is set. -/
def fullConfiguration : Configuration := fun i =>
  match (typeField i).Typ with
  | Kind.stringPtr => Value.stringPtr (some "value")
  | Kind.boolPtr => Value.boolPtr (some true)
  | Kind.intPtr => Value.intPtr (some 3)
  | Kind.interfaceSlice => Value.interfaceSlice (some [])
  | Kind.stringSlice => Value.stringSlice (some [])

/-- A config file, decoded: the entry for `eastus` has no `configuration` block of its
own, the one for `westeurope` has an empty one, and the file has a top-level one. -/
def exampleConfig : Config :=
  { RPs :=
      [{ Location := "eastus", SubscriptionID := "sub-1", RPResourceGroupName := "rp-eastus",
         Configuration := none },
       { Location := "westeurope", SubscriptionID := "sub-2",
         RPResourceGroupName := "rp-westeurope", Configuration := some zeroConfiguration }],
    Configuration := some fullConfiguration }

end Deploy

/-! # `cmd/aro/rp.go`: the shutdown sequence

The goroutine that runs `rp` is sequential code that blocks on channels; everything else
(the runtime delivering SIGTERM, the backend loop, the frontend loop) is its environment.
A run is a schedule: a list of atomic actions, each one either a step of `rp` or an
action of the environment on one of the channels `rp` created. -/

namespace Main

/-- Where the goroutine running `rp` stands once both loops have been started: the
statements of lines 148 to 154, and the state after a panic (closing a closed
channel). -/
inductive Pc where
  | awaitSigterm
  | closeStop
  | awaitDoneB
  | awaitDoneF
  | returnNil
  | returned
  | panicked
  deriving DecidableEq, Repr

/-- What can be observed of a run.  The first three are actions of the environment: a
SIGTERM reaches the process, the backend loop fires its completion signal `doneB` (it
closes the channel or offers a value on it), the frontend loop fires `doneF`.  The others
are the steps of `rp`: `<-sigterm`, `close(stop)`, `<-doneB`, `<-doneF`, `return nil`. -/
inductive Ev where
  | sigtermNotified
  | backendDone
  | frontendDone
  | sigtermReceived
  | stopClosed
  | doneBReceived
  | doneFReceived
  | rpReturned
  deriving DecidableEq, Repr

/-- Is the event a step of `rp` itself? -/
def Ev.isRp : Ev → Bool
  | Ev.sigtermNotified => false
  | Ev.backendDone => false
  | Ev.frontendDone => false
  | _ => true

/-- The channels `rp` made and its position: `sigterm` counts the values buffered in the
channel of capacity 1, `stop` tells whether the channel is closed, `doneB` and `doneF`
tell whether a receive on the channel can proceed (the loop closed it or stands ready to
send).  `log` is the run so far. -/
structure State where
  pc : Pc
  sigterm : Nat
  stop : Bool
  doneB : Bool
  doneF : Bool
  log : List Ev
  deriving DecidableEq, Repr

/-- One atomic action of a schedule. -/
inductive Action where
  | notifySigterm
  | backendFires
  | frontendFires
  | rpStep
  deriving DecidableEq, Repr

/-- The state right after `go f.Run(ctx, stop, doneF)`: four fresh channels, `rp` about
to execute `<-sigterm`. -/
def init : State :=
  ⟨Pc.awaitSigterm, 0, false, false, false, []⟩

/-- The next statement of `rp`.  A receive that cannot proceed leaves the state as it
is (the goroutine stays blocked); `close` of a closed channel panics. -/
def rpStep (s : State) : State :=
  match s.pc with
  | Pc.awaitSigterm =>
    if 0 < s.sigterm then
      { s with pc := Pc.closeStop, sigterm := s.sigterm - 1,
               log := s.log ++ [Ev.sigtermReceived] }
    else s
  | Pc.closeStop =>
    if s.stop then { s with pc := Pc.panicked }
    else { s with pc := Pc.awaitDoneB, stop := true, log := s.log ++ [Ev.stopClosed] }
  | Pc.awaitDoneB =>
    if s.doneB then { s with pc := Pc.awaitDoneF, log := s.log ++ [Ev.doneBReceived] }
    else s
  | Pc.awaitDoneF =>
    if s.doneF then { s with pc := Pc.returnNil, log := s.log ++ [Ev.doneFReceived] }
    else s
  | Pc.returnNil => { s with pc := Pc.returned, log := s.log ++ [Ev.rpReturned] }
  | Pc.returned => s
  | Pc.panicked => s

/-- One action.  `signal.Notify` never blocks: a SIGTERM that finds the buffer of
`sigterm` full is dropped.  The loops hold `stop` only to receive from it. -/
def step (s : State) : Action → State
  | Action.notifySigterm =>
    { s with sigterm := if s.sigterm < 1 then 1 else s.sigterm,
             log := s.log ++ [Ev.sigtermNotified] }
  | Action.backendFires => { s with doneB := true, log := s.log ++ [Ev.backendDone] }
  | Action.frontendFires => { s with doneF := true, log := s.log ++ [Ev.frontendDone] }
  | Action.rpStep => rpStep s

/-- The state a schedule leads to. -/
def run (sched : List Action) (s : State) : State :=
  sched.foldl step s

/-- In the log every occurrence of `b` has an `a` somewhere before it. -/
def Precedes (a b : Ev) (log : List Ev) : Prop :=
  ∀ pre post, log = pre ++ b :: post → a ∈ pre

/-- The steps `rp` has taken when it stands at a given position. -/
def stepsTaken : Pc → List Ev
  | Pc.awaitSigterm => []
  | Pc.closeStop => [Ev.sigtermReceived]
  | Pc.awaitDoneB => [Ev.sigtermReceived, Ev.stopClosed]
  | Pc.awaitDoneF => [Ev.sigtermReceived, Ev.stopClosed, Ev.doneBReceived]
  | Pc.returnNil =>
    [Ev.sigtermReceived, Ev.stopClosed, Ev.doneBReceived, Ev.doneFReceived]
  | Pc.returned =>
    [Ev.sigtermReceived, Ev.stopClosed, Ev.doneBReceived, Ev.doneFReceived, Ev.rpReturned]
  | Pc.panicked => []

/-- What has to have happened before `rp` returns: the termination signal reached the
process and was received, the drain signal was broadcast, and each loop fired its
completion signal, which `rp` received. -/
def beforeReturn : List Ev :=
  [Ev.sigtermNotified, Ev.sigtermReceived, Ev.stopClosed, Ev.backendDone,
    Ev.doneBReceived, Ev.frontendDone, Ev.doneFReceived]

/-- A complete shutdown: SIGTERM arrives, `rp` receives it and closes `stop`, the
frontend drains first, then the backend, and `rp` takes its last three steps. -/
def shutdownSchedule : List Action :=
  [Action.notifySigterm, Action.rpStep, Action.rpStep, Action.frontendFires,
    Action.backendFires, Action.rpStep, Action.rpStep, Action.rpStep]

/-- What holds of every state a schedule can reach from `init`. -/
structure Inv (s : State) : Prop where
  steps : s.log.filter Ev.isRp = stepsTaken s.pc
  notPanicked : s.pc ≠ Pc.panicked
  stop : s.stop = true ↔ Ev.stopClosed ∈ stepsTaken s.pc
  sigterm : 0 < s.sigterm → Ev.sigtermNotified ∈ s.log
  doneB : s.doneB = true → Ev.backendDone ∈ s.log
  doneF : s.doneF = true → Ev.frontendDone ∈ s.log
  notified : Precedes Ev.sigtermNotified Ev.sigtermReceived s.log
  received : Precedes Ev.sigtermReceived Ev.stopClosed s.log
  backend : Precedes Ev.backendDone Ev.doneBReceived s.log
  frontend : Precedes Ev.frontendDone Ev.doneFReceived s.log

/-! ## The start-up check of `rp` on the environment -/

/-- The keys `rp` requires outside local-development mode, in the order of the source. -/
def productionKeys : List String :=
  ["ACR_RESOURCE_ID", "ADMIN_API_CLIENT_CERT_COMMON_NAME", "MDM_ACCOUNT", "MDM_NAMESPACE"]

/-- The keys `rp` requires in local-development mode. -/
def developmentKeys : List String :=
  ["PULL_SECRET"]

/-- The loop `for _, key := range keys` of `rp`: the error for the first key that
`os.LookupEnv` does not find, or `none` when every key is found.  `lookupEnv key` is the
value of the variable when it is present, whatever the value. -/
def checkKeys (lookupEnv : String → Option String) : List String → Option Database.GoError
  | [] => none
  | key :: rest =>
    match lookupEnv key with
    | none => some (Database.GoError.errorf "environment variable %q unset" [key])
    | some _ => checkKeys lookupEnv rest

/-- Lines 40 to 61 of `rp`: the error returned at this point, or `none` when `rp` goes
on.  `isLocalDevelopmentMode` is the result of `_env.IsLocalDevelopmentMode()`. -/
def checkEnvironment (isLocalDevelopmentMode : Bool) (lookupEnv : String → Option String) :
    Option Database.GoError :=
  if isLocalDevelopmentMode then checkKeys lookupEnv developmentKeys
  else
    match lookupEnv "PULL_SECRET" with
    | some _ =>
      some (Database.GoError.errorf "environment variable \"PULL_SECRET\" set" [])
    | none => checkKeys lookupEnv productionKeys

/-- An environment given as a list of bindings; the first binding of a key counts. -/
def environ (bindings : List (String × String)) (key : String) : Option String :=
  (bindings.find? (fun b => b.1 == key)).map (fun b => b.2)

end Main

/-! # `pkg/deploy/generator/resources_rp.go` -/

namespace Generator

/-- The values of `mgmtnetwork.SecurityRuleProtocol` (Azure SDK). -/
inductive SecurityRuleProtocol where
  | TCP
  | UDP
  | Asterisk
  deriving DecidableEq, Repr

/-- The values of `mgmtnetwork.SecurityRuleAccess` (Azure SDK). -/
inductive SecurityRuleAccess where
  | Allow
  | Deny
  deriving DecidableEq, Repr

/-- The values of `mgmtnetwork.SecurityRuleDirection` (Azure SDK). -/
inductive SecurityRuleDirection where
  | Inbound
  | Outbound
  deriving DecidableEq, Repr

/-- The fields of `mgmtnetwork.SecurityRule` and of its `SecurityRulePropertiesFormat`
that `rpSecurityGroup` sets; a pointer or slice pointer that is left out is nil. -/
structure SecurityRule where
  Name : Option String
  Protocol : SecurityRuleProtocol
  SourcePortRange : Option String
  DestinationPortRange : Option String
  SourceAddressPrefix : Option String
  SourceAddressPrefixes : Option (List String)
  DestinationAddressPrefix : Option String
  Access : SecurityRuleAccess
  Priority : Option Int
  Direction : SecurityRuleDirection
  deriving DecidableEq, Repr

/-- The slice `rules` that `rpSecurityGroup` builds and hands, under the name `rp-nsg`,
to `g.securityGroup` (a helper outside the sources); `production` is `g.production`. -/
def rpSecurityGroupRules (production : Bool) : List SecurityRule :=
  let rules : List SecurityRule :=
    [{ Protocol := SecurityRuleProtocol.TCP,
       SourcePortRange := some "*",
       DestinationPortRange := some "443",
       SourceAddressPrefix := some "AzureResourceManager",
       SourceAddressPrefixes := none,
       DestinationAddressPrefix := some "*",
       Access := SecurityRuleAccess.Allow,
       Priority := some 120,
       Direction := SecurityRuleDirection.Inbound,
       Name := some "rp_in_arm" }]
  if !production then
    rules.modifyHead (fun r => { r with SourceAddressPrefix := some "*" }) ++
      [{ Protocol := SecurityRuleProtocol.TCP,
         SourcePortRange := some "*",
         DestinationPortRange := some "22",
         SourceAddressPrefix := some "*",
         SourceAddressPrefixes := none,
         DestinationAddressPrefix := some "*",
         Access := SecurityRuleAccess.Allow,
         Priority := some 125,
         Direction := SecurityRuleDirection.Inbound,
         Name := some "ssh_in" }]
  else
    rules ++
      [{ Protocol := SecurityRuleProtocol.TCP,
         SourcePortRange := some "*",
         DestinationPortRange := some "443",
         SourceAddressPrefix := none,
         SourceAddressPrefixes := some [],
         Access := SecurityRuleAccess.Allow,
         DestinationAddressPrefix := some "*",
         Priority := some 130,
         Direction := SecurityRuleDirection.Inbound,
         Name := some "rp_in_geneva" }]

/-- Go's conversion of an integer to `int32`: the value modulo 2^32, read as signed. -/
def int32 (n : Int) : Int :=
  (n + 2 ^ 31) % 2 ^ 32 - 2 ^ 31

/-- The function `to.Int32Ptr` of go-autorest. -/
def Int32Ptr (i : Int) : Option Int :=
  some (int32 i)

/-- The fields of `mgmtdocumentdb.SQLContainerResource` that `database` sets: the
container ID, the paths of the partition key, the default time-to-live in seconds and
the paths of the unique keys. -/
structure SQLContainerResource where
  ID : Option String
  PartitionKeyPaths : List String
  DefaultTTL : Option Int
  UniqueKeyPaths : List (List String)
  deriving DecidableEq, Repr

/-- What an `arm.Resource` of `database` carries in its field `Resource`: the parameters
of a SQL database (ID and options) or of a SQL container (resource and options), each
with `Name`, `Type` and `Location`. -/
inductive ResourceBody where
  | sqlDatabase (ID : Option String) (Options : List (String × String))
      (Name : String) (Typ : String) (Location : String)
  | sqlContainer (Container : SQLContainerResource) (Options : List (String × String))
      (Name : String) (Typ : String) (Location : String)
  deriving DecidableEq, Repr

/-- The fields of `arm.Resource` that `database` sets; `Body` is its field `Resource`. -/
structure Resource where
  Body : ResourceBody
  APIVersion : String
  DependsOn : List String
  deriving DecidableEq, Repr

/-- The function `database`.  `production` is `g.production`; `apiVersion` is
`azureclient.APIVersion`, a table outside the sources. -/
def database (apiVersion : String → String) (production : Bool) (databaseName : String)
    (addDependsOn : Bool) : List Resource :=
  let portal : Resource :=
    { Body := ResourceBody.sqlContainer
        { ID := some "Portal", PartitionKeyPaths := ["/id"],
          DefaultTTL := Int32Ptr (-1),
          UniqueKeyPaths := [] }
        (if production then [("throughput", "400")] else [])
        ("[concat(parameters('databaseAccountName'), '/', " ++ databaseName ++ ", '/Portal')]")
        "Microsoft.DocumentDB/databaseAccounts/sqlDatabases/containers"
        "[resourceGroup().location]",
      APIVersion := apiVersion "Microsoft.DocumentDB",
      DependsOn :=
        ["[resourceId('Microsoft.DocumentDB/databaseAccounts/sqlDatabases', parameters('databaseAccountName'), " ++
          databaseName ++ ")]"] }
  let rs : List Resource := [
    { Body := ResourceBody.sqlDatabase (some ("[" ++ databaseName ++ "]"))
        [("throughput", "500")]
        ("[concat(parameters('databaseAccountName'), '/', " ++ databaseName ++ ")]")
        "Microsoft.DocumentDB/databaseAccounts/sqlDatabases"
        "[resourceGroup().location]",
      APIVersion := apiVersion "Microsoft.DocumentDB",
      DependsOn := [] },
    { Body := ResourceBody.sqlContainer
        { ID := some "AsyncOperations", PartitionKeyPaths := ["/id"],
          DefaultTTL := Int32Ptr (7 * 86400),
          UniqueKeyPaths := [] }
        []
        ("[concat(parameters('databaseAccountName'), '/', " ++ databaseName ++ ", '/AsyncOperations')]")
        "Microsoft.DocumentDB/databaseAccounts/sqlDatabases/containers"
        "[resourceGroup().location]",
      APIVersion := apiVersion "Microsoft.DocumentDB",
      DependsOn :=
        ["[resourceId('Microsoft.DocumentDB/databaseAccounts/sqlDatabases', parameters('databaseAccountName'), " ++
          databaseName ++ ")]"] },
    { Body := ResourceBody.sqlContainer
        { ID := some "Billing", PartitionKeyPaths := ["/id"],
          DefaultTTL := none,
          UniqueKeyPaths := [] }
        []
        ("[concat(parameters('databaseAccountName'), '/', " ++ databaseName ++ ", '/Billing')]")
        "Microsoft.DocumentDB/databaseAccounts/sqlDatabases/containers"
        "[resourceGroup().location]",
      APIVersion := apiVersion "Microsoft.DocumentDB",
      DependsOn :=
        ["[resourceId('Microsoft.DocumentDB/databaseAccounts/sqlDatabases', parameters('databaseAccountName'), " ++
          databaseName ++ ")]"] },
    { Body := ResourceBody.sqlContainer
        { ID := some "Monitors", PartitionKeyPaths := ["/id"],
          DefaultTTL := Int32Ptr (-1),
          UniqueKeyPaths := [] }
        []
        ("[concat(parameters('databaseAccountName'), '/', " ++ databaseName ++ ", '/Monitors')]")
        "Microsoft.DocumentDB/databaseAccounts/sqlDatabases/containers"
        "[resourceGroup().location]",
      APIVersion := apiVersion "Microsoft.DocumentDB",
      DependsOn :=
        ["[resourceId('Microsoft.DocumentDB/databaseAccounts/sqlDatabases', parameters('databaseAccountName'), " ++
          databaseName ++ ")]"] },
    { Body := ResourceBody.sqlContainer
        { ID := some "OpenShiftClusters", PartitionKeyPaths := ["/partitionKey"],
          DefaultTTL := none,
          UniqueKeyPaths := [["/key"], ["/clusterResourceGroupIdKey"], ["/clientIdKey"]] }
        []
        ("[concat(parameters('databaseAccountName'), '/', " ++ databaseName ++ ", '/OpenShiftClusters')]")
        "Microsoft.DocumentDB/databaseAccounts/sqlDatabases/containers"
        "[resourceGroup().location]",
      APIVersion := apiVersion "Microsoft.DocumentDB",
      DependsOn :=
        ["[resourceId('Microsoft.DocumentDB/databaseAccounts/sqlDatabases', parameters('databaseAccountName'), " ++
          databaseName ++ ")]"] },
    portal,
    { Body := ResourceBody.sqlContainer
        { ID := some "Subscriptions", PartitionKeyPaths := ["/id"],
          DefaultTTL := none,
          UniqueKeyPaths := [] }
        []
        ("[concat(parameters('databaseAccountName'), '/', " ++ databaseName ++ ", '/Subscriptions')]")
        "Microsoft.DocumentDB/databaseAccounts/sqlDatabases/containers"
        "[resourceGroup().location]",
      APIVersion := apiVersion "Microsoft.DocumentDB",
      DependsOn :=
        ["[resourceId('Microsoft.DocumentDB/databaseAccounts/sqlDatabases', parameters('databaseAccountName'), " ++
          databaseName ++ ")]"] }]
  if addDependsOn then
    rs.map (fun r =>
      { r with DependsOn := r.DependsOn ++
          ["[resourceId('Microsoft.DocumentDB/databaseAccounts', parameters('databaseAccountName'))]"] })
  else rs

/-- The ID of the container a resource describes, if it describes a container. -/
def Resource.containerID (r : Resource) : Option String :=
  match r.Body with
  | ResourceBody.sqlContainer c _ _ _ _ => c.ID
  | _ => none

/-- The default time-to-live of the container a resource describes. -/
def Resource.DefaultTTL (r : Resource) : Option Int :=
  match r.Body with
  | ResourceBody.sqlContainer c _ _ _ _ => c.DefaultTTL
  | _ => none

/-! # `pkg/deploy/generator/templates.go` -/

/-- The constant `tenantIDHack`. -/
def tenantIDHack : String := "13805ec3-a223-47ad-ad65-8b2baf92c0fb"

/-- The constant `clusterAccessPolicyHack`. -/
def clusterAccessPolicyHack : String := "e1992efe-4835-46cf-8c08-d8b8451044b8"

/-- The constant `portalAccessPolicyHack`. -/
def portalAccessPolicyHack : String := "e5e11dae-7c49-4118-9628-e0afa4d6a502"

/-- The constant `serviceAccessPolicyHack`. -/
def serviceAccessPolicyHack : String := "533a94d0-d6c2-4fca-9af1-374aa6493468"

/-- A byte slice.  A byte is modelled as the character with its code; every literal of
`templateFixup` is ASCII, so one character of a literal is one byte. -/
abbrev Bytes := List Char

/-- The conversion `[]byte(s)` of an ASCII string. -/
def bytes (s : String) : Bytes := s.data

/-- `bytes.Index(s, sep)`: the index of the first instance of `sep` in `s`, `none` for
Go's `-1`. -/
def Index (sep : Bytes) : Bytes → Option Nat
  | [] => if sep = [] then some 0 else none
  | c :: s => if sep <+: c :: s then some 0 else (Index sep s).map (· + 1)

/-- The loop of `bytes.Replace` for a non-empty `old`: up to `fuel` times, and while `n`
has not run out, the bytes before the first instance of `old` are copied, `new` is
written, and the search goes on behind the instance.  A negative `n` never runs out. -/
def replaceLoop (old new : Bytes) : Nat → Int → Bytes → Bytes
  | 0, _, s => s
  | fuel + 1, n, s =>
    if n = 0 then s
    else
      match Index old s with
      | none => s
      | some j => s.take j ++ new ++ replaceLoop old new fuel (n - 1) (s.drop (j + old.length))

/-- `bytes.Replace(s, old, new, n)` for a non-empty `old`: a copy of `s` with the first
`n` non-overlapping instances of `old` replaced by `new`, all of them if `n < 0`.  A slice
has at most `len(s)` non-overlapping instances of a non-empty `old`, which bounds the
loop. -/
def Replace (s old new : Bytes) (n : Int) : Bytes :=
  replaceLoop old new s.length n s

/-- `bytes.ReplaceAll(s, old, new)` is `Replace(s, old, new, -1)`. -/
def ReplaceAll (s old new : Bytes) : Bytes :=
  Replace s old new (-1)

/-- `Spliced r src out`: `out` is `src` with some disjoint regions, taken from left to
right, each replaced by `r`. -/
inductive Spliced (r : Bytes) : Bytes → Bytes → Prop where
  | done (src : Bytes) : Spliced r src src
  | cons (u m rest out : Bytes) : Spliced r rest out →
      Spliced r (u ++ m ++ rest) (u ++ r ++ out)

/-- `Guarded pat r`: an instance of `pat` in a text around `r` lies before or behind
`r`. -/
def Guarded (pat r : Bytes) : Prop :=
  ∀ u v, pat <:+: u ++ r ++ v → pat <:+: u ∨ pat <:+: v

/-- `ReplacedEvery old new s out`: from left to right, `s` is cut at each first instance
of `old` behind the previous one, and `out` is `s` with each of these instances replaced
by `new`; the stretch behind the last one holds no instance of `old`.  The condition
`¬ old <:+: (u ++ old).dropLast` says that no instance of `old` begins in `u ++ old`
before the one at its end. -/
inductive ReplacedEvery (old new : Bytes) : Bytes → Bytes → Prop where
  | done (s : Bytes) : ¬ old <:+: s → ReplacedEvery old new s s
  | cons (u rest out : Bytes) : ¬ old <:+: (u ++ old).dropLast →
      ReplacedEvery old new rest out →
      ReplacedEvery old new (u ++ old ++ rest) (u ++ new ++ out)

/-- `ReplacedFirst old new s out`: `out` is `s` with its first instance of `old`
replaced by `new`, and `s` itself when it holds no instance of `old`. -/
inductive ReplacedFirst (old new : Bytes) : Bytes → Bytes → Prop where
  | none (s : Bytes) : ¬ old <:+: s → ReplacedFirst old new s s
  | first (u rest : Bytes) : ¬ old <:+: (u ++ old).dropLast →
      ReplacedFirst old new (u ++ old ++ rest) (u ++ new ++ rest)

/-- `g.templateFixup(t)`.  `MarshalIndent t` stands for
`json.MarshalIndent(t, "", "    ")`, and `re pattern src repl` for
`regexp.MustCompile(pattern).ReplaceAll(src, repl)`, both of Go's standard library.  The
nil slice returned with an error is the empty list. -/
def templateFixup {τ : Type} (re : String → Bytes → Bytes → Bytes) (production : Bool)
    (MarshalIndent : τ → Bytes × Option Database.GoError) (t : τ) :
    Bytes × Option Database.GoError :=
  match MarshalIndent t with
  | (_, some err) => ([], some err)
  | (b, none) =>
    let b := ReplaceAll b (bytes tenantIDHack) (bytes "[subscription().tenantId]")
    let b := ReplaceAll b (bytes "\"capacity\": 1337")
      (bytes "\"capacity\": \"[parameters('ciCapacity')]\"")
    let b := ReplaceAll b (bytes "\"capacity\": 1338")
      (bytes "\"capacity\": \"[parameters('rpVmssCapacity')]\"")
    let b :=
      if production then
        let b := re ("(?m)\"accessPolicies\": \\[[^]]*" ++ clusterAccessPolicyHack ++ "[^]]*\\]") b
          (bytes "\"accessPolicies\": \"[concat(variables('clusterKeyvaultAccessPolicies'), parameters('extraClusterKeyvaultAccessPolicies'))]\"")
        let b := re ("(?m)\"accessPolicies\": \\[[^]]*" ++ portalAccessPolicyHack ++ "[^]]*\\]") b
          (bytes "\"accessPolicies\": \"[concat(variables('portalKeyvaultAccessPolicies'), parameters('extraPortalKeyvaultAccessPolicies'))]\"")
        let b := re ("(?m)\"accessPolicies\": \\[[^]]*" ++ serviceAccessPolicyHack ++ "[^]]*\\]") b
          (bytes "\"accessPolicies\": \"[concat(variables('serviceKeyvaultAccessPolicies'), parameters('extraServiceKeyvaultAccessPolicies'))]\"")
        let b := Replace b (bytes "\"sourceAddressPrefixes\": []")
          (bytes "\"sourceAddressPrefixes\": \"[parameters('rpNsgSourceAddressPrefixes')]\"") 1
        Replace b (bytes "\"encryptionAtHost\": true")
          (bytes "\"encryptionAtHost\": \"[parameters('encryptionAtHost')]\"") 1
      else b
    (b ++ ['\n'], none)

/-- A regular-expression engine that reads its pattern as a literal text. -/
def literalEngine (pattern : String) (src repl : Bytes) : Bytes :=
  replaceLoop (bytes pattern) repl src.length (-1) src

/-- A small marshalled template with two tenant IDs, a capacity and the two production
placeholders. -/
def exampleTemplate : Bytes :=
  bytes ("\x7b\"tenantId\": \"13805ec3-a223-47ad-ad65-8b2baf92c0fb\", \"capacity\": 1337, " ++
    "\"t\": \"13805ec3-a223-47ad-ad65-8b2baf92c0fb\", \"sourceAddressPrefixes\": [], " ++
    "\"encryptionAtHost\": true\x7d")

end Generator

/-! # `pkg/portal/portal.go`: the handler `clusters` -/

namespace Portal

/-- The three values of `api.ProvisioningState` the handler compares with.  They are
constants of `pkg/api`, outside the sources, and are taken as parameters. -/
structure ProvisioningStates where
  Creating : String
  Deleting : String
  Failed : String

/-- The fields of `api.OpenShiftClusterProperties` the handler reads. -/
structure OpenShiftClusterProperties where
  ProvisioningState : String
  FailedProvisioningState : String
  deriving DecidableEq, Repr

/-- The fields of `api.OpenShiftCluster` the handler reads. -/
structure OpenShiftCluster where
  ID : String
  Properties : OpenShiftClusterProperties
  deriving DecidableEq, Repr

/-- A cluster document as the database returns it, with its cluster. -/
structure OpenShiftClusterDocument where
  OpenShiftCluster : OpenShiftCluster
  deriving DecidableEq, Repr

/-- The loop of `clusters` over the documents still to visit: the `switch` skips a
document whose provisioning state is Creating or Deleting, or Failed with a failed
provisioning state of Creating or Deleting; the ID of any other document is appended. -/
def clustersLoop (api : ProvisioningStates) :
    List OpenShiftClusterDocument → List String → List String
  | [], clusters => clusters
  | doc :: rest, clusters =>
    let ps := doc.OpenShiftCluster.Properties.ProvisioningState
    let fps := doc.OpenShiftCluster.Properties.FailedProvisioningState
    if ps = api.Creating ∨ ps = api.Deleting ∨
        (ps = api.Failed ∧ (fps = api.Creating ∨ fps = api.Deleting)) then
      clustersLoop api rest clusters
    else clustersLoop api rest (clusters ++ [doc.OpenShiftCluster.ID])

/-- Go's `sort.Strings`: the strings in increasing order.  On strings two orderings that
sort the same elements give the same list, so any sorting algorithm stands for it. -/
def sortStrings (l : List String) : List String :=
  l.insertionSort (fun a b => a ≤ b)

/-- What the handler writes: an internal server error, or the JSON encoding of a list of
strings (kept as the list). -/
inductive Response where
  | internalServerError
  | json (clusters : List String)
  deriving DecidableEq, Repr

/-- The handler `clusters`.  `listAll` is the result of `p.dbOpenShiftClusters.ListAll`:
the documents and the error. -/
def clusters (api : ProvisioningStates)
    (listAll : Option (List OpenShiftClusterDocument) × Option Database.GoError) :
    Database.Outcome Response :=
  match listAll with
  | (_, some _) => Database.Outcome.returned Response.internalServerError
  | (none, none) => Database.Outcome.panicked
  | (some docs, none) =>
    Database.Outcome.returned (Response.json (sortStrings (clustersLoop api docs [])))

/-- The documents the claim keeps: the provisioning state is neither Creating nor
Deleting, nor Failed with a failed provisioning state of Creating or Deleting. -/
def listed (api : ProvisioningStates) (doc : OpenShiftClusterDocument) : Bool :=
  decide (doc.OpenShiftCluster.Properties.ProvisioningState ≠ api.Creating) &&
  decide (doc.OpenShiftCluster.Properties.ProvisioningState ≠ api.Deleting) &&
  !(decide (doc.OpenShiftCluster.Properties.ProvisioningState = api.Failed) &&
    (decide (doc.OpenShiftCluster.Properties.FailedProvisioningState = api.Creating) ||
      decide (doc.OpenShiftCluster.Properties.FailedProvisioningState = api.Deleting)))

end Portal

namespace Database

/-! ## Lemmas on lower-casing -/

theorem toNat_ofNat_of_lt (n : Nat) (h : n < 55296) : (Char.ofNat n).toNat = n := by
  have hv : n.isValidChar := Or.inl h
  simp only [Char.ofNat, hv, dite_true, Char.toNat, Char.ofNatAux]
  show (UInt32.ofNat' n _).toNat = n
  simp [UInt32.ofNat', UInt32.toNat]

theorem unicodeToLower_ne_of_isUpper (lowerTable : Char → Char) (r : Char)
    (h : r.isUpper = true) : unicodeToLower lowerTable r ≠ r := by
  simp only [unicodeToLower, h, if_true]
  intro he
  have h1 := congrArg Char.toNat he
  simp only [Char.isUpper, Bool.and_eq_true, decide_eq_true_eq, UInt32.le_def] at h
  have h2 : r.toNat ≤ 90 := by
    have := h.2
    simpa [Char.toNat] using this
  rw [toNat_ofNat_of_lt _ (by omega)] at h1
  omega

theorem unicodeToLower_ne_of_LowerCaseDiffers (lowerTable : Char → Char) (r : Char)
    (h : LowerCaseDiffers lowerTable r) : unicodeToLower lowerTable r ≠ r := by
  rcases h with h | ⟨h1, h2⟩
  · exact unicodeToLower_ne_of_isUpper lowerTable r h
  · have hu : r.isUpper = false := by
      cases hb : r.isUpper with
      | false => rfl
      | true =>
        exfalso
        simp only [Char.isUpper, Bool.and_eq_true, decide_eq_true_eq, UInt32.le_def] at hb
        have : r.toNat ≤ 90 := by
          have := hb.2
          simpa [Char.toNat] using this
        omega
    have h3 : ¬ r.toNat < 128 := by omega
    simp only [unicodeToLower, hu, h3, if_false, Bool.false_eq_true]
    exact h2

theorem map_ne_self_of_mem {α : Type} (g : α → α) (l : List α)
    (h : ∃ x ∈ l, g x ≠ x) : l.map g ≠ l := by
  induction l with
  | nil => simp at h
  | cons y ys ih =>
    intro he
    simp only [List.map_cons, List.cons.injEq] at he
    rcases h with ⟨x, hx, hne⟩
    rcases List.mem_cons.mp hx with rfl | hmem
    · exact hne he.1
    · exact ih ⟨x, hmem, hne⟩ he.2

theorem ne_ToLower_of_upper (lowerTable : Char → Char) (s : String)
    (h : ∃ r ∈ s.data, LowerCaseDiffers lowerTable r) : s ≠ ToLower lowerTable s := by
  intro he
  have h1 : s.data = s.data.map (unicodeToLower lowerTable) := by
    have := congrArg String.data he
    simpa [ToLower] using this
  rcases h with ⟨r, hr, hu⟩
  exact map_ne_self_of_mem _ s.data
    ⟨r, hr, unicodeToLower_ne_of_LowerCaseDiffers lowerTable r hu⟩ h1.symm

/-! ## One call of `Get` and one attempt of `Patch` -/

theorem Get_of_canonical {σ : Type} (a : asyncOperations σ) (lowerTable : Char → Char)
    (id : String) (w : World σ) (hid : id = ToLower lowerTable id) :
    a.Get lowerTable id w =
      ((a.c.Get id id w.store).1,
        ⟨(a.c.Get id id w.store).2, w.log ++ [Event.get id id (a.c.Get id id w.store).1]⟩) := by
  unfold asyncOperations.Get
  rw [if_neg (not_not.mpr hid)]

theorem Get_of_not_canonical {σ : Type} (a : asyncOperations σ) (lowerTable : Char → Char)
    (id : String) (w : World σ) (hid : id ≠ ToLower lowerTable id) :
    a.Get lowerTable id w = ((none, some (notLowerCase id)), w) := by
  unfold asyncOperations.Get
  rw [if_pos hid]

theorem patchAttempt_mutator_error {σ μ : Type} (a : asyncOperations σ)
    (lowerTable : Char → Char) (id : String) (f : Mutator μ) (s : PatchState σ μ)
    (d d1 : AsyncOperationDocument) (e : GoError) (st1 : σ) (m1 : μ)
    (hid : id = ToLower lowerTable id)
    (hget : a.c.Get id id s.world.store = ((some d, none), st1))
    (hf : f.run d s.captured = ((d1, some e), m1)) :
    a.patchAttempt lowerTable id f s =
      (Outcome.returned (some e),
        ⟨some d1, ⟨st1, s.world.log ++
          [Event.get id id (some d, none), Event.mutator (some d) (some d1) (some e)]⟩, m1⟩) := by
  simp [asyncOperations.patchAttempt, Get_of_canonical a lowerTable id s.world hid, hget, hf]

theorem patchAttempt_replace {σ μ : Type} (a : asyncOperations σ)
    (lowerTable : Char → Char) (id : String) (f : Mutator μ) (s : PatchState σ μ)
    (d d1 : AsyncOperationDocument) (st1 : σ) (m1 : μ)
    (hid : id = ToLower lowerTable id)
    (hget : a.c.Get id id s.world.store = ((some d, none), st1))
    (hf : f.run d s.captured = ((d1, none), m1)) :
    a.patchAttempt lowerTable id f s =
      (Outcome.returned (a.c.Replace d1.ID d1 st1).1.2,
        ⟨(a.c.Replace d1.ID d1 st1).1.1, ⟨(a.c.Replace d1.ID d1 st1).2, s.world.log ++
          [Event.get id id (some d, none), Event.mutator (some d) (some d1) none,
            Event.replace d1.ID d1 (a.c.Replace d1.ID d1 st1).1]⟩, m1⟩) := by
  simp [asyncOperations.patchAttempt, Get_of_canonical a lowerTable id s.world hid, hget, hf]

theorem Create_world_of_canonical {σ : Type} (a : asyncOperations σ)
    (lowerTable : Char → Char) (doc : AsyncOperationDocument) (w : World σ)
    (hid : doc.ID = ToLower lowerTable doc.ID) :
    (a.Create lowerTable doc w).2 =
      ⟨(a.c.Create doc.ID doc w.store).2,
        w.log ++ [Event.create doc.ID doc (a.c.Create doc.ID doc w.store).1]⟩ := by
  unfold asyncOperations.Create
  rw [if_neg (not_not.mpr hid)]
  dsimp only
  split
  · split <;> rfl
  · rfl

theorem memClient_lookup_after_Create (pk : String) (doc : AsyncOperationDocument)
    (s : MemStore) : ∃ x, ((memClient.Create pk doc s).2).lookup doc.ID = some x := by
  cases hl : s.lookup doc.ID with
  | some x =>
    refine ⟨x, ?_⟩
    simp only [memClient, hl]
  | none =>
    refine ⟨(s.put doc).1, ?_⟩
    simp only [memClient, hl]
    simp [MemStore.lookup, MemStore.put, List.find?_cons]

theorem patchAttempt_of_not_canonical {σ μ : Type} (a : asyncOperations σ)
    (lowerTable : Char → Char) (id : String) (f : Mutator μ) (s : PatchState σ μ)
    (hid : id ≠ ToLower lowerTable id) :
    a.patchAttempt lowerTable id f s =
      (Outcome.returned (some (notLowerCase id)), ⟨none, s.world, s.captured⟩) := by
  simp [asyncOperations.patchAttempt, Get_of_not_canonical a lowerTable id s.world hid]

theorem patchAttempt_log {σ μ : Type} (a : asyncOperations σ)
    (lowerTable : Char → Char) (id : String) (f : Mutator μ) (s : PatchState σ μ)
    (hid : id = ToLower lowerTable id) :
    ∃ b, (a.patchAttempt lowerTable id f s).2.world.log = s.world.log ++ b ∧
      AttemptLog id f b (a.patchAttempt lowerTable id f s).1 := by
  unfold asyncOperations.patchAttempt
  rw [Get_of_canonical a lowerTable id s.world hid]
  rcases hg : a.c.Get id id s.world.store with ⟨⟨rd, re⟩, st1⟩
  cases re with
  | some e => exact ⟨_, rfl, AttemptLog.getFailed rd e⟩
  | none =>
    cases rd with
    | none =>
      cases hm : (f.runNil s.captured).1 with
      | some e =>
        refine ⟨[Event.get id id (none, none), Event.mutator none none (some e)], ?_, ?_⟩
        · simp [hm]
        · simp only [hm]
          exact AttemptLog.nilFailed s.captured e hm
      | none =>
        refine ⟨[Event.get id id (none, none), Event.mutator none none none], ?_, ?_⟩
        · simp [hm]
        · simp only [hm]
          exact AttemptLog.nilPanicked s.captured hm
    | some d =>
      cases hm : (f.run d s.captured).1.2 with
      | some e =>
        refine ⟨[Event.get id id (some d, none),
          Event.mutator (some d) (some (f.run d s.captured).1.1) (some e)], ?_, ?_⟩
        · simp [hm]
        · simp only [hm]
          exact AttemptLog.mutatorFailed d s.captured e hm
      | none =>
        refine ⟨[Event.get id id (some d, none),
          Event.mutator (some d) (some (f.run d s.captured).1.1) none,
          Event.replace (f.run d s.captured).1.1.ID (f.run d s.captured).1.1
            (a.c.Replace (f.run d s.captured).1.1.ID (f.run d s.captured).1.1 st1).1], ?_, ?_⟩
        · simp [hm]
        · simp only [hm]
          exact AttemptLog.replaced d s.captured _ hm

theorem RetryOnPreconditionFailed_log {σ μ : Type} (a : asyncOperations σ)
    (lowerTable : Char → Char) (id : String) (f : Mutator μ) (fuel : Nat) :
    ∀ s : PatchState σ μ,
      ∃ tr, (RetryOnPreconditionFailed (a.patchAttempt lowerTable id f) fuel s).2.world.log =
          s.world.log ++ tr ∧
        PatchLog lowerTable id f tr
          (RetryOnPreconditionFailed (a.patchAttempt lowerTable id f) fuel s).1 := by
  induction fuel with
  | zero =>
    intro s
    exact ⟨[], by simp [RetryOnPreconditionFailed], PatchLog.outOfFuel⟩
  | succ n ih =>
    intro s
    by_cases hid : id = ToLower lowerTable id
    · obtain ⟨b, hb, hshape⟩ := patchAttempt_log a lowerTable id f s hid
      unfold RetryOnPreconditionFailed
      rcases hat : a.patchAttempt lowerTable id f s with ⟨o, s1⟩
      rw [hat] at hb hshape
      cases o with
      | returned err =>
        dsimp only
        cases h412 : IsErrorStatusCode err StatusPreconditionFailed with
        | true =>
          simp only [if_true]
          obtain ⟨tr, htr, hrun⟩ := ih s1
          refine ⟨b ++ tr, ?_, PatchLog.retried b err tr _ hid hshape h412 hrun⟩
          rw [htr, hb, List.append_assoc]
        | false =>
          simp only [Bool.false_eq_true, if_false]
          refine ⟨b, hb, PatchLog.last b _ hid hshape ?_⟩
          intro err1 he
          cases he
          exact h412
      | panicked =>
        dsimp only
        refine ⟨b, hb, PatchLog.last b _ hid hshape ?_⟩
        intro err1 he
        cases he
      | running =>
        dsimp only
        refine ⟨b, hb, PatchLog.last b _ hid hshape ?_⟩
        intro err1 he
        cases he
    · unfold RetryOnPreconditionFailed
      rw [patchAttempt_of_not_canonical a lowerTable id f s hid]
      refine ⟨[], ?_, ?_⟩
      · simp [IsErrorStatusCode, notLowerCase]
      · simp only [IsErrorStatusCode, notLowerCase, Bool.false_eq_true, if_false]
        exact PatchLog.invalidId hid

/-! ## The shape of the log -/

theorem append_eq_append_cons {α : Type} (b rest pre post : List α) (x : α)
    (h : b ++ rest = pre ++ x :: post) :
    (∃ pre2, pre = b ++ pre2 ∧ rest = pre2 ++ x :: post) ∨
      (∃ c, b = pre ++ x :: c ∧ post = c ++ rest) := by
  rcases List.append_eq_append_iff.mp h with ⟨a1, h1, h2⟩ | ⟨c1, h1, h2⟩
  · exact Or.inl ⟨a1, h1, h2⟩
  · cases c1 with
    | nil =>
      refine Or.inl ⟨[], ?_, ?_⟩
      · simpa using h1.symm
      · simpa using h2.symm
    | cons y ys =>
      simp only [List.cons_append, List.cons.injEq] at h2
      refine Or.inr ⟨ys, ?_, h2.2⟩
      rw [h1, h2.1]

theorem AttemptLog_starts_with_get {μ : Type} {id : String} {f : Mutator μ}
    {b : List Event} {o : Outcome (Option GoError)} (h : AttemptLog id f b o) :
    ∃ ret b1, b = Event.get id id ret :: b1 := by
  cases h <;> exact ⟨_, _, rfl⟩

theorem AttemptLog_not_running {μ : Type} {id : String} {f : Mutator μ}
    {b : List Event} {o : Outcome (Option GoError)} (h : AttemptLog id f b o) :
    o ≠ Outcome.running := by
  cases h <;> simp

theorem AttemptLog_mutator {μ : Type} {id : String} {f : Mutator μ}
    {b : List Event} {o : Outcome (Option GoError)} (h : AttemptLog id f b o)
    (pre c : List Event) (arg out : Option AsyncOperationDocument) (err : Option GoError)
    (hb : b = pre ++ Event.mutator arg out err :: c) :
    pre = [Event.get id id (arg, none)] := by
  cases h <;>
    (rcases pre with _ | ⟨p1, _ | ⟨p2, _ | ⟨p3, _ | ⟨p4, pre⟩⟩⟩⟩ <;> simp at hb <;>
      (obtain ⟨rfl, ⟨rfl, _, _⟩, _⟩ := hb; rfl))

theorem AttemptLog_replace {μ : Type} {id : String} {f : Mutator μ}
    {b : List Event} {o : Outcome (Option GoError)} (h : AttemptLog id f b o)
    (pre c : List Event) (pk : String) (doc : AsyncOperationDocument) (ret : DocResult)
    (hb : b = pre ++ Event.replace pk doc ret :: c) :
    c = [] ∧ o = Outcome.returned ret.2 ∧
      ∃ d mu, pre = [Event.get id id (some d, none), Event.mutator (some d) (some doc) none] ∧
        (f.run d mu).1 = (doc, none) ∧ pk = doc.ID := by
  cases h with
  | getFailed rd e =>
    rcases pre with _ | ⟨p1, _ | ⟨p2, pre⟩⟩ <;> simp at hb
  | nilFailed mu e hm =>
    rcases pre with _ | ⟨p1, _ | ⟨p2, _ | ⟨p3, pre⟩⟩⟩ <;> simp at hb
  | nilPanicked mu hm =>
    rcases pre with _ | ⟨p1, _ | ⟨p2, _ | ⟨p3, pre⟩⟩⟩ <;> simp at hb
  | mutatorFailed d mu e hm =>
    rcases pre with _ | ⟨p1, _ | ⟨p2, _ | ⟨p3, pre⟩⟩⟩ <;> simp at hb
  | replaced d mu ret1 hm =>
    rcases pre with _ | ⟨p1, _ | ⟨p2, _ | ⟨p3, _ | ⟨p4, pre⟩⟩⟩⟩ <;> simp at hb
    obtain ⟨rfl, rfl, ⟨rfl, rfl, rfl⟩, rfl⟩ := hb
    exact ⟨rfl, rfl, d, mu, rfl, Prod.ext rfl hm, rfl⟩

theorem PatchLog_start {μ : Type} {lowerTable : Char → Char} {id : String}
    {f : Mutator μ} {tr : List Event} {o : Outcome (Option GoError)}
    (h : PatchLog lowerTable id f tr o) (hid : id = ToLower lowerTable id) :
    (tr = [] ∧ o = Outcome.running) ∨ ∃ ret tr1, tr = Event.get id id ret :: tr1 := by
  cases h with
  | outOfFuel => exact Or.inl ⟨rfl, rfl⟩
  | invalidId hne => exact absurd hid hne
  | last b o _ hb _ => exact Or.inr (AttemptLog_starts_with_get hb)
  | retried b err rest o _ hb _ _ =>
    obtain ⟨ret, b1, rfl⟩ := AttemptLog_starts_with_get hb
    exact Or.inr ⟨ret, b1 ++ rest, rfl⟩

theorem PatchLog_mutator {μ : Type} {lowerTable : Char → Char} {id : String}
    {f : Mutator μ} {tr : List Event} {o : Outcome (Option GoError)}
    (h : PatchLog lowerTable id f tr o) :
    ∀ (pre post : List Event) (arg out : Option AsyncOperationDocument)
      (err : Option GoError), tr = pre ++ Event.mutator arg out err :: post →
      ∃ pre1, pre = pre1 ++ [Event.get id id (arg, none)] := by
  induction h with
  | outOfFuel => intro pre post arg out err h; simp at h
  | invalidId _ => intro pre post arg out err h; simp at h
  | last b o _ hb _ =>
    intro pre post arg out err h
    exact ⟨[], by simpa using AttemptLog_mutator hb pre post arg out err h⟩
  | retried b e rest o _ hb _ _ ih =>
    intro pre post arg out err h
    rcases append_eq_append_cons b rest pre post _ h with ⟨pre2, h1, h2⟩ | ⟨c, h1, _⟩
    · obtain ⟨pre1, h3⟩ := ih pre2 post arg out err h2
      exact ⟨b ++ pre1, by rw [h1, h3, List.append_assoc]⟩
    · exact ⟨[], by simpa using AttemptLog_mutator hb pre c arg out err h1⟩

theorem PatchLog_replace {μ : Type} {lowerTable : Char → Char} {id : String}
    {f : Mutator μ} {tr : List Event} {o : Outcome (Option GoError)}
    (h : PatchLog lowerTable id f tr o) :
    ∀ (pre post : List Event) (pk : String) (doc : AsyncOperationDocument)
      (ret : DocResult), tr = pre ++ Event.replace pk doc ret :: post →
      id = ToLower lowerTable id ∧
      (∃ pre1 d mu,
        pre = pre1 ++ [Event.get id id (some d, none), Event.mutator (some d) (some doc) none] ∧
        (f.run d mu).1 = (doc, none) ∧ pk = doc.ID) ∧
      (IsErrorStatusCode ret.2 StatusPreconditionFailed = true →
        (∃ ret1 post1, post = Event.get id id ret1 :: post1) ∨
          (post = [] ∧ o = Outcome.running)) := by
  induction h with
  | outOfFuel => intro pre post pk doc ret h; simp at h
  | invalidId _ => intro pre post pk doc ret h; simp at h
  | last b o hid hb hlast =>
    intro pre post pk doc ret h
    obtain ⟨_, ho, d, mu, h1, h2, h3⟩ := AttemptLog_replace hb pre post pk doc ret h
    refine ⟨hid, ⟨[], d, mu, by simpa using h1, h2, h3⟩, ?_⟩
    intro h412
    rw [hlast ret.2 ho] at h412
    cases h412
  | retried b e rest o hid hb _ hrest ih =>
    intro pre post pk doc ret h
    rcases append_eq_append_cons b rest pre post _ h with ⟨pre2, h1, h2⟩ | ⟨c, h1, h2⟩
    · obtain ⟨_, ⟨pre1, d, mu, h3, h4, h5⟩, h6⟩ := ih pre2 post pk doc ret h2
      exact ⟨hid, ⟨b ++ pre1, d, mu, by rw [h1, h3, List.append_assoc], h4, h5⟩, h6⟩
    · obtain ⟨hc, _, d, mu, h3, h4, h5⟩ := AttemptLog_replace hb pre c pk doc ret h1
      refine ⟨hid, ⟨[], d, mu, by simpa using h3, h4, h5⟩, ?_⟩
      intro _
      subst hc
      simp only [List.nil_append] at h2
      subst h2
      rcases PatchLog_start hrest hid with ⟨h7, h8⟩ | h7
      · exact Or.inr ⟨h7, h8⟩
      · exact Or.inl h7

/-! ## The retry loop and `Patch` -/

theorem patchAttempt_not_running {σ μ : Type} (a : asyncOperations σ)
    (lowerTable : Char → Char) (id : String) (f : Mutator μ) (s : PatchState σ μ) :
    (a.patchAttempt lowerTable id f s).1 ≠ Outcome.running := by
  by_cases hid : id = ToLower lowerTable id
  · obtain ⟨b, _, hb⟩ := patchAttempt_log a lowerTable id f s hid
    exact AttemptLog_not_running hb
  · rw [patchAttempt_of_not_canonical a lowerTable id f s hid]
    simp

theorem RetryOnPreconditionFailed_succ {S : Type}
    (F : S → Outcome (Option GoError) × S) (fuel : Nat) (s : S) :
    RetryOnPreconditionFailed F (fuel + 1) s =
      match F s with
      | (Outcome.returned err, s1) =>
        if IsErrorStatusCode err StatusPreconditionFailed then
          RetryOnPreconditionFailed F fuel s1
        else (Outcome.returned err, s1)
      | r => r := rfl

theorem RetryOnPreconditionFailed_one_state {S : Type}
    (F : S → Outcome (Option GoError) × S) (s : S) :
    (RetryOnPreconditionFailed F 1 s).2 = (F s).2 := by
  unfold RetryOnPreconditionFailed
  rcases hF : F s with ⟨o, s1⟩
  cases o with
  | returned err =>
    dsimp only
    split <;> simp [RetryOnPreconditionFailed]
  | panicked => rfl
  | running => rfl

theorem RetryOnPreconditionFailed_resume {S : Type}
    (F : S → Outcome (Option GoError) × S) (hF : ∀ s, (F s).1 ≠ Outcome.running)
    (fuel : Nat) :
    ∀ s, (RetryOnPreconditionFailed F fuel s).1 = Outcome.running →
      RetryOnPreconditionFailed F (fuel + 1) s =
        RetryOnPreconditionFailed F 1 (RetryOnPreconditionFailed F fuel s).2 := by
  induction fuel with
  | zero =>
    intro s _
    simp [RetryOnPreconditionFailed]
  | succ n ih =>
    intro s hrun
    rw [RetryOnPreconditionFailed_succ F (n + 1) s]
    rw [RetryOnPreconditionFailed_succ F n s] at hrun ⊢
    rcases hFs : F s with ⟨o, s1⟩
    rw [hFs] at hrun
    have hne := hF s
    rw [hFs] at hne
    cases o with
    | returned err =>
      dsimp only at hrun ⊢
      cases h412 : IsErrorStatusCode err StatusPreconditionFailed with
      | true =>
        rw [h412] at hrun
        simp only [if_true] at hrun ⊢
        exact ih s1 hrun
      | false =>
        rw [h412] at hrun
        simp at hrun
    | panicked => simp at hrun
    | running => exact absurd rfl hne

theorem Patch_world {σ μ : Type} (a : asyncOperations σ) (lowerTable : Char → Char)
    (fuel : Nat) (id : String) (f : Mutator μ) (w : World σ) (m : μ) :
    (a.Patch lowerTable fuel id f w m).2.1 =
      (RetryOnPreconditionFailed (a.patchAttempt lowerTable id f) fuel ⟨none, w, m⟩).2.world := by
  unfold asyncOperations.Patch
  dsimp only
  split <;> rfl

theorem Patch_running_iff {σ μ : Type} (a : asyncOperations σ) (lowerTable : Char → Char)
    (fuel : Nat) (id : String) (f : Mutator μ) (w : World σ) (m : μ) :
    (a.Patch lowerTable fuel id f w m).1 = Outcome.running ↔
      (RetryOnPreconditionFailed (a.patchAttempt lowerTable id f) fuel ⟨none, w, m⟩).1 =
        Outcome.running := by
  unfold asyncOperations.Patch
  dsimp only
  split <;> simp_all

theorem Patch_resume_log {σ μ : Type} (a : asyncOperations σ) (lowerTable : Char → Char)
    (fuel : Nat) (id : String) (f : Mutator μ) (w : World σ) (m : μ)
    (hid : id = ToLower lowerTable id)
    (hrun : (a.Patch lowerTable fuel id f w m).1 = Outcome.running) :
    ∃ ret1 post1, (a.Patch lowerTable (fuel + 1) id f w m).2.1.log =
      (a.Patch lowerTable fuel id f w m).2.1.log ++ Event.get id id ret1 :: post1 := by
  rw [Patch_running_iff] at hrun
  rw [Patch_world, Patch_world,
    RetryOnPreconditionFailed_resume _ (patchAttempt_not_running a lowerTable id f) fuel _ hrun,
    RetryOnPreconditionFailed_one_state]
  obtain ⟨b, hb, hshape⟩ := patchAttempt_log a lowerTable id f
    (RetryOnPreconditionFailed (a.patchAttempt lowerTable id f) fuel ⟨none, w, m⟩).2 hid
  obtain ⟨ret1, b1, rfl⟩ := AttemptLog_starts_with_get hshape
  exact ⟨ret1, b1, hb⟩

theorem Patch_log {σ μ : Type} (a : asyncOperations σ) (lowerTable : Char → Char)
    (fuel : Nat) (id : String) (f : Mutator μ) (w : World σ) (m : μ) :
    ∃ tr o, (a.Patch lowerTable fuel id f w m).2.1.log = w.log ++ tr ∧
      PatchLog lowerTable id f tr o ∧
      (o = Outcome.running → (a.Patch lowerTable fuel id f w m).1 = Outcome.running) := by
  obtain ⟨tr, htr, hlog⟩ := RetryOnPreconditionFailed_log a lowerTable id f fuel ⟨none, w, m⟩
  refine ⟨tr, _, ?_, hlog, ?_⟩
  · rw [Patch_world]
    exact htr
  · intro h
    exact (Patch_running_iff a lowerTable fuel id f w m).mpr h

/-! ## Claims on `Create` and `Get` -/

/-- C2: for a document with a canonical ID, when the store's create fails with Conflict
(409) `asyncOperations.Create` returns the store's document together with that error
carrying status PreconditionFailed (412), which is not Conflict, after exactly the one
create call; and over a store that honours the create contract the second of two
`Create` calls with the same ID meets a Conflict from the store and returns
PreconditionFailed. -/
theorem Create_conflict_remapped {σ : Type} (a : asyncOperations σ)
    (lowerTable : Char → Char) (doc : AsyncOperationDocument) (w : World σ)
    (hid : doc.ID = ToLower lowerTable doc.ID) :
    (∀ rd msg st,
      a.c.Create doc.ID doc w.store = ((rd, some (GoError.cosmosdbError StatusConflict msg)), st) →
      a.Create lowerTable doc w =
        ((rd, some (GoError.cosmosdbError StatusPreconditionFailed msg)),
          ⟨st, w.log ++ [Event.create doc.ID doc
            (rd, some (GoError.cosmosdbError StatusConflict msg))]⟩) ∧
      IsErrorStatusCode (a.Create lowerTable doc w).1.2 StatusPreconditionFailed = true ∧
      IsErrorStatusCode (a.Create lowerTable doc w).1.2 StatusConflict = false) ∧
    (∀ (w0 : World MemStore) (doc2 : AsyncOperationDocument), doc2.ID = doc.ID →
      memRepo.Create lowerTable doc2 (memRepo.Create lowerTable doc w0).2 =
        ((none, some (GoError.cosmosdbError StatusPreconditionFailed "Conflict")),
          ⟨(memRepo.Create lowerTable doc w0).2.store,
            (memRepo.Create lowerTable doc w0).2.log ++ [Event.create doc2.ID doc2
              (none, some (GoError.cosmosdbError StatusConflict "Conflict"))]⟩)) := by
  constructor
  · intro rd msg st hc
    have h1 : a.Create lowerTable doc w =
        ((rd, some (GoError.cosmosdbError StatusPreconditionFailed msg)),
          ⟨st, w.log ++ [Event.create doc.ID doc
            (rd, some (GoError.cosmosdbError StatusConflict msg))]⟩) := by
      unfold asyncOperations.Create
      rw [if_neg (not_not.mpr hid)]
      simp [hc]
    refine ⟨h1, ?_, ?_⟩
    · rw [h1]; simp [IsErrorStatusCode]
    · rw [h1]; simp [IsErrorStatusCode, StatusPreconditionFailed, StatusConflict]
  · intro w0 doc2 h2
    have hid2 : doc2.ID = ToLower lowerTable doc2.ID := by rw [h2]; exact hid
    obtain ⟨x, hx⟩ := memClient_lookup_after_Create doc.ID doc w0.store
    have hw : (memRepo.Create lowerTable doc w0).2.store = (memClient.Create doc.ID doc w0.store).2 := by
      rw [Create_world_of_canonical memRepo lowerTable doc w0 hid]; rfl
    have hc : memClient.Create doc2.ID doc2 (memRepo.Create lowerTable doc w0).2.store =
        ((none, some (GoError.cosmosdbError StatusConflict "Conflict")),
          (memRepo.Create lowerTable doc w0).2.store) := by
      rw [hw]
      show (match ((memClient.Create doc.ID doc w0.store).2).lookup doc2.ID with
        | some _ => _
        | none => _) = _
      rw [h2, hx]
    generalize memRepo.Create lowerTable doc w0 = r at hc ⊢
    unfold asyncOperations.Create
    rw [if_neg (not_not.mpr hid2)]
    have hc2 : memRepo.c.Create doc2.ID doc2 r.2.store =
        ((none, some (GoError.cosmosdbError StatusConflict "Conflict")), r.2.store) := hc
    simp [hc2]

/-- C2, witness: `op1` is created a second time over the store that already holds it. -/
theorem Create_conflict_remapped_witness :
    memRepo.Create id op1 world1 =
      ((none, some (GoError.cosmosdbError StatusPreconditionFailed "Conflict")),
        ⟨world1.store, [Event.create "op-1" op1
          (none, some (GoError.cosmosdbError StatusConflict "Conflict"))]⟩) :=
  ((Create_conflict_remapped memRepo id op1 world1 (by decide)).1
    none "Conflict" world1.store (by decide)).1

/-- C3 (amended): for a document whose ID contains a rune whose lower-case form differs
from it (an ASCII capital letter, or a non-ASCII rune that `unicode.ToLower` changes),
the ID differs from its lower-cased form, and `asyncOperations.Create` returns no
document and the validation error naming the ID as it was given, and leaves the world
as it was: the store state is untouched and nothing is added to the log, so no store
call was issued, in particular none with a lower-cased ID. -/
theorem Create_not_canonical_rejected {σ : Type} (a : asyncOperations σ)
    (lowerTable : Char → Char) (doc : AsyncOperationDocument) (w : World σ)
    (h : ∃ r ∈ doc.ID.data, LowerCaseDiffers lowerTable r) :
    doc.ID ≠ ToLower lowerTable doc.ID ∧
      a.Create lowerTable doc w = ((none, some (notLowerCase doc.ID)), w) := by
  refine ⟨ne_ToLower_of_upper lowerTable doc.ID h, ?_⟩
  unfold asyncOperations.Create
  rw [if_pos (ne_ToLower_of_upper lowerTable doc.ID h)]

/-- C3, witness: the ID `Op-1` is rejected and the world is left alone. -/
theorem Create_not_canonical_rejected_witness :
    "Op-1" ≠ ToLower id "Op-1" ∧
      memRepo.Create id { op1 with ID := "Op-1" } world1 =
        ((none, some (notLowerCase "Op-1")), world1) :=
  Create_not_canonical_rejected memRepo id { op1 with ID := "Op-1" } world1
    ⟨'O', by decide, Or.inl (by decide)⟩

/-- C3, counterexample: the ID of `opC` is the upper-case letter U+2102, which has no
lower-case form, so that the ID equals its lower-cased form.  `Create` on the empty
store does not fail: it issues the store's create under this ID and returns the stored
document with a nil error. -/
theorem Create_uppercase_accepted_counterexample :
    (∃ r ∈ opC.ID.data, IsUpper upperTableC r = true) ∧
      opC.ID = ToLower id opC.ID ∧
      memRepo.Create id opC world0 =
        ((some { opC with ETag := MemStore.token 0 }, none),
          ⟨⟨[{ opC with ETag := MemStore.token 0 }], 1⟩,
            [Event.create opC.ID opC (some { opC with ETag := MemStore.token 0 }, none)]⟩) := by
  refine ⟨⟨doubleStruckC, by decide, by decide⟩, by decide, by decide⟩

/-- C4 (amended): for an id that contains a rune whose lower-case form differs from it
(an ASCII capital letter, or a non-ASCII rune that `unicode.ToLower` changes), the id
differs from its lower-cased form, and `asyncOperations.Get` returns no document and the
validation error, and leaves the world as it was: the store state is untouched and
nothing is added to the log, so no store call was issued. -/
theorem Get_not_canonical_rejected {σ : Type} (a : asyncOperations σ)
    (lowerTable : Char → Char) (id : String) (w : World σ)
    (h : ∃ r ∈ id.data, LowerCaseDiffers lowerTable r) :
    id ≠ ToLower lowerTable id ∧
      a.Get lowerTable id w = ((none, some (notLowerCase id)), w) :=
  ⟨ne_ToLower_of_upper lowerTable id h,
    Get_of_not_canonical a lowerTable id w (ne_ToLower_of_upper lowerTable id h)⟩

/-- C4, witness: the id `OP-1` is rejected although `op-1` is stored. -/
theorem Get_not_canonical_rejected_witness :
    "OP-1" ≠ ToLower id "OP-1" ∧
      memRepo.Get id "OP-1" world1 = ((none, some (notLowerCase "OP-1")), world1) :=
  Get_not_canonical_rejected memRepo id "OP-1" world1 ⟨'P', by decide, Or.inl (by decide)⟩

/-- C4, counterexample: the id is the upper-case letter U+2102, which has no lower-case
form, so that the id equals its lower-cased form.  `Get` does not fail with the
validation error: it issues the store's get under this id, once on the empty store,
which answers NotFound, and once on the store that holds the document, which is
returned with a nil error. -/
theorem Get_uppercase_accepted_counterexample :
    (∃ r ∈ opC.ID.data, IsUpper upperTableC r = true) ∧
      opC.ID = ToLower id opC.ID ∧
      memRepo.Get id opC.ID world0 =
        ((none, some (GoError.cosmosdbError StatusNotFound "NotFound")),
          ⟨world0.store,
            [Event.get opC.ID opC.ID
              (none, some (GoError.cosmosdbError StatusNotFound "NotFound"))]⟩) ∧
      memRepo.Get id opC.ID ⟨⟨[{ opC with ETag := MemStore.token 0 }], 1⟩, []⟩ =
        ((some { opC with ETag := MemStore.token 0 }, none),
          ⟨⟨[{ opC with ETag := MemStore.token 0 }], 1⟩,
            [Event.get opC.ID opC.ID (some { opC with ETag := MemStore.token 0 }, none)]⟩) := by
  refine ⟨⟨doubleStruckC, by decide, by decide⟩, by decide, by decide, by decide⟩

/-! ## Runs of `Patch` -/

theorem Patch_of_mutator_error {σ μ : Type} (a : asyncOperations σ)
    (lowerTable : Char → Char) (fuel : Nat) (id : String) (f : Mutator μ) (w : World σ)
    (m : μ) (d d1 : AsyncOperationDocument) (e : GoError) (st1 : σ) (m1 : μ)
    (hid : id = ToLower lowerTable id)
    (hget : a.c.Get id id w.store = ((some d, none), st1))
    (hf : f.run d m = ((d1, some e), m1))
    (hne : IsErrorStatusCode (some e) StatusPreconditionFailed = false) :
    a.Patch lowerTable (fuel + 1) id f w m =
      (Outcome.returned (some d1, some e),
        ⟨st1, w.log ++
          [Event.get id id (some d, none), Event.mutator (some d) (some d1) (some e)]⟩,
        m1) := by
  unfold asyncOperations.Patch RetryOnPreconditionFailed
  rw [patchAttempt_mutator_error a lowerTable id f ⟨none, w, m⟩ d d1 e st1 m1 hid hget hf]
  simp [hne]

theorem Patch_of_first_replace {σ μ : Type} (a : asyncOperations σ)
    (lowerTable : Char → Char) (fuel : Nat) (id : String) (f : Mutator μ) (w : World σ)
    (m : μ) (d d1 : AsyncOperationDocument) (rd : Option AsyncOperationDocument)
    (st1 st2 : σ) (m1 : μ)
    (hid : id = ToLower lowerTable id)
    (hget : a.c.Get id id w.store = ((some d, none), st1))
    (hf : f.run d m = ((d1, none), m1))
    (hrep : a.c.Replace d1.ID d1 st1 = ((rd, none), st2)) :
    a.Patch lowerTable (fuel + 1) id f w m =
      (Outcome.returned (rd, none),
        ⟨st2, w.log ++
          [Event.get id id (some d, none), Event.mutator (some d) (some d1) none,
            Event.replace d1.ID d1 (rd, none)]⟩,
        m1) := by
  unfold asyncOperations.Patch RetryOnPreconditionFailed
  rw [patchAttempt_replace a lowerTable id f ⟨none, w, m⟩ d d1 st1 m1 hid hget hf, hrep]
  simp [IsErrorStatusCode]

theorem count_append_attempt (log : List Event) (ret1 ret2 : DocResult) (id pk : String)
    (d : AsyncOperationDocument) (arg out : Option AsyncOperationDocument)
    (err : Option GoError) :
    getCount (log ++ [Event.get id id ret1, Event.mutator arg out err,
        Event.replace pk d ret2]) = getCount log + 1 ∧
      mutatorCount (log ++ [Event.get id id ret1, Event.mutator arg out err,
        Event.replace pk d ret2]) = mutatorCount log + 1 ∧
      replaceCount (log ++ [Event.get id id ret1, Event.mutator arg out err,
        Event.replace pk d ret2]) = replaceCount log + 1 := by
  simp [getCount, mutatorCount, replaceCount, List.countP_append, List.countP_cons,
    Event.isGet, Event.isMutator, Event.isReplace]

theorem RetryOnPreconditionFailed_fails_then_succeeds {σ μ : Type}
    (a : asyncOperations σ) (lowerTable : Char → Char) (id : String) (f : Mutator μ)
    (extra : Nat) (hid : id = ToLower lowerTable id) (k : Nat) :
    ∀ s : PatchState σ μ,
      replaceFailsThenSucceeds a id f k s.world.store s.captured = true →
      (RetryOnPreconditionFailed (a.patchAttempt lowerTable id f) (extra + (k + 1)) s).1 =
          Outcome.returned none ∧
        getCount (RetryOnPreconditionFailed (a.patchAttempt lowerTable id f)
          (extra + (k + 1)) s).2.world.log = getCount s.world.log + (k + 1) ∧
        mutatorCount (RetryOnPreconditionFailed (a.patchAttempt lowerTable id f)
          (extra + (k + 1)) s).2.world.log = mutatorCount s.world.log + (k + 1) ∧
        replaceCount (RetryOnPreconditionFailed (a.patchAttempt lowerTable id f)
          (extra + (k + 1)) s).2.world.log = replaceCount s.world.log + (k + 1) := by
  induction k with
  | zero =>
    intro s h
    unfold replaceFailsThenSucceeds at h
    rcases hg : a.c.Get id id s.world.store with ⟨⟨rd, re⟩, st1⟩
    rw [hg] at h
    cases rd with
    | none => simp at h
    | some d =>
      cases re with
      | some e => simp at h
      | none =>
        dsimp only at h
        rcases hm : f.run d s.captured with ⟨⟨d1, me⟩, m1⟩
        rw [hm] at h
        cases me with
        | some e => simp at h
        | none =>
          dsimp only at h
          have hr : (a.c.Replace d1.ID d1 st1).1.2 = none := by
            simpa using h
          have hstep := RetryOnPreconditionFailed_succ (a.patchAttempt lowerTable id f)
            extra s
          rw [patchAttempt_replace a lowerTable id f s d d1 st1 m1 hid hg hm, hr] at hstep
          simp only [IsErrorStatusCode, Bool.false_eq_true, if_false] at hstep
          show (RetryOnPreconditionFailed (a.patchAttempt lowerTable id f) (extra + 1) s).1 = _ ∧ _
          rw [hstep]
          exact ⟨rfl, count_append_attempt _ _ _ _ _ _ _ _ _⟩
  | succ n ih =>
    intro s h
    unfold replaceFailsThenSucceeds at h
    rcases hg : a.c.Get id id s.world.store with ⟨⟨rd, re⟩, st1⟩
    rw [hg] at h
    cases rd with
    | none => simp at h
    | some d =>
      cases re with
      | some e => simp at h
      | none =>
        dsimp only at h
        rcases hm : f.run d s.captured with ⟨⟨d1, me⟩, m1⟩
        rw [hm] at h
        cases me with
        | some e => simp at h
        | none =>
          dsimp only at h
          rw [Bool.and_eq_true] at h
          obtain ⟨h412, hrest⟩ := h
          have hstep := RetryOnPreconditionFailed_succ (a.patchAttempt lowerTable id f)
            (extra + (n + 1)) s
          rw [patchAttempt_replace a lowerTable id f s d d1 st1 m1 hid hg hm] at hstep
          simp only [h412, if_true] at hstep
          rw [show extra + (n + 1 + 1) = extra + (n + 1) + 1 from rfl, hstep]
          obtain ⟨h1, h2, h3, h4⟩ := ih ⟨(a.c.Replace d1.ID d1 st1).1.1,
            ⟨(a.c.Replace d1.ID d1 st1).2, s.world.log ++
              [Event.get id id (some d, none), Event.mutator (some d) (some d1) none,
                Event.replace d1.ID d1 (a.c.Replace d1.ID d1 st1).1]⟩, m1⟩ hrest
          obtain ⟨c1, c2, c3⟩ := count_append_attempt s.world.log (some d, none)
            (a.c.Replace d1.ID d1 st1).1 id d1.ID d1 (some d) (some d1) none
          refine ⟨h1, ?_, ?_, ?_⟩
          · rw [h2, c1]; omega
          · rw [h3, c2]; omega
          · rw [h4, c3]; omega


theorem patchAttempt_get_error {σ μ : Type} (a : asyncOperations σ)
    (lowerTable : Char → Char) (id : String) (f : Mutator μ) (s : PatchState σ μ)
    (rd : Option AsyncOperationDocument) (e : GoError) (st1 : σ)
    (hid : id = ToLower lowerTable id)
    (hget : a.c.Get id id s.world.store = ((rd, some e), st1)) :
    a.patchAttempt lowerTable id f s =
      (Outcome.returned (some e),
        ⟨rd, ⟨st1, s.world.log ++ [Event.get id id (rd, some e)]⟩, s.captured⟩) := by
  simp [asyncOperations.patchAttempt, Get_of_canonical a lowerTable id s.world hid, hget]

theorem not_PreconditionFailed_of_ne (e : GoError)
    (hne : ∀ msg, e ≠ GoError.cosmosdbError StatusPreconditionFailed msg) :
    IsErrorStatusCode (some e) StatusPreconditionFailed = false := by
  cases e with
  | cosmosdbError sc msg =>
    simp only [IsErrorStatusCode, decide_eq_false_iff_not]
    intro h
    exact hne msg (by rw [h])
  | errorf fmt args => rfl

theorem Patch_of_returned {σ μ : Type} (a : asyncOperations σ) (lowerTable : Char → Char)
    (fuel : Nat) (id : String) (f : Mutator μ) (w : World σ) (m : μ) (err : Option GoError)
    (h : (RetryOnPreconditionFailed (a.patchAttempt lowerTable id f) fuel ⟨none, w, m⟩).1 =
      Outcome.returned err) :
    (a.Patch lowerTable fuel id f w m).1 =
      Outcome.returned
        ((RetryOnPreconditionFailed (a.patchAttempt lowerTable id f) fuel ⟨none, w, m⟩).2.doc,
          err) := by
  unfold asyncOperations.Patch
  dsimp only
  rw [h]

theorem contendedClient_fails_then_succeeds (k : Nat) :
    ∀ n : Nat, replaceFailsThenSucceeds ⟨contendedClient (n + k)⟩ "op-1"
      (setStatus OperationStatus.Succeeded) k n () = true := by
  induction k with
  | zero =>
    intro n
    simp [replaceFailsThenSucceeds, contendedClient, setStatus]
  | succ j ih =>
    intro n
    have h := ih (n + 1)
    rw [show n + 1 + j = n + (j + 1) by omega] at h
    simp only [contendedClient, setStatus] at h
    simp [replaceFailsThenSucceeds, contendedClient, setStatus, IsErrorStatusCode]
    exact h

/-! ## Claims on `Patch` -/

/-- C1 (amended): for a canonical id, when the get of the first attempt returns a
document and the mutator fails on it with an error other than a PreconditionFailed store
error, `Patch` returns that error (with the document as the mutator left it) however much
fuel the loop has; the log gains exactly that get and that mutator call, so no replace is
issued, and the store is in the state the one get left it in. -/
theorem Patch_mutator_error_aborts {σ μ : Type} (a : asyncOperations σ)
    (lowerTable : Char → Char) (fuel : Nat) (id : String) (f : Mutator μ) (w : World σ)
    (m : μ) (d d1 : AsyncOperationDocument) (e : GoError) (st1 : σ) (m1 : μ)
    (hid : id = ToLower lowerTable id)
    (hget : a.c.Get id id w.store = ((some d, none), st1))
    (hf : f.run d m = ((d1, some e), m1))
    (hne : IsErrorStatusCode (some e) StatusPreconditionFailed = false) :
    a.Patch lowerTable (fuel + 1) id f w m =
      (Outcome.returned (some d1, some e),
        ⟨st1, w.log ++
          [Event.get id id (some d, none), Event.mutator (some d) (some d1) (some e)]⟩,
        m1) :=
  Patch_of_mutator_error a lowerTable fuel id f w m d d1 e st1 m1 hid hget hf hne

/-- C1, witness: a mutator failing with a plain error on the stored `op1`. -/
theorem Patch_mutator_error_aborts_witness :
    memRepo.Patch id 1 "op-1" (failsWith (GoError.errorf "not allowed" [])) world1 () =
      (Outcome.returned (some { op1 with ETag := MemStore.token 0 },
          some (GoError.errorf "not allowed" [])),
        ⟨world1.store,
          [Event.get "op-1" "op-1" (some { op1 with ETag := MemStore.token 0 }, none),
            Event.mutator (some { op1 with ETag := MemStore.token 0 })
              (some { op1 with ETag := MemStore.token 0 })
              (some (GoError.errorf "not allowed" []))]⟩,
        ()) :=
  Patch_mutator_error_aborts memRepo id 0 "op-1" (failsWith (GoError.errorf "not allowed" []))
    world1 () { op1 with ETag := MemStore.token 0 } { op1 with ETag := MemStore.token 0 }
    (GoError.errorf "not allowed" []) world1.store () (by decide) (by decide) rfl rfl

/-- C1, counterexample: the mutator fails on the document `Patch` fetched, with a
PreconditionFailed store error; the loop runs the closure again, the mutator succeeds on
its second call, a replace is issued, the stored document changes, and `Patch` returns
no error. -/
theorem Patch_mutator_error_counterexample :
    memRepo.c.Get "op-1" "op-1" world1.store =
      ((some { op1 with ETag := MemStore.token 0 }, none), world1.store) ∧
    ((failsOnceWith412 none).run { op1 with ETag := MemStore.token 0 } 0).1.2 =
      some (GoError.cosmosdbError StatusPreconditionFailed "PreconditionFailed") ∧
    memRepo.Patch id 2 "op-1" (failsOnceWith412 none) world1 0 =
      (Outcome.returned
          (some { op1 with ETag := MemStore.token 1, Status := OperationStatus.Failed }, none),
        ⟨⟨[{ op1 with ETag := MemStore.token 1, Status := OperationStatus.Failed }], 2⟩,
          [Event.get "op-1" "op-1" (some { op1 with ETag := MemStore.token 0 }, none),
            Event.mutator (some { op1 with ETag := MemStore.token 0 })
              (some { op1 with ETag := MemStore.token 0 })
              (some (GoError.cosmosdbError StatusPreconditionFailed "PreconditionFailed")),
            Event.get "op-1" "op-1" (some { op1 with ETag := MemStore.token 0 }, none),
            Event.mutator (some { op1 with ETag := MemStore.token 0 })
              (some { op1 with ETag := MemStore.token 0, Status := OperationStatus.Failed })
              none,
            Event.replace "op-1"
              { op1 with ETag := MemStore.token 0, Status := OperationStatus.Failed }
              (some { op1 with ETag := MemStore.token 1, Status := OperationStatus.Failed },
                none)]⟩,
        2) := by
  refine ⟨by decide, by decide, by decide⟩

/-- C5: in the log of every run of `Patch`, whatever the fuel, a replace that failed
with PreconditionFailed is followed at once by a new store get for the same id (when the
model's fuel ends right after that replace, `Patch` is still running and its next step,
reached with one more unit of fuel, is that get); and every invocation of the mutator
comes right after a get that returned, with a nil error, the very pointer the mutator
receives: the document of the attempt's own get, never a copy left by an earlier
attempt. -/
theorem Patch_retry_refetches {σ μ : Type} (a : asyncOperations σ)
    (lowerTable : Char → Char) (fuel : Nat) (id : String) (f : Mutator μ) (w : World σ)
    (m : μ) :
    ∃ tr, (a.Patch lowerTable fuel id f w m).2.1.log = w.log ++ tr ∧
      (∀ (pre post : List Event) (pk : String) (doc : AsyncOperationDocument)
        (ret : DocResult), tr = pre ++ Event.replace pk doc ret :: post →
        IsErrorStatusCode ret.2 StatusPreconditionFailed = true →
        (∃ ret1 post1, post = Event.get id id ret1 :: post1) ∨
          (post = [] ∧ (a.Patch lowerTable fuel id f w m).1 = Outcome.running ∧
            ∃ ret1 post1, (a.Patch lowerTable (fuel + 1) id f w m).2.1.log =
              (a.Patch lowerTable fuel id f w m).2.1.log ++ Event.get id id ret1 :: post1)) ∧
      (∀ (pre post : List Event) (arg out : Option AsyncOperationDocument)
        (err : Option GoError), tr = pre ++ Event.mutator arg out err :: post →
        ∃ pre1, pre = pre1 ++ [Event.get id id (arg, none)]) := by
  obtain ⟨tr, o, htr, hlog, hrun⟩ := Patch_log a lowerTable fuel id f w m
  refine ⟨tr, htr, ?_, PatchLog_mutator hlog⟩
  intro pre post pk doc ret h h412
  obtain ⟨hid, _, h3⟩ := PatchLog_replace hlog pre post pk doc ret h
  rcases h3 h412 with h4 | ⟨h4, h5⟩
  · exact Or.inl h4
  · exact Or.inr ⟨h4, hrun h5, Patch_resume_log a lowerTable fuel id f w m hid (hrun h5)⟩

/-- C6: in the log of every run of `Patch`, every replace comes right after a get that
returned a document `d` with a nil error and an invocation of the mutator on `d` that
returned nil; the document submitted is `d` as that invocation left it, keyed by its own
ID.  So when the mutator never changes the version token, the replace carries the
version token of the document that the get of the same attempt returned. -/
theorem Patch_replace_submits_fetched {σ μ : Type} (a : asyncOperations σ)
    (lowerTable : Char → Char) (fuel : Nat) (id : String) (f : Mutator μ) (w : World σ)
    (m : μ) :
    ∃ tr, (a.Patch lowerTable fuel id f w m).2.1.log = w.log ++ tr ∧
      ∀ (pre post : List Event) (pk : String) (doc : AsyncOperationDocument)
        (ret : DocResult), tr = pre ++ Event.replace pk doc ret :: post →
        ∃ pre1 d mu,
          pre = pre1 ++
            [Event.get id id (some d, none), Event.mutator (some d) (some doc) none] ∧
          (f.run d mu).1 = (doc, none) ∧ pk = doc.ID ∧
          ((∀ d0 m0, (f.run d0 m0).1.1.ETag = d0.ETag) → doc.ETag = d.ETag) := by
  obtain ⟨tr, o, htr, hlog, _⟩ := Patch_log a lowerTable fuel id f w m
  refine ⟨tr, htr, ?_⟩
  intro pre post pk doc ret h
  obtain ⟨_, ⟨pre1, d, mu, h1, h2, h3⟩, _⟩ := PatchLog_replace hlog pre post pk doc ret h
  refine ⟨pre1, d, mu, h1, h2, h3, ?_⟩
  intro hkeep
  have := hkeep d mu
  rw [h2] at this
  exact this

/-- C7 (amended): for every error value of the mutator other than a store error with
status PreconditionFailed, a mutator that fails on the document of the first get makes
`Patch` abort without retry, however much fuel the loop has: that error is returned, and
the run adds exactly one get, exactly one invocation of the mutator and no replace to
the log. -/
theorem Patch_mutator_error_no_retry {σ μ : Type} (a : asyncOperations σ)
    (lowerTable : Char → Char) (fuel : Nat) (id : String) (f : Mutator μ) (w : World σ)
    (m : μ) (d d1 : AsyncOperationDocument) (e : GoError) (st1 : σ) (m1 : μ)
    (hid : id = ToLower lowerTable id)
    (hget : a.c.Get id id w.store = ((some d, none), st1))
    (hf : f.run d m = ((d1, some e), m1))
    (hne : ∀ msg, e ≠ GoError.cosmosdbError StatusPreconditionFailed msg) :
    (a.Patch lowerTable (fuel + 1) id f w m).1 = Outcome.returned (some d1, some e) ∧
      getCount (a.Patch lowerTable (fuel + 1) id f w m).2.1.log = getCount w.log + 1 ∧
      mutatorCount (a.Patch lowerTable (fuel + 1) id f w m).2.1.log = mutatorCount w.log + 1 ∧
      replaceCount (a.Patch lowerTable (fuel + 1) id f w m).2.1.log = replaceCount w.log := by
  rw [Patch_of_mutator_error a lowerTable fuel id f w m d d1 e st1 m1 hid hget hf
    (not_PreconditionFailed_of_ne e hne)]
  simp [getCount, mutatorCount, replaceCount, List.countP_append, List.countP_cons,
    Event.isGet, Event.isMutator, Event.isReplace]

/-- C7, witness: a mutator failing with a NotFound store error on the stored `op1`. -/
theorem Patch_mutator_error_no_retry_witness :
    (memRepo.Patch id 4 "op-1" (failsWith (GoError.cosmosdbError StatusNotFound "gone"))
        world1 ()).1 =
        Outcome.returned (some { op1 with ETag := MemStore.token 0 },
          some (GoError.cosmosdbError StatusNotFound "gone")) ∧
      getCount (memRepo.Patch id 4 "op-1"
        (failsWith (GoError.cosmosdbError StatusNotFound "gone")) world1 ()).2.1.log =
        getCount world1.log + 1 ∧
      mutatorCount (memRepo.Patch id 4 "op-1"
        (failsWith (GoError.cosmosdbError StatusNotFound "gone")) world1 ()).2.1.log =
        mutatorCount world1.log + 1 ∧
      replaceCount (memRepo.Patch id 4 "op-1"
        (failsWith (GoError.cosmosdbError StatusNotFound "gone")) world1 ()).2.1.log =
        replaceCount world1.log :=
  Patch_mutator_error_no_retry memRepo id 3 "op-1"
    (failsWith (GoError.cosmosdbError StatusNotFound "gone")) world1 ()
    { op1 with ETag := MemStore.token 0 } { op1 with ETag := MemStore.token 0 }
    (GoError.cosmosdbError StatusNotFound "gone") world1.store () (by decide) (by decide) rfl
    (by intro msg h; simp [StatusNotFound, StatusPreconditionFailed] at h)

/-- C7, counterexample: the mutator returns a PreconditionFailed store error on its
first call and a plain error on its second.  `Patch` does not abort on the first error:
the document is fetched twice, the mutator is invoked twice, and the error surfaced is
the second one. -/
theorem Patch_mutator_error_retried_counterexample :
    ((failsOnceWith412 (some (GoError.errorf "not allowed" []))).run
        { op1 with ETag := MemStore.token 0 } 0).1.2 =
        some (GoError.cosmosdbError StatusPreconditionFailed "PreconditionFailed") ∧
      (memRepo.Patch id 2 "op-1" (failsOnceWith412 (some (GoError.errorf "not allowed" [])))
        world1 0).1 =
        Outcome.returned
          (some { op1 with ETag := MemStore.token 0, Status := OperationStatus.Failed },
            some (GoError.errorf "not allowed" [])) ∧
      getCount (memRepo.Patch id 2 "op-1"
        (failsOnceWith412 (some (GoError.errorf "not allowed" []))) world1 0).2.1.log = 2 ∧
      mutatorCount (memRepo.Patch id 2 "op-1"
        (failsOnceWith412 (some (GoError.errorf "not allowed" []))) world1 0).2.1.log = 2 := by
  refine ⟨by decide, by decide, by decide, by decide⟩

/-- C8: for every `k` and a canonical id, if the store's replace fails with
PreconditionFailed on the first `k` attempts and succeeds on attempt `k + 1` (every get
returning a document and the mutator returning nil throughout), then with any fuel of at
least `k + 1` runs `Patch` returns a nil error, after exactly `k + 1` gets, `k + 1`
invocations of the mutator and `k + 1` replaces: no number of failed attempts makes it
give up. -/
theorem Patch_no_retry_limit {σ μ : Type} (a : asyncOperations σ)
    (lowerTable : Char → Char) (k extra : Nat) (id : String) (f : Mutator μ) (w : World σ)
    (m : μ) (hid : id = ToLower lowerTable id)
    (h : replaceFailsThenSucceeds a id f k w.store m = true) :
    (∃ rd, (a.Patch lowerTable (extra + (k + 1)) id f w m).1 = Outcome.returned (rd, none)) ∧
      getCount (a.Patch lowerTable (extra + (k + 1)) id f w m).2.1.log =
        getCount w.log + (k + 1) ∧
      mutatorCount (a.Patch lowerTable (extra + (k + 1)) id f w m).2.1.log =
        mutatorCount w.log + (k + 1) ∧
      replaceCount (a.Patch lowerTable (extra + (k + 1)) id f w m).2.1.log =
        replaceCount w.log + (k + 1) := by
  obtain ⟨h1, h2, h3, h4⟩ := RetryOnPreconditionFailed_fails_then_succeeds a lowerTable id f
    extra hid k ⟨none, w, m⟩ h
  refine ⟨⟨_, Patch_of_returned a lowerTable _ id f w m none h1⟩, ?_, ?_, ?_⟩
  · rw [Patch_world]; exact h2
  · rw [Patch_world]; exact h3
  · rw [Patch_world]; exact h4

/-- C8, witness: two replaces are beaten by another writer, the third goes through. -/
theorem Patch_no_retry_limit_witness :
    (∃ rd, (asyncOperations.Patch ⟨contendedClient 2⟩ id (0 + (2 + 1)) "op-1"
        (setStatus OperationStatus.Succeeded) ⟨0, []⟩ ()).1 = Outcome.returned (rd, none)) ∧
      getCount (asyncOperations.Patch ⟨contendedClient 2⟩ id (0 + (2 + 1)) "op-1"
        (setStatus OperationStatus.Succeeded) ⟨0, []⟩ ()).2.1.log = getCount [] + (2 + 1) ∧
      mutatorCount (asyncOperations.Patch ⟨contendedClient 2⟩ id (0 + (2 + 1)) "op-1"
        (setStatus OperationStatus.Succeeded) ⟨0, []⟩ ()).2.1.log = mutatorCount [] + (2 + 1) ∧
      replaceCount (asyncOperations.Patch ⟨contendedClient 2⟩ id (0 + (2 + 1)) "op-1"
        (setStatus OperationStatus.Succeeded) ⟨0, []⟩ ()).2.1.log = replaceCount [] + (2 + 1) :=
  Patch_no_retry_limit ⟨contendedClient 2⟩ id 2 0 "op-1"
    (setStatus OperationStatus.Succeeded) ⟨0, []⟩ () (by decide) (by decide)

/-- C10: for a canonical id, when the store's get returns a document, the mutator returns
nil on it and the first replace returns a nil error, `Patch` returns the document that
replace returned together with a nil error, however much fuel the loop has; the log gains
exactly that get, that invocation of the mutator and that replace, so one get and one
replace are issued. -/
theorem Patch_first_replace_succeeds {σ μ : Type} (a : asyncOperations σ)
    (lowerTable : Char → Char) (fuel : Nat) (id : String) (f : Mutator μ) (w : World σ)
    (m : μ) (d d1 : AsyncOperationDocument) (rd : Option AsyncOperationDocument)
    (st1 st2 : σ) (m1 : μ)
    (hid : id = ToLower lowerTable id)
    (hget : a.c.Get id id w.store = ((some d, none), st1))
    (hf : f.run d m = ((d1, none), m1))
    (hrep : a.c.Replace d1.ID d1 st1 = ((rd, none), st2)) :
    a.Patch lowerTable (fuel + 1) id f w m =
        (Outcome.returned (rd, none),
          ⟨st2, w.log ++
            [Event.get id id (some d, none), Event.mutator (some d) (some d1) none,
              Event.replace d1.ID d1 (rd, none)]⟩,
          m1) ∧
      getCount (a.Patch lowerTable (fuel + 1) id f w m).2.1.log = getCount w.log + 1 ∧
      replaceCount (a.Patch lowerTable (fuel + 1) id f w m).2.1.log = replaceCount w.log + 1 := by
  rw [Patch_of_first_replace a lowerTable fuel id f w m d d1 rd st1 st2 m1 hid hget hf hrep]
  obtain ⟨c1, _, c3⟩ := count_append_attempt w.log (some d, none) (rd, none) id d1.ID d1
    (some d) (some d1) none
  exact ⟨rfl, c1, c3⟩

/-- C10, witness: the backend sets `op1` to Succeeded over the stored document. -/
theorem Patch_first_replace_succeeds_witness :
    memRepo.Patch id 1 "op-1" (setStatus OperationStatus.Succeeded) world1 () =
        (Outcome.returned
            (some { op1 with ETag := MemStore.token 1, Status := OperationStatus.Succeeded },
              none),
          ⟨⟨[{ op1 with ETag := MemStore.token 1, Status := OperationStatus.Succeeded }], 2⟩,
            world1.log ++
            [Event.get "op-1" "op-1" (some { op1 with ETag := MemStore.token 0 }, none),
              Event.mutator (some { op1 with ETag := MemStore.token 0 })
                (some { op1 with ETag := MemStore.token 0, Status := OperationStatus.Succeeded })
                none,
              Event.replace "op-1"
                { op1 with ETag := MemStore.token 0, Status := OperationStatus.Succeeded }
                (some { op1 with ETag := MemStore.token 1, Status := OperationStatus.Succeeded },
                  none)]⟩,
          ()) ∧
      getCount (memRepo.Patch id 1 "op-1" (setStatus OperationStatus.Succeeded)
        world1 ()).2.1.log = getCount world1.log + 1 ∧
      replaceCount (memRepo.Patch id 1 "op-1" (setStatus OperationStatus.Succeeded)
        world1 ()).2.1.log = replaceCount world1.log + 1 :=
  Patch_first_replace_succeeds memRepo id 0 "op-1" (setStatus OperationStatus.Succeeded)
    world1 () { op1 with ETag := MemStore.token 0 }
    { op1 with ETag := MemStore.token 0, Status := OperationStatus.Succeeded }
    (some { op1 with ETag := MemStore.token 1, Status := OperationStatus.Succeeded })
    world1.store
    ⟨[{ op1 with ETag := MemStore.token 1, Status := OperationStatus.Succeeded }], 2⟩ ()
    (by decide) (by decide) rfl (by decide)

/-! ## Claims on errors passed through and on the life of an operation -/

/-- C11: for a canonical id, when the store's get inside `Patch` fails with NotFound,
`Patch` returns that very error (with whatever document pointer the get returned),
however much fuel the loop has; the log gains that one get and nothing else, so there is
no second get, no invocation of the mutator (whose captured state is untouched) and no
replace. -/
theorem Patch_get_NotFound_surfaced {σ μ : Type} (a : asyncOperations σ)
    (lowerTable : Char → Char) (fuel : Nat) (id : String) (f : Mutator μ) (w : World σ)
    (m : μ) (rd : Option AsyncOperationDocument) (msg : String) (st1 : σ)
    (hid : id = ToLower lowerTable id)
    (hget : a.c.Get id id w.store =
      ((rd, some (GoError.cosmosdbError StatusNotFound msg)), st1)) :
    a.Patch lowerTable (fuel + 1) id f w m =
      (Outcome.returned (rd, some (GoError.cosmosdbError StatusNotFound msg)),
        ⟨st1, w.log ++
          [Event.get id id (rd, some (GoError.cosmosdbError StatusNotFound msg))]⟩,
        m) := by
  unfold asyncOperations.Patch RetryOnPreconditionFailed
  rw [patchAttempt_get_error a lowerTable id f ⟨none, w, m⟩ rd _ st1 hid hget]
  simp [IsErrorStatusCode, StatusNotFound, StatusPreconditionFailed]

/-- C11, witness: `op-1` is patched in a store that holds nothing. -/
theorem Patch_get_NotFound_surfaced_witness :
    memRepo.Patch id 3 "op-1" (setStatus OperationStatus.Succeeded) world0 () =
      (Outcome.returned (none, some (GoError.cosmosdbError StatusNotFound "NotFound")),
        ⟨world0.store, world0.log ++
          [Event.get "op-1" "op-1"
            (none, some (GoError.cosmosdbError StatusNotFound "NotFound"))]⟩,
        ()) :=
  Patch_get_NotFound_surfaced memRepo id 2 "op-1" (setStatus OperationStatus.Succeeded)
    world0 () none "NotFound" world0.store (by decide) (by decide)

/-- C12: for a document with a canonical ID, `asyncOperations.Create` moves the world by
exactly one store call: a create keyed by the document's own ID and given the document
as it was passed, nothing before it and nothing after it.  When the store's error is not
a Conflict store error (so for a nil error, for PreconditionFailed and for every other
error) the result of `Create` is the store's document and error as they came. -/
theorem Create_single_call_passthrough {σ : Type} (a : asyncOperations σ)
    (lowerTable : Char → Char) (doc : AsyncOperationDocument) (w : World σ)
    (hid : doc.ID = ToLower lowerTable doc.ID) :
    (a.Create lowerTable doc w).2 =
        ⟨(a.c.Create doc.ID doc w.store).2,
          w.log ++ [Event.create doc.ID doc (a.c.Create doc.ID doc w.store).1]⟩ ∧
      (IsErrorStatusCode (a.c.Create doc.ID doc w.store).1.2 StatusConflict = false →
        (a.Create lowerTable doc w).1 = (a.c.Create doc.ID doc w.store).1) := by
  refine ⟨Create_world_of_canonical a lowerTable doc w hid, ?_⟩
  intro hne
  unfold asyncOperations.Create
  rw [if_neg (not_not.mpr hid)]
  rcases hc : a.c.Create doc.ID doc w.store with ⟨⟨rd, re⟩, st⟩
  rw [hc] at hne
  cases re with
  | none => rfl
  | some e =>
    cases e with
    | errorf fmt args => rfl
    | cosmosdbError sc msg =>
      have hsc : sc ≠ StatusConflict := by
        simpa [IsErrorStatusCode] using hne
      simp [hsc]

/-- C12, witness: `op1` is created in a store that holds nothing. -/
theorem Create_single_call_passthrough_witness :
    (memRepo.Create id op1 world0).2 =
        ⟨(memRepo.c.Create op1.ID op1 world0.store).2,
          world0.log ++ [Event.create op1.ID op1 (memRepo.c.Create op1.ID op1 world0.store).1]⟩ ∧
      (IsErrorStatusCode (memRepo.c.Create op1.ID op1 world0.store).1.2 StatusConflict = false →
        (memRepo.Create id op1 world0).1 = (memRepo.c.Create op1.ID op1 world0.store).1) :=
  Create_single_call_passthrough memRepo id op1 world0 (by decide)

/-- C13: for a canonical id, `asyncOperations.Get` issues exactly one store get, with
the id as partition key and as document id, and returns the store's document and error
as they came; over the store that honours the contract an absent document therefore
yields the store's NotFound error. -/
theorem Get_single_call_passthrough {σ : Type} (a : asyncOperations σ)
    (lowerTable : Char → Char) (id : String) (w : World σ)
    (hid : id = ToLower lowerTable id) :
    a.Get lowerTable id w =
        ((a.c.Get id id w.store).1,
          ⟨(a.c.Get id id w.store).2,
            w.log ++ [Event.get id id (a.c.Get id id w.store).1]⟩) ∧
      (∀ w0 : World MemStore, w0.store.lookup id = none →
        memRepo.Get lowerTable id w0 =
          ((none, some (GoError.cosmosdbError StatusNotFound "NotFound")),
            ⟨w0.store, w0.log ++ [Event.get id id
              (none, some (GoError.cosmosdbError StatusNotFound "NotFound"))]⟩)) := by
  refine ⟨Get_of_canonical a lowerTable id w hid, ?_⟩
  intro w0 habs
  rw [Get_of_canonical memRepo lowerTable id w0 hid]
  simp [memRepo, memClient, habs]

/-- C13, witness: the stored `op1` is read back. -/
theorem Get_single_call_passthrough_witness :
    memRepo.Get id "op-1" world1 =
      ((some { op1 with ETag := MemStore.token 0 }, none),
        ⟨world1.store, world1.log ++
          [Event.get "op-1" "op-1" (some { op1 with ETag := MemStore.token 0 }, none)]⟩) :=
  (Get_single_call_passthrough memRepo id "op-1" world1 (by decide)).1

theorem MemStore_token_injective (a b : Nat) (h : MemStore.token a = MemStore.token b) :
    a = b := by
  have h1 := congrArg String.length h
  simp [MemStore.token, String.length] at h1
  exact h1

theorem MemStore_lookup_put (s : MemStore) (doc : AsyncOperationDocument) :
    (s.put doc).2.lookup doc.ID = some (s.put doc).1 := by
  simp [MemStore.lookup, MemStore.put, List.find?_cons]

theorem memRepo_Create_of_absent (lowerTable : Char → Char) (doc : AsyncOperationDocument)
    (w0 : World MemStore) (hid : doc.ID = ToLower lowerTable doc.ID)
    (habs : w0.store.lookup doc.ID = none) :
    memRepo.Create lowerTable doc w0 =
      ((some (w0.store.put doc).1, none),
        ⟨(w0.store.put doc).2,
          w0.log ++ [Event.create doc.ID doc (some (w0.store.put doc).1, none)]⟩) := by
  unfold asyncOperations.Create
  rw [if_neg (not_not.mpr hid)]
  simp [memRepo, memClient, habs]

theorem memRepo_Create_error_of_present (lowerTable : Char → Char)
    (doc : AsyncOperationDocument) (w0 : World MemStore) (x : AsyncOperationDocument)
    (hid : doc.ID = ToLower lowerTable doc.ID) (hpres : w0.store.lookup doc.ID = some x) :
    (memRepo.Create lowerTable doc w0).1.2 ≠ none := by
  unfold asyncOperations.Create
  rw [if_neg (not_not.mpr hid)]
  simp [memRepo, memClient, hpres]

/-- C14: over the store that honours the contract, take an operation document with a
canonical id and status InProgress whose `Create` succeeds.  Then
`Patch(id, setStatus(Succeeded))` on the resulting store returns a nil error and a
document whose version token differs from the one `Create` returned, and a `Get` of the
id after that returns this document, in status Succeeded. -/
theorem Create_Patch_Get_scenario (lowerTable : Char → Char) (fuel : Nat)
    (doc : AsyncOperationDocument) (w0 : World MemStore)
    (hid : doc.ID = ToLower lowerTable doc.ID)
    (hst : doc.Status = OperationStatus.InProgress)
    (hcreate : (memRepo.Create lowerTable doc w0).1.2 = none) :
    ∃ created patched : AsyncOperationDocument,
      (memRepo.Create lowerTable doc w0).1 = (some created, none) ∧
      created.Status = OperationStatus.InProgress ∧
      (memRepo.Patch lowerTable (fuel + 1) doc.ID (setStatus OperationStatus.Succeeded)
        (memRepo.Create lowerTable doc w0).2 ()).1 = Outcome.returned (some patched, none) ∧
      patched.ETag ≠ created.ETag ∧
      patched.Status = OperationStatus.Succeeded ∧
      (memRepo.Get lowerTable doc.ID
        (memRepo.Patch lowerTable (fuel + 1) doc.ID (setStatus OperationStatus.Succeeded)
          (memRepo.Create lowerTable doc w0).2 ()).2.1).1 = (some patched, none) := by
  have habs : w0.store.lookup doc.ID = none := by
    cases hl : w0.store.lookup doc.ID with
    | none => rfl
    | some x => exact absurd hcreate (memRepo_Create_error_of_present lowerTable doc w0 x hid hl)
  rw [memRepo_Create_of_absent lowerTable doc w0 hid habs]
  have hlook := MemStore_lookup_put w0.store doc
  have hgetc : memRepo.c.Get doc.ID doc.ID (w0.store.put doc).2 =
      ((some (w0.store.put doc).1, none), (w0.store.put doc).2) := by
    simp [memRepo, memClient, hlook]
  have hrun : (setStatus OperationStatus.Succeeded).run (w0.store.put doc).1 () =
      (({ (w0.store.put doc).1 with Status := OperationStatus.Succeeded }, none), ()) := rfl
  have hrep : memRepo.c.Replace
      ({ (w0.store.put doc).1 with Status := OperationStatus.Succeeded } :
        AsyncOperationDocument).ID
      { (w0.store.put doc).1 with Status := OperationStatus.Succeeded }
      (w0.store.put doc).2 =
      ((some ((w0.store.put doc).2.put
          { (w0.store.put doc).1 with Status := OperationStatus.Succeeded }).1, none),
        ((w0.store.put doc).2.put
          { (w0.store.put doc).1 with Status := OperationStatus.Succeeded }).2) := by
    have hID : ({ (w0.store.put doc).1 with Status := OperationStatus.Succeeded } :
        AsyncOperationDocument).ID = doc.ID := rfl
    have hID1 : (w0.store.put doc).1.ID = doc.ID := rfl
    simp only [memRepo, memClient, hID]
    rw [hID1, hlook]
    simp
  have hpatch := Patch_of_first_replace memRepo lowerTable fuel doc.ID
    (setStatus OperationStatus.Succeeded)
    ⟨(w0.store.put doc).2,
      w0.log ++ [Event.create doc.ID doc (some (w0.store.put doc).1, none)]⟩ ()
    (w0.store.put doc).1 { (w0.store.put doc).1 with Status := OperationStatus.Succeeded }
    _ (w0.store.put doc).2 _ () hid hgetc hrun hrep
  refine ⟨(w0.store.put doc).1, ((w0.store.put doc).2.put
    { (w0.store.put doc).1 with Status := OperationStatus.Succeeded }).1, rfl, hst, ?_, ?_, rfl, ?_⟩
  · rw [hpatch]
  · intro h
    have h1 : MemStore.token (w0.store.put doc).2.writes = MemStore.token w0.store.writes := h
    have h2 := MemStore_token_injective _ _ h1
    simp [MemStore.put] at h2
  · rw [hpatch]
    have hID2 : doc.ID = ({ (w0.store.put doc).1 with Status := OperationStatus.Succeeded } :
        AsyncOperationDocument).ID := rfl
    rw [Get_of_canonical memRepo lowerTable doc.ID _ hid]
    have hl2 := MemStore_lookup_put (w0.store.put doc).2
      { (w0.store.put doc).1 with Status := OperationStatus.Succeeded }
    rw [← hID2] at hl2
    simp [memRepo, memClient, hl2]

/-- C14, witness: `op1` is created in the empty store, set to Succeeded and read back. -/
theorem Create_Patch_Get_scenario_witness :
    ∃ created patched : AsyncOperationDocument,
      (memRepo.Create id op1 world0).1 = (some created, none) ∧
      created.Status = OperationStatus.InProgress ∧
      (memRepo.Patch id (0 + 1) op1.ID (setStatus OperationStatus.Succeeded)
        (memRepo.Create id op1 world0).2 ()).1 = Outcome.returned (some patched, none) ∧
      patched.ETag ≠ created.ETag ∧
      patched.Status = OperationStatus.Succeeded ∧
      (memRepo.Get id op1.ID
        (memRepo.Patch id (0 + 1) op1.ID (setStatus OperationStatus.Succeeded)
          (memRepo.Create id op1 world0).2 ()).2.1).1 = (some patched, none) :=
  Create_Patch_Get_scenario id 0 op1 world0 (by decide) rfl (by decide)

/-- C15 (amended): `Patch` itself checks no status.  For every mutator that leaves a
document in a terminal status (Succeeded, Failed or Canceled) in that status, every
replace in the log of a run of `Patch` comes right after a get and a mutator call on the
fetched document, and when the fetched document was in a terminal status the document
submitted to replace is in that same status. -/
theorem Patch_keeps_terminal_status {σ μ : Type} (a : asyncOperations σ)
    (lowerTable : Char → Char) (fuel : Nat) (id : String) (f : Mutator μ) (w : World σ)
    (m : μ)
    (hkeep : ∀ d m0, d.Status.isTerminal = true → (f.run d m0).1.1.Status = d.Status) :
    ∃ tr, (a.Patch lowerTable fuel id f w m).2.1.log = w.log ++ tr ∧
      ∀ (pre post : List Event) (pk : String) (doc : AsyncOperationDocument)
        (ret : DocResult), tr = pre ++ Event.replace pk doc ret :: post →
        ∃ pre1 d,
          pre = pre1 ++
            [Event.get id id (some d, none), Event.mutator (some d) (some doc) none] ∧
          (d.Status.isTerminal = true → doc.Status = d.Status) := by
  obtain ⟨tr, o, htr, hlog, _⟩ := Patch_log a lowerTable fuel id f w m
  refine ⟨tr, htr, ?_⟩
  intro pre post pk doc ret h
  obtain ⟨_, ⟨pre1, d, mu, h1, h2, _⟩, _⟩ := PatchLog_replace hlog pre post pk doc ret h
  refine ⟨pre1, d, h1, ?_⟩
  intro hterm
  have := hkeep d mu hterm
  rw [h2] at this
  exact this

/-- C15, witness: a mutator that only completes operations still in progress. -/
theorem Patch_keeps_terminal_status_witness :
    ∃ tr, (memRepo.Patch id 2 "op-1" (completeWith OperationStatus.Failed)
        worldSucceeded ()).2.1.log = worldSucceeded.log ++ tr ∧
      ∀ (pre post : List Event) (pk : String) (doc : AsyncOperationDocument)
        (ret : DocResult), tr = pre ++ Event.replace pk doc ret :: post →
        ∃ pre1 d,
          pre = pre1 ++
            [Event.get "op-1" "op-1" (some d, none), Event.mutator (some d) (some doc) none] ∧
          (d.Status.isTerminal = true → doc.Status = d.Status) :=
  Patch_keeps_terminal_status memRepo id 2 "op-1" (completeWith OperationStatus.Failed)
    worldSucceeded ()
    (by
      intro d m0 hterm
      have hne : d.Status ≠ OperationStatus.InProgress := by
        intro h
        rw [h] at hterm
        cases hterm
      simp [completeWith, hne])

/-- C15, counterexample: the stored `op1` is in the terminal status Succeeded; a `Patch`
with the mutator `setStatus(Failed)` returns a nil error and the stored status is
Failed. -/
theorem Patch_leaves_terminal_status_counterexample :
    (worldSucceeded.store.lookup "op-1").map (fun d => d.Status) =
        some OperationStatus.Succeeded ∧
      (memRepo.Patch id 1 "op-1" (setStatus OperationStatus.Failed) worldSucceeded ()).1 =
        Outcome.returned
          (some { op1 with ETag := MemStore.token 1, Status := OperationStatus.Failed },
            none) ∧
      ((memRepo.Patch id 1 "op-1" (setStatus OperationStatus.Failed)
        worldSucceeded ()).2.1.store.lookup "op-1").map (fun d => d.Status) =
        some OperationStatus.Failed := by
  refine ⟨by decide, by decide, by decide⟩

end Database

namespace Deploy

/-! ## Claims on `mergeConfig` -/

theorem ConfigurationType_length : ConfigurationType.length = NumField := by decide

theorem mergeFields_some (s : Configuration) (l : List (Fin NumField)) (hl : l.Nodup) :
    ∀ p : Configuration, ∃ q, mergeFields (some s) l p = some q ∧
      ∀ i, q i = if i ∈ l ∧ (p i).IsZero = true then s i else p i := by
  induction l with
  | nil =>
    intro p
    exact ⟨p, rfl, by intro i; simp⟩
  | cons j rest ih =>
    intro p
    have hj : j ∉ rest := (List.nodup_cons.mp hl).1
    have hrest : rest.Nodup := (List.nodup_cons.mp hl).2
    unfold mergeFields
    cases hz : (p j).IsZero with
    | true =>
      simp only [if_true]
      obtain ⟨q, hq, hqi⟩ := ih hrest (Function.update p j (s j))
      refine ⟨q, hq, ?_⟩
      intro i
      rw [hqi i]
      by_cases hij : i = j
      · subst hij
        simp [hj, hz]
      · simp [Function.update_noteq hij, hij]
    | false =>
      simp only [Bool.false_eq_true, if_false]
      obtain ⟨q, hq, hqi⟩ := ih hrest p
      refine ⟨q, hq, ?_⟩
      intro i
      rw [hqi i]
      by_cases hij : i = j
      · subst hij
        simp [hj, hz]
      · simp [hij]

/-- C20: for all non-nil Configurations `primary` and `secondary`, `mergeConfig` returns
(it does not panic) a nil error and a Configuration in which every field that was
non-zero in `primary` has `primary`'s original value and every field that was zero in
`primary` has `secondary`'s value. -/
theorem mergeConfig_fields (primary secondary : Configuration) :
    ∃ merged : Configuration,
      mergeConfig (some primary) (some secondary) =
        Database.Outcome.returned (some merged, none) ∧
      ∀ i, ((primary i).IsZero = false → merged i = primary i) ∧
        ((primary i).IsZero = true → merged i = secondary i) := by
  obtain ⟨q, hq, hqi⟩ := mergeFields_some secondary (List.finRange NumField)
    (List.nodup_finRange NumField) primary
  refine ⟨q, ?_, ?_⟩
  · simp [mergeConfig, hq]
  · intro i
    have h := hqi i
    simp only [List.mem_finRange, true_and] at h
    constructor
    · intro hz
      rw [h, hz]
      simp
    · intro hz
      rw [h, hz]
      simp

end Deploy

namespace Main

/-! ## The shutdown sequence of `rp` -/

theorem Precedes_nil (a b : Ev) : Precedes a b [] := by
  intro pre post h
  simp at h

theorem Precedes_append (a b e : Ev) (log : List Ev) (h : Precedes a b log)
    (he : e = b → a ∈ log) : Precedes a b (log ++ [e]) := by
  intro pre post hlog
  rcases List.eq_nil_or_concat post with hp | ⟨post1, x, hp⟩
  · subst hp
    have h1 : log ++ [e] = pre ++ [b] := hlog
    have h2 := List.append_inj' h1 rfl
    have h3 : e = b := by simpa using h2.2
    rw [← h2.1]
    exact he h3
  · subst hp
    have h1 : log ++ [e] = (pre ++ b :: post1) ++ [x] := by
      rw [hlog]
      simp
    have h2 := List.append_inj' h1 rfl
    exact h pre post1 h2.1

theorem Precedes_append_of_ne (a b e : Ev) (log : List Ev) (h : Precedes a b log)
    (hne : e ≠ b) : Precedes a b (log ++ [e]) :=
  Precedes_append a b e log h (fun he => absurd he hne)

theorem mem_of_mem_filter_isRp (e : Ev) (log : List Ev)
    (h : e ∈ log.filter Ev.isRp) : e ∈ log :=
  (List.mem_filter.mp h).1

theorem Inv_init : Inv init := by
  constructor <;> simp [init, stepsTaken, Precedes_nil]

theorem Inv_env (s : State) (h : Inv s) (e : Ev) (he : e.isRp = false)
    (t : State) (hpc : t.pc = s.pc) (hstop : t.stop = s.stop) (hlog : t.log = s.log ++ [e])
    (hsig : 0 < t.sigterm → 0 < s.sigterm ∨ e = Ev.sigtermNotified)
    (hB : t.doneB = true → s.doneB = true ∨ e = Ev.backendDone)
    (hF : t.doneF = true → s.doneF = true ∨ e = Ev.frontendDone) : Inv t := by
  constructor
  · rw [hlog, hpc, List.filter_append, h.steps]
    simp [List.filter, he]
  · rw [hpc]; exact h.notPanicked
  · rw [hpc, hstop]; exact h.stop
  · intro h0
    rw [hlog]
    rcases hsig h0 with h1 | h1
    · exact List.mem_append_left _ (h.sigterm h1)
    · simp [h1]
  · intro h0
    rw [hlog]
    rcases hB h0 with h1 | h1
    · exact List.mem_append_left _ (h.doneB h1)
    · simp [h1]
  · intro h0
    rw [hlog]
    rcases hF h0 with h1 | h1
    · exact List.mem_append_left _ (h.doneF h1)
    · simp [h1]
  · rw [hlog]
    exact Precedes_append_of_ne _ _ _ _ h.notified (by intro h1; rw [h1] at he; cases he)
  · rw [hlog]
    exact Precedes_append_of_ne _ _ _ _ h.received (by intro h1; rw [h1] at he; cases he)
  · rw [hlog]
    exact Precedes_append_of_ne _ _ _ _ h.backend (by intro h1; rw [h1] at he; cases he)
  · rw [hlog]
    exact Precedes_append_of_ne _ _ _ _ h.frontend (by intro h1; rw [h1] at he; cases he)

theorem Inv_rp (s : State) (h : Inv s) (e : Ev) (he : e.isRp = true) (t : State)
    (hlog : t.log = s.log ++ [e]) (hsteps : stepsTaken t.pc = stepsTaken s.pc ++ [e])
    (hpc : t.pc ≠ Pc.panicked) (hstop : t.stop = true ↔ Ev.stopClosed ∈ stepsTaken t.pc)
    (hsig : t.sigterm ≤ s.sigterm) (hB : t.doneB = s.doneB) (hF : t.doneF = s.doneF)
    (h1 : e = Ev.sigtermReceived → 0 < s.sigterm)
    (h2 : e = Ev.stopClosed → Ev.sigtermReceived ∈ stepsTaken s.pc)
    (h3 : e = Ev.doneBReceived → s.doneB = true)
    (h4 : e = Ev.doneFReceived → s.doneF = true) : Inv t := by
  constructor
  · rw [hlog, hsteps, List.filter_append, h.steps]
    simp [List.filter, he]
  · exact hpc
  · exact hstop
  · intro h0
    rw [hlog]
    exact List.mem_append_left _ (h.sigterm (by omega))
  · intro h0
    rw [hlog]
    rw [hB] at h0
    exact List.mem_append_left _ (h.doneB h0)
  · intro h0
    rw [hlog]
    rw [hF] at h0
    exact List.mem_append_left _ (h.doneF h0)
  · rw [hlog]
    exact Precedes_append _ _ _ _ h.notified (fun h5 => h.sigterm (h1 h5))
  · rw [hlog]
    refine Precedes_append _ _ _ _ h.received (fun h5 => ?_)
    have h6 := h2 h5
    rw [← h.steps] at h6
    exact mem_of_mem_filter_isRp _ _ h6
  · rw [hlog]
    exact Precedes_append _ _ _ _ h.backend (fun h5 => h.doneB (h3 h5))
  · rw [hlog]
    exact Precedes_append _ _ _ _ h.frontend (fun h5 => h.doneF (h4 h5))

theorem Inv_rpStep (s : State) (h : Inv s) : Inv (rpStep s) := by
  unfold rpStep
  cases hpc : s.pc with
  | awaitSigterm =>
    dsimp only
    split
    · rename_i hs
      have hstop := h.stop
      refine Inv_rp s h Ev.sigtermReceived rfl _ rfl ?_ ?_ ?_ ?_ rfl rfl ?_ ?_ ?_ ?_ <;>
        simp_all [stepsTaken]
    · exact h
  | closeStop =>
    dsimp only
    have hst : s.stop = false := by
      have := h.stop
      rw [hpc] at this
      cases hb : s.stop with
      | false => rfl
      | true => simp [stepsTaken, hb] at this
    rw [hst]
    simp only [Bool.false_eq_true, if_false]
    refine Inv_rp s h Ev.stopClosed rfl _ rfl ?_ ?_ ?_ ?_ rfl rfl ?_ ?_ ?_ ?_ <;>
      simp_all [stepsTaken]
  | awaitDoneB =>
    dsimp only
    split
    · rename_i hs
      have hstop := h.stop
      refine Inv_rp s h Ev.doneBReceived rfl _ rfl ?_ ?_ ?_ ?_ rfl rfl ?_ ?_ ?_ ?_ <;>
        simp_all [stepsTaken]
    · exact h
  | awaitDoneF =>
    dsimp only
    split
    · rename_i hs
      have hstop := h.stop
      refine Inv_rp s h Ev.doneFReceived rfl _ rfl ?_ ?_ ?_ ?_ rfl rfl ?_ ?_ ?_ ?_ <;>
        simp_all [stepsTaken]
    · exact h
  | returnNil =>
    dsimp only
    have hstop := h.stop
    refine Inv_rp s h Ev.rpReturned rfl _ rfl ?_ ?_ ?_ ?_ rfl rfl ?_ ?_ ?_ ?_ <;>
      simp_all [stepsTaken]
  | returned => exact h
  | panicked => exact h

theorem Inv_step (s : State) (h : Inv s) (a : Action) : Inv (step s a) := by
  cases a with
  | notifySigterm =>
    refine Inv_env s h Ev.sigtermNotified rfl _ rfl rfl rfl ?_ ?_ ?_
    · intro _; exact Or.inr rfl
    · intro h0; exact Or.inl h0
    · intro h0; exact Or.inl h0
  | backendFires =>
    refine Inv_env s h Ev.backendDone rfl _ rfl rfl rfl ?_ ?_ ?_
    · intro h0; exact Or.inl h0
    · intro _; exact Or.inr rfl
    · intro h0; exact Or.inl h0
  | frontendFires =>
    refine Inv_env s h Ev.frontendDone rfl _ rfl rfl rfl ?_ ?_ ?_
    · intro h0; exact Or.inl h0
    · intro h0; exact Or.inl h0
    · intro _; exact Or.inr rfl
  | rpStep => exact Inv_rpStep s h

theorem Inv_run (sched : List Action) : ∀ s, Inv s → Inv (run sched s) := by
  induction sched with
  | nil => intro s h; exact h
  | cons a rest ih =>
    intro s h
    exact ih (step s a) (Inv_step s h a)

theorem mem_of_Precedes (a b : Ev) (log : List Ev) (h : Precedes a b log)
    (hb : b ∈ log) : a ∈ log := by
  obtain ⟨pre, post, hlog⟩ := List.append_of_mem hb
  rw [hlog]
  exact List.mem_append_left _ (h pre post hlog)

theorem beforeReturn_mem_of_returnNil (s : State) (h : Inv s) (hpc : s.pc = Pc.returnNil) :
    ∀ x ∈ beforeReturn, x ∈ s.log := by
  have hsteps := h.steps
  rw [hpc] at hsteps
  have hrp : ∀ e ∈ stepsTaken Pc.returnNil, e ∈ s.log := by
    intro e he
    rw [← hsteps] at he
    exact mem_of_mem_filter_isRp e s.log he
  have h1 : Ev.sigtermReceived ∈ s.log := hrp _ (by simp [stepsTaken])
  have h2 : Ev.stopClosed ∈ s.log := hrp _ (by simp [stepsTaken])
  have h3 : Ev.doneBReceived ∈ s.log := hrp _ (by simp [stepsTaken])
  have h4 : Ev.doneFReceived ∈ s.log := hrp _ (by simp [stepsTaken])
  have h5 := mem_of_Precedes _ _ _ h.notified h1
  have h6 := mem_of_Precedes _ _ _ h.backend h3
  have h7 := mem_of_Precedes _ _ _ h.frontend h4
  intro x hx
  simp only [beforeReturn, List.mem_cons, List.mem_singleton, List.not_mem_nil,
    or_false] at hx
  rcases hx with rfl | rfl | rfl | rfl | rfl | rfl | rfl <;> assumption

theorem returned_after_step (s : State) (h : Inv s)
    (hp : ∀ x ∈ beforeReturn, Precedes x Ev.rpReturned s.log) (a : Action) :
    ∀ x ∈ beforeReturn, Precedes x Ev.rpReturned (step s a).log := by
  intro x hx
  cases a with
  | notifySigterm => exact Precedes_append_of_ne _ _ _ _ (hp x hx) (by decide)
  | backendFires => exact Precedes_append_of_ne _ _ _ _ (hp x hx) (by decide)
  | frontendFires => exact Precedes_append_of_ne _ _ _ _ (hp x hx) (by decide)
  | rpStep =>
    show Precedes x Ev.rpReturned (rpStep s).log
    unfold rpStep
    cases hpc : s.pc with
    | awaitSigterm =>
      dsimp only
      split
      · exact Precedes_append_of_ne _ _ _ _ (hp x hx) (by decide)
      · exact hp x hx
    | closeStop =>
      dsimp only
      split
      · exact hp x hx
      · exact Precedes_append_of_ne _ _ _ _ (hp x hx) (by decide)
    | awaitDoneB =>
      dsimp only
      split
      · exact Precedes_append_of_ne _ _ _ _ (hp x hx) (by decide)
      · exact hp x hx
    | awaitDoneF =>
      dsimp only
      split
      · exact Precedes_append_of_ne _ _ _ _ (hp x hx) (by decide)
      · exact hp x hx
    | returnNil =>
      exact Precedes_append _ _ _ _ (hp x hx)
        (fun _ => beforeReturn_mem_of_returnNil s h hpc x hx)
    | returned => exact hp x hx
    | panicked => exact hp x hx

theorem returned_after_run (sched : List Action) :
    ∀ s, Inv s → (∀ x ∈ beforeReturn, Precedes x Ev.rpReturned s.log) →
      ∀ x ∈ beforeReturn, Precedes x Ev.rpReturned (run sched s).log := by
  induction sched with
  | nil => intro s _ hp; exact hp
  | cons a rest ih =>
    intro s h hp
    exact ih (step s a) (Inv_step s h a) (returned_after_step s h hp a)

theorem returned_iff_mem (s : State) (h : Inv s) :
    s.pc = Pc.returned ↔ Ev.rpReturned ∈ s.log := by
  have hsteps := h.steps
  constructor
  · intro hpc
    rw [hpc] at hsteps
    exact mem_of_mem_filter_isRp _ _ (by rw [hsteps]; simp [stepsTaken])
  · intro hmem
    have h1 : Ev.rpReturned ∈ stepsTaken s.pc := by
      rw [← hsteps]
      exact List.mem_filter.mpr ⟨hmem, rfl⟩
    cases hpc : s.pc <;> simp [hpc, stepsTaken] at h1 ⊢

/-- C16: in every run from the point where both loops have been started, `rp` has
returned exactly when its return is in the log, and whatever comes before that return in
the log includes the arrival and the receipt of the termination signal, the close of
`stop`, the firing of the backend's completion signal and its receipt, and the firing of
the frontend's completion signal and its receipt: `rp` never returns with only one of
the two completion signals fired. -/
theorem rp_returns_only_after_drain (sched : List Action) (pre post : List Ev)
    (hlog : (run sched init).log = pre ++ Ev.rpReturned :: post) :
    (run sched init).pc = Pc.returned ∧
      Ev.sigtermNotified ∈ pre ∧ Ev.sigtermReceived ∈ pre ∧ Ev.stopClosed ∈ pre ∧
      Ev.backendDone ∈ pre ∧ Ev.doneBReceived ∈ pre ∧
      Ev.frontendDone ∈ pre ∧ Ev.doneFReceived ∈ pre := by
  have hinv := Inv_run sched init Inv_init
  have hp := returned_after_run sched init Inv_init
    (fun x _ => by simp [init, Precedes_nil])
  have hmem : Ev.rpReturned ∈ (run sched init).log := by
    rw [hlog]
    simp
  refine ⟨(returned_iff_mem _ hinv).mpr hmem, ?_, ?_, ?_, ?_, ?_, ?_, ?_⟩ <;>
    exact hp _ (by simp [beforeReturn]) pre post hlog

/-- C16, witness: a complete shutdown in which the frontend drains before the
backend. -/
theorem rp_returns_only_after_drain_witness :
    (run shutdownSchedule init).pc = Pc.returned ∧
      Ev.sigtermNotified ∈
        [Ev.sigtermNotified, Ev.sigtermReceived, Ev.stopClosed, Ev.frontendDone,
          Ev.backendDone, Ev.doneBReceived, Ev.doneFReceived] ∧
      Ev.sigtermReceived ∈
        [Ev.sigtermNotified, Ev.sigtermReceived, Ev.stopClosed, Ev.frontendDone,
          Ev.backendDone, Ev.doneBReceived, Ev.doneFReceived] ∧
      Ev.stopClosed ∈
        [Ev.sigtermNotified, Ev.sigtermReceived, Ev.stopClosed, Ev.frontendDone,
          Ev.backendDone, Ev.doneBReceived, Ev.doneFReceived] ∧
      Ev.backendDone ∈
        [Ev.sigtermNotified, Ev.sigtermReceived, Ev.stopClosed, Ev.frontendDone,
          Ev.backendDone, Ev.doneBReceived, Ev.doneFReceived] ∧
      Ev.doneBReceived ∈
        [Ev.sigtermNotified, Ev.sigtermReceived, Ev.stopClosed, Ev.frontendDone,
          Ev.backendDone, Ev.doneBReceived, Ev.doneFReceived] ∧
      Ev.frontendDone ∈
        [Ev.sigtermNotified, Ev.sigtermReceived, Ev.stopClosed, Ev.frontendDone,
          Ev.backendDone, Ev.doneBReceived, Ev.doneFReceived] ∧
      Ev.doneFReceived ∈
        [Ev.sigtermNotified, Ev.sigtermReceived, Ev.stopClosed, Ev.frontendDone,
          Ev.backendDone, Ev.doneBReceived, Ev.doneFReceived] :=
  rp_returns_only_after_drain shutdownSchedule
    [Ev.sigtermNotified, Ev.sigtermReceived, Ev.stopClosed, Ev.frontendDone,
      Ev.backendDone, Ev.doneBReceived, Ev.doneFReceived] [] (by decide)

theorem count_stopClosed (s : State) (h : Inv s) :
    s.log.count Ev.stopClosed = (stepsTaken s.pc).count Ev.stopClosed := by
  rw [← h.steps]
  exact (List.count_filter (by rfl)).symm

theorem count_stopClosed_le_one (pc : Pc) : (stepsTaken pc).count Ev.stopClosed ≤ 1 := by
  cases pc <;> decide

theorem count_stopClosed_of_mem (pc : Pc) (h : Ev.stopClosed ∈ stepsTaken pc) :
    (stepsTaken pc).count Ev.stopClosed = 1 := by
  cases pc <;> first | (simp [stepsTaken] at h; done) | decide

theorem run_append (l1 l2 : List Action) (s : State) :
    run (l1 ++ l2) s = run l2 (run l1 s) := by
  simp [run, List.foldl_append]

theorem rpStep_of_awaitSigterm (s : State) (hpc : s.pc = Pc.awaitSigterm)
    (hsig : 0 < s.sigterm) : (rpStep s).pc = Pc.closeStop := by
  unfold rpStep
  rw [hpc]
  dsimp only
  rw [if_pos hsig]

theorem rpStep_of_closeStop (s : State) (h : Inv s) (hpc : s.pc = Pc.closeStop) :
    (rpStep s).pc = Pc.awaitDoneB := by
  have hst : s.stop = false := by
    have := h.stop
    rw [hpc] at this
    cases hb : s.stop with
    | false => rfl
    | true => simp [stepsTaken, hb] at this
  unfold rpStep
  rw [hpc]
  dsimp only
  rw [hst]
  rfl

theorem stopClosed_mem_rpStep (s : State) (h : Ev.stopClosed ∈ stepsTaken s.pc) :
    Ev.stopClosed ∈ stepsTaken (rpStep s).pc := by
  unfold rpStep
  cases hpc : s.pc with
  | awaitSigterm => rw [hpc] at h; simp [stepsTaken] at h
  | closeStop => rw [hpc] at h; simp [stepsTaken] at h
  | awaitDoneB =>
    dsimp only
    split
    · simp [stepsTaken]
    · rw [hpc]; simp [stepsTaken]
  | awaitDoneF =>
    dsimp only
    split
    · simp [stepsTaken]
    · rw [hpc]; simp [stepsTaken]
  | returnNil => simp [stepsTaken]
  | returned => rw [hpc]; simp [stepsTaken]
  | panicked => rw [hpc] at h; simp [stepsTaken] at h

theorem stopClosed_after_sigterm (s : State) (h : Inv s) :
    Ev.stopClosed ∈
      stepsTaken (run [Action.notifySigterm, Action.rpStep, Action.rpStep] s).pc := by
  have h1 : Inv (step s Action.notifySigterm) := Inv_step s h _
  have hpc1 : (step s Action.notifySigterm).pc = s.pc := rfl
  have hsig1 : 0 < (step s Action.notifySigterm).sigterm := by
    show 0 < (if s.sigterm < 1 then 1 else s.sigterm)
    split <;> omega
  have h2 : Inv (rpStep (step s Action.notifySigterm)) := Inv_rpStep _ h1
  show Ev.stopClosed ∈ stepsTaken (rpStep (rpStep (step s Action.notifySigterm))).pc
  cases hpc : s.pc with
  | awaitSigterm =>
    have h3 := rpStep_of_awaitSigterm _ (hpc1.trans hpc) hsig1
    rw [rpStep_of_closeStop _ h2 h3]
    simp [stepsTaken]
  | closeStop =>
    apply stopClosed_mem_rpStep
    rw [rpStep_of_closeStop _ h1 (hpc1.trans hpc)]
    simp [stepsTaken]
  | awaitDoneB =>
    apply stopClosed_mem_rpStep
    apply stopClosed_mem_rpStep
    rw [hpc1, hpc]
    simp [stepsTaken]
  | awaitDoneF =>
    apply stopClosed_mem_rpStep
    apply stopClosed_mem_rpStep
    rw [hpc1, hpc]
    simp [stepsTaken]
  | returnNil =>
    apply stopClosed_mem_rpStep
    apply stopClosed_mem_rpStep
    rw [hpc1, hpc]
    simp [stepsTaken]
  | returned =>
    apply stopClosed_mem_rpStep
    apply stopClosed_mem_rpStep
    rw [hpc1, hpc]
    simp [stepsTaken]
  | panicked => exact absurd hpc h.notPanicked

theorem rpStep_log_count_env (s : State) (e : Ev) (he : e.isRp = false) :
    (rpStep s).log.count e = s.log.count e := by
  have hne1 : Ev.sigtermReceived ≠ e := by intro h; rw [← h] at he; cases he
  have hne2 : Ev.stopClosed ≠ e := by intro h; rw [← h] at he; cases he
  have hne3 : Ev.doneBReceived ≠ e := by intro h; rw [← h] at he; cases he
  have hne4 : Ev.doneFReceived ≠ e := by intro h; rw [← h] at he; cases he
  have hne5 : Ev.rpReturned ≠ e := by intro h; rw [← h] at he; cases he
  unfold rpStep
  cases s.pc <;> dsimp only <;> (try split) <;>
    simp [List.count_append, List.count_cons, hne1, hne2, hne3, hne4, hne5]

theorem run_count_backendDone (sched : List Action) :
    ∀ s, (run sched s).log.count Ev.backendDone =
      s.log.count Ev.backendDone + sched.count Action.backendFires := by
  induction sched with
  | nil => intro s; simp [run]
  | cons a rest ih =>
    intro s
    show (run rest (step s a)).log.count Ev.backendDone = _
    rw [ih (step s a)]
    cases a with
    | rpStep =>
      show (rpStep s).log.count Ev.backendDone + _ = _
      rw [rpStep_log_count_env s Ev.backendDone rfl]
      simp [List.count_cons]
    | notifySigterm => simp [step, List.count_append, List.count_cons]
    | backendFires => simp [step, List.count_append, List.count_cons]; omega
    | frontendFires => simp [step, List.count_append, List.count_cons]

theorem run_count_frontendDone (sched : List Action) :
    ∀ s, (run sched s).log.count Ev.frontendDone =
      s.log.count Ev.frontendDone + sched.count Action.frontendFires := by
  induction sched with
  | nil => intro s; simp [run]
  | cons a rest ih =>
    intro s
    show (run rest (step s a)).log.count Ev.frontendDone = _
    rw [ih (step s a)]
    cases a with
    | rpStep =>
      show (rpStep s).log.count Ev.frontendDone + _ = _
      rw [rpStep_log_count_env s Ev.frontendDone rfl]
      simp [List.count_cons]
    | notifySigterm => simp [step, List.count_append, List.count_cons]
    | backendFires => simp [step, List.count_append, List.count_cons]
    | frontendFires => simp [step, List.count_append, List.count_cons]; omega

/-- C17: in every run from the point where both loops have been started, whatever the
schedule, `stop` is fired exactly once, on receipt of a termination request: it is
closed at most once; every close of `stop` comes after `rp` received the termination
signal, and every such receipt after the signal reached the process; it is closed
exactly once in every run in which `rp` returns, and exactly once as soon as a
termination signal has arrived and `rp` has taken two more steps; and the completion
signals in the log are exactly those the loops fired, a step of `rp` leaving both
channels as they are. -/
theorem stop_closed_once_after_sigterm (sched : List Action) :
    (run sched init).log.count Ev.stopClosed ≤ 1 ∧
      Precedes Ev.sigtermReceived Ev.stopClosed (run sched init).log ∧
      Precedes Ev.sigtermNotified Ev.sigtermReceived (run sched init).log ∧
      ((run sched init).pc = Pc.returned → (run sched init).log.count Ev.stopClosed = 1) ∧
      (run (sched ++ [Action.notifySigterm, Action.rpStep, Action.rpStep]) init).log.count
        Ev.stopClosed = 1 ∧
      (run sched init).log.count Ev.backendDone = sched.count Action.backendFires ∧
      (run sched init).log.count Ev.frontendDone = sched.count Action.frontendFires ∧
      (∀ s : State, (rpStep s).doneB = s.doneB ∧ (rpStep s).doneF = s.doneF) := by
  have hinv := Inv_run sched init Inv_init
  refine ⟨?_, hinv.received, hinv.notified, ?_, ?_, ?_, ?_, ?_⟩
  · rw [count_stopClosed _ hinv]
    exact count_stopClosed_le_one _
  · intro hpc
    rw [count_stopClosed _ hinv, hpc]
    decide
  · rw [run_append]
    have hinv2 := Inv_run [Action.notifySigterm, Action.rpStep, Action.rpStep] _ hinv
    rw [count_stopClosed _ hinv2]
    exact count_stopClosed_of_mem _ (stopClosed_after_sigterm _ hinv)
  · rw [run_count_backendDone]
    simp [init]
  · rw [run_count_frontendDone]
    simp [init]
  · intro s
    unfold rpStep
    cases s.pc <;> dsimp only <;> (try split) <;> exact ⟨rfl, rfl⟩

end Main

namespace Database

/-! ## The portal repository against the operations repository -/

theorem portals_Get_asAsync {σ : Type} (c : PortalDocumentClient σ)
    (toAsync : PortalDocument → AsyncOperationDocument)
    (ofAsync : AsyncOperationDocument → PortalDocument) (lowerTable : Char → Char)
    (id : String) (w : PortalWorld σ) :
    asyncOperations.Get ⟨asAsyncClient toAsync ofAsync c⟩ lowerTable id
        (asAsyncWorld toAsync w) =
      (asAsyncResult toAsync (portals.Get ⟨c⟩ lowerTable id w).1,
        asAsyncWorld toAsync (portals.Get ⟨c⟩ lowerTable id w).2) := by
  unfold asyncOperations.Get portals.Get
  by_cases hid : id = ToLower lowerTable id
  · rw [if_neg (not_not.mpr hid), if_neg (not_not.mpr hid)]
    simp [asAsyncClient, asAsyncWorld, asAsyncEvent]
  · rw [if_pos hid, if_pos hid]
    simp [asAsyncResult]

theorem portals_Create_asAsync {σ : Type} (c : PortalDocumentClient σ)
    (toAsync : PortalDocument → AsyncOperationDocument)
    (ofAsync : AsyncOperationDocument → PortalDocument) (lowerTable : Char → Char)
    (doc : PortalDocument) (w : PortalWorld σ)
    (hback : ∀ d, ofAsync (toAsync d) = d) (hID : ∀ d, (toAsync d).ID = d.ID) :
    asyncOperations.Create ⟨asAsyncClient toAsync ofAsync c⟩ lowerTable (toAsync doc)
        (asAsyncWorld toAsync w) =
      (asAsyncResult toAsync (portals.Create ⟨c⟩ lowerTable doc w).1,
        asAsyncWorld toAsync (portals.Create ⟨c⟩ lowerTable doc w).2) := by
  unfold asyncOperations.Create portals.Create
  rw [hID doc]
  by_cases hid : doc.ID = ToLower lowerTable doc.ID
  · rw [if_neg (not_not.mpr hid), if_neg (not_not.mpr hid)]
    have hc : (asAsyncClient toAsync ofAsync c).Create doc.ID (toAsync doc)
        (asAsyncWorld toAsync w).store =
        (asAsyncResult toAsync (c.Create doc.ID doc w.store).1,
          (c.Create doc.ID doc w.store).2) := by
      simp [asAsyncClient, asAsyncWorld, hback]
    dsimp only
    rw [hc]
    rcases c.Create doc.ID doc w.store with ⟨⟨rd, re⟩, st⟩
    cases re with
    | none => simp [asAsyncResult, asAsyncWorld, asAsyncEvent]
    | some e =>
      cases e with
      | errorf fmt args => simp [asAsyncResult, asAsyncWorld, asAsyncEvent]
      | cosmosdbError sc msg =>
        by_cases hsc : sc = StatusConflict
        · simp [asAsyncResult, asAsyncWorld, asAsyncEvent, hsc]
        · simp [asAsyncResult, asAsyncWorld, asAsyncEvent, hsc]
  · rw [if_pos hid, if_pos hid]
    simp [asAsyncResult]

theorem portals_patchAttempt_asAsync {σ μ : Type} (c : PortalDocumentClient σ)
    (toAsync : PortalDocument → AsyncOperationDocument)
    (ofAsync : AsyncOperationDocument → PortalDocument) (lowerTable : Char → Char)
    (id : String) (f : PortalMutator μ) (s : PortalPatchState σ μ)
    (hback : ∀ d, ofAsync (toAsync d) = d) (hID : ∀ d, (toAsync d).ID = d.ID) :
    asyncOperations.patchAttempt ⟨asAsyncClient toAsync ofAsync c⟩ lowerTable id
        (asAsyncMutator toAsync ofAsync f) (asAsyncState toAsync s) =
      ((portals.patchAttempt ⟨c⟩ lowerTable id f s).1,
        asAsyncState toAsync (portals.patchAttempt ⟨c⟩ lowerTable id f s).2) := by
  unfold asyncOperations.patchAttempt portals.patchAttempt
  have hg := portals_Get_asAsync c toAsync ofAsync lowerTable id s.world
  have hw : (asAsyncState toAsync s).world = asAsyncWorld toAsync s.world := rfl
  have hcap : (asAsyncState toAsync s).captured = s.captured := rfl
  rw [hw, hcap, hg]
  rcases portals.Get ⟨c⟩ lowerTable id s.world with ⟨⟨rd, re⟩, w1⟩
  cases re with
  | some e => simp [asAsyncResult, asAsyncState]
  | none =>
    cases rd with
    | none =>
      cases hm : (f.runNil s.captured).1 with
      | some e =>
        simp [asAsyncResult, asAsyncState, asAsyncMutator, asAsyncWorld, asAsyncEvent, hm]
      | none =>
        simp [asAsyncResult, asAsyncState, asAsyncMutator, asAsyncWorld, asAsyncEvent, hm]
    | some d =>
      cases hm : (f.run d s.captured).1.2 with
      | some e =>
        simp [asAsyncResult, asAsyncState, asAsyncMutator, asAsyncWorld, asAsyncEvent, hm,
          hback]
      | none =>
        simp [asAsyncResult, asAsyncState, asAsyncMutator, asAsyncWorld, asAsyncEvent, hm,
          hback, hID, asAsyncClient]

theorem RetryOnPreconditionFailed_carried {S T : Type}
    (F : S → Outcome (Option GoError) × S) (G : T → Outcome (Option GoError) × T)
    (carry : S → T) (h : ∀ s, G (carry s) = ((F s).1, carry (F s).2)) (fuel : Nat) :
    ∀ s, RetryOnPreconditionFailed G fuel (carry s) =
      ((RetryOnPreconditionFailed F fuel s).1, carry (RetryOnPreconditionFailed F fuel s).2) := by
  induction fuel with
  | zero => intro s; rfl
  | succ n ih =>
    intro s
    rw [RetryOnPreconditionFailed_succ, RetryOnPreconditionFailed_succ, h s]
    rcases F s with ⟨o, s1⟩
    cases o with
    | returned err =>
      dsimp only
      split
      · exact ih s1
      · rfl
    | panicked => rfl
    | running => rfl

/-- C19: the portal repository has the shape of the operations repository.  Write
portal documents as operation documents in any way that can be read back and keeps the
ID.  Then for every portal client, document, id, mutator, world and fuel,
`asyncOperations.Create`, `Get` and `Patch` over the client and the mutator so carried
over return what `portals.Create`, `Get` and `Patch` return, carried over, and leave the
same store state and, event by event, the same log of store calls and mutator
invocations: the same validation failure, the same remap of Conflict and the same
retries. -/
theorem portals_same_shape {σ μ : Type} (c : PortalDocumentClient σ)
    (toAsync : PortalDocument → AsyncOperationDocument)
    (ofAsync : AsyncOperationDocument → PortalDocument) (lowerTable : Char → Char)
    (fuel : Nat) (id : String) (doc : PortalDocument) (f : PortalMutator μ)
    (w : PortalWorld σ) (m : μ)
    (hback : ∀ d, ofAsync (toAsync d) = d) (hID : ∀ d, (toAsync d).ID = d.ID) :
    asyncOperations.Create ⟨asAsyncClient toAsync ofAsync c⟩ lowerTable (toAsync doc)
        (asAsyncWorld toAsync w) =
      (asAsyncResult toAsync (portals.Create ⟨c⟩ lowerTable doc w).1,
        asAsyncWorld toAsync (portals.Create ⟨c⟩ lowerTable doc w).2) ∧
    asyncOperations.Get ⟨asAsyncClient toAsync ofAsync c⟩ lowerTable id
        (asAsyncWorld toAsync w) =
      (asAsyncResult toAsync (portals.Get ⟨c⟩ lowerTable id w).1,
        asAsyncWorld toAsync (portals.Get ⟨c⟩ lowerTable id w).2) ∧
    asyncOperations.Patch ⟨asAsyncClient toAsync ofAsync c⟩ lowerTable fuel id
        (asAsyncMutator toAsync ofAsync f) (asAsyncWorld toAsync w) m =
      (asAsyncOutcome toAsync (portals.Patch ⟨c⟩ lowerTable fuel id f w m).1,
        asAsyncWorld toAsync (portals.Patch ⟨c⟩ lowerTable fuel id f w m).2.1,
        (portals.Patch ⟨c⟩ lowerTable fuel id f w m).2.2) := by
  refine ⟨portals_Create_asAsync c toAsync ofAsync lowerTable doc w hback hID,
    portals_Get_asAsync c toAsync ofAsync lowerTable id w, ?_⟩
  have hloop := RetryOnPreconditionFailed_carried
    (portals.patchAttempt ⟨c⟩ lowerTable id f)
    (asyncOperations.patchAttempt ⟨asAsyncClient toAsync ofAsync c⟩ lowerTable id
      (asAsyncMutator toAsync ofAsync f))
    (asAsyncState toAsync)
    (fun s => portals_patchAttempt_asAsync c toAsync ofAsync lowerTable id f s hback hID)
    fuel ⟨none, w, m⟩
  have hinit : asAsyncState toAsync (⟨none, w, m⟩ : PortalPatchState σ μ) =
      ⟨none, asAsyncWorld toAsync w, m⟩ := rfl
  rw [hinit] at hloop
  unfold asyncOperations.Patch portals.Patch
  dsimp only
  rw [hloop]
  rcases RetryOnPreconditionFailed (portals.patchAttempt ⟨c⟩ lowerTable id f) fuel
    ⟨none, w, m⟩ with ⟨o, s1⟩
  cases o <;> simp [asAsyncOutcome, asAsyncResult, asAsyncState]

/-- C19, witness: a session document is renewed through the portal repository and, read
as an operation document, through the operations repository. -/
theorem portals_same_shape_witness :
    asyncOperations.Patch ⟨asAsyncClient sessionAsOperation operationAsSession sessionClient⟩
        id 2 "session-1" (asAsyncMutator sessionAsOperation operationAsSession renewSession)
        (asAsyncWorld sessionAsOperation ⟨some session1, []⟩) () =
      (asAsyncOutcome sessionAsOperation
          (portals.Patch ⟨sessionClient⟩ id 2 "session-1" renewSession
            ⟨some session1, []⟩ ()).1,
        asAsyncWorld sessionAsOperation
          (portals.Patch ⟨sessionClient⟩ id 2 "session-1" renewSession
            ⟨some session1, []⟩ ()).2.1,
        (portals.Patch ⟨sessionClient⟩ id 2 "session-1" renewSession
          ⟨some session1, []⟩ ()).2.2) :=
  (portals_same_shape sessionClient sessionAsOperation operationAsSession id 2 "session-1"
    session1 renewSession ⟨some session1, []⟩ () (fun _ => rfl) (fun _ => rfl)).2.2

end Database

namespace Database

/-! ## `Patch` with an id that is not canonical -/

/-- C25: for every id that differs from its lower-cased form and every mutator, `Patch`
returns no document and the "is not lower case" validation error of the repository's own
`Get`, however much fuel the loop has, and leaves the world and the captured state of
the mutator as they were: no store get, no replace and no invocation of the mutator is
recorded. -/
theorem Patch_not_canonical_rejected {σ μ : Type} (a : asyncOperations σ)
    (lowerTable : Char → Char) (fuel : Nat) (id : String) (f : Mutator μ) (w : World σ)
    (m : μ) (hid : id ≠ ToLower lowerTable id) :
    a.Patch lowerTable (fuel + 1) id f w m =
      (Outcome.returned (none, some (notLowerCase id)), w, m) := by
  unfold asyncOperations.Patch RetryOnPreconditionFailed
  rw [patchAttempt_of_not_canonical a lowerTable id f ⟨none, w, m⟩ hid]
  simp [IsErrorStatusCode, notLowerCase]

/-- C25, witness: `OP-1` is patched although `op-1` is stored. -/
theorem Patch_not_canonical_rejected_witness :
    memRepo.Patch id 3 "OP-1" (setStatus OperationStatus.Succeeded) world1 () =
      (Outcome.returned (none, some (notLowerCase "OP-1")), world1, ()) :=
  Patch_not_canonical_rejected memRepo id 2 "OP-1" (setStatus OperationStatus.Succeeded)
    world1 () (by decide)

end Database

namespace Main

/-! ## The start-up check of `rp` -/

theorem checkKeys_eq_none_iff (lookupEnv : String → Option String) (keys : List String) :
    checkKeys lookupEnv keys = none ↔ ∀ k ∈ keys, (lookupEnv k).isSome = true := by
  induction keys with
  | nil => simp [checkKeys]
  | cons key rest ih =>
    unfold checkKeys
    cases h : lookupEnv key with
    | none => simp [h]
    | some v => simp [h, ih]

theorem checkKeys_first_absent (lookupEnv : String → Option String)
    (pre : List String) (key : String) (post : List String)
    (hpre : ∀ k ∈ pre, (lookupEnv k).isSome = true) (hkey : lookupEnv key = none) :
    checkKeys lookupEnv (pre ++ key :: post) =
      some (Database.GoError.errorf "environment variable %q unset" [key]) := by
  induction pre with
  | nil => simp [checkKeys, hkey]
  | cons k rest ih =>
    have hk : (lookupEnv k).isSome = true := hpre k (by simp)
    obtain ⟨v, hv⟩ := Option.isSome_iff_exists.mp hk
    simp only [List.cons_append, checkKeys, hv]
    exact ih (fun x hx => hpre x (List.mem_cons_of_mem _ hx))

/-- C27: with the environment seen as a map from keys to values, the start-up check of
`rp` behaves as follows.  Outside local-development mode it fails with
`environment variable "PULL_SECRET" set` whenever PULL_SECRET is present; otherwise it
fails with `environment variable %q unset` for the first absent key in the order
ACR_RESOURCE_ID, ADMIN_API_CLIENT_CERT_COMMON_NAME, MDM_ACCOUNT, MDM_NAMESPACE; it
passes exactly when PULL_SECRET is absent and all four are present, with any value.  In
local-development mode it passes exactly when PULL_SECRET is present, and fails naming
PULL_SECRET otherwise. -/
theorem checkEnvironment_spec (lookupEnv : String → Option String) :
    ((lookupEnv "PULL_SECRET").isSome = true →
      checkEnvironment false lookupEnv =
        some (Database.GoError.errorf "environment variable \"PULL_SECRET\" set" [])) ∧
    (lookupEnv "PULL_SECRET" = none →
      ∀ pre key post, productionKeys = pre ++ key :: post →
        (∀ k ∈ pre, (lookupEnv k).isSome = true) → lookupEnv key = none →
        checkEnvironment false lookupEnv =
          some (Database.GoError.errorf "environment variable %q unset" [key])) ∧
    (checkEnvironment false lookupEnv = none ↔
      lookupEnv "PULL_SECRET" = none ∧
        (lookupEnv "ACR_RESOURCE_ID").isSome = true ∧
        (lookupEnv "ADMIN_API_CLIENT_CERT_COMMON_NAME").isSome = true ∧
        (lookupEnv "MDM_ACCOUNT").isSome = true ∧
        (lookupEnv "MDM_NAMESPACE").isSome = true) ∧
    (checkEnvironment true lookupEnv = none ↔ (lookupEnv "PULL_SECRET").isSome = true) ∧
    (lookupEnv "PULL_SECRET" = none →
      checkEnvironment true lookupEnv =
        some (Database.GoError.errorf "environment variable %q unset" ["PULL_SECRET"])) := by
  refine ⟨?_, ?_, ?_, ?_, ?_⟩
  · intro h
    obtain ⟨v, hv⟩ := Option.isSome_iff_exists.mp h
    simp [checkEnvironment, hv]
  · intro h pre key post hkeys hpre hkey
    simp only [checkEnvironment, Bool.false_eq_true, if_false, h]
    rw [hkeys]
    exact checkKeys_first_absent lookupEnv pre key post hpre hkey
  · cases h : lookupEnv "PULL_SECRET" with
    | some v => simp [checkEnvironment, h]
    | none =>
      simp only [checkEnvironment, Bool.false_eq_true, if_false, h, true_and]
      rw [checkKeys_eq_none_iff]
      simp [productionKeys]
  · simp only [checkEnvironment, if_true]
    rw [checkKeys_eq_none_iff]
    simp [developmentKeys]
  · intro h
    simp [checkEnvironment, developmentKeys, checkKeys, h]

end Main

namespace Generator

/-! ## Claims on the generated resources -/

/-- C23: for every database name, both values of `addDependsOn` and both modes, exactly
one of the resources `database` generates is the container `AsyncOperations`, and its
default time-to-live is 604800 seconds.  That is `7 * 86400`, seven days of
`24 * 60 * 60` seconds, and it lies within the range of `int32`, so the conversion to
`int32` leaves it as it is. -/
theorem database_AsyncOperations_DefaultTTL (apiVersion : String → String)
    (production : Bool) (databaseName : String) (addDependsOn : Bool) :
    ((database apiVersion production databaseName addDependsOn).filter
        (fun x => x.containerID = some "AsyncOperations")).map Resource.DefaultTTL =
        [some 604800] ∧
      (604800 : Int) = 7 * 86400 ∧ (86400 : Int) = 24 * 60 * 60 ∧
      -(2 : Int) ^ 31 ≤ 7 * 86400 ∧ (7 * 86400 : Int) < 2 ^ 31 ∧
      int32 (7 * 86400) = 7 * 86400 := by
  have hwrap : int32 (7 * 86400) = 7 * 86400 := by
    simp [int32]
  refine ⟨?_, by norm_num, by norm_num, by norm_num, by norm_num, hwrap⟩
  cases addDependsOn <;>
    simp [database, Resource.containerID, List.filter, Resource.DefaultTTL, Int32Ptr, int32]

/-- C24: in production `rpSecurityGroup` builds the two rules `rp_in_arm` (port 443,
source AzureResourceManager, priority 120) and `rp_in_geneva` (port 443, priority 130, no
source prefix and an empty list of source prefixes); both allow inbound traffic, none is
for port 22 and none has the source `*`.  In development it builds `rp_in_arm` with the
source `*` and `ssh_in` (port 22, source `*`, priority 125), both allowing inbound
traffic.  In each mode there are exactly two rules and their priorities differ. -/
theorem rpSecurityGroupRules_spec :
    (rpSecurityGroupRules true).map
        (fun r => (r.Name, r.DestinationPortRange, r.SourceAddressPrefix,
          r.SourceAddressPrefixes, r.Priority)) =
      [(some "rp_in_arm", some "443", some "AzureResourceManager", none, some 120),
        (some "rp_in_geneva", some "443", none, some [], some 130)] ∧
    (∀ r ∈ rpSecurityGroupRules true,
      r.Access = SecurityRuleAccess.Allow ∧ r.Direction = SecurityRuleDirection.Inbound ∧
        r.DestinationPortRange ≠ some "22" ∧ r.SourceAddressPrefix ≠ some "*") ∧
    (rpSecurityGroupRules false).map
        (fun r => (r.Name, r.DestinationPortRange, r.SourceAddressPrefix,
          r.SourceAddressPrefixes, r.Priority)) =
      [(some "rp_in_arm", some "443", some "*", none, some 120),
        (some "ssh_in", some "22", some "*", none, some 125)] ∧
    (∀ r ∈ rpSecurityGroupRules false,
      r.Access = SecurityRuleAccess.Allow ∧ r.Direction = SecurityRuleDirection.Inbound) ∧
    (∀ production, (rpSecurityGroupRules production).length = 2 ∧
      ((rpSecurityGroupRules production).map (fun r => r.Priority)).Nodup) := by
  refine ⟨rfl, by decide, rfl, by decide, ?_⟩
  intro production
  cases production <;> exact ⟨by decide, by decide⟩

end Generator

namespace Deploy

/-! ## Claims on `validate` and `GetConfig` -/

theorem missingFieldsLoop_eq (c : Configuration) (l : List (Fin NumField)) :
    ∀ acc, missingFieldsLoop c l acc =
      acc ++ (l.filter (fun i => (typeField i).required && (c i).IsZero)).map
        (fun i => (typeField i).Name) := by
  induction l with
  | nil => intro acc; simp [missingFieldsLoop]
  | cons i rest ih =>
    intro acc
    unfold missingFieldsLoop
    cases h : ((typeField i).required && (c i).IsZero) with
    | true => simp [h, ih, List.filter]
    | false => simp [h, ih, List.filter]

theorem validate_eq (loc sub rg : String) (c : Configuration) :
    RPConfig.validate ⟨loc, sub, rg, some c⟩ =
      if zeroRequiredFields c = [] then Database.Outcome.returned none
      else
        Database.Outcome.returned
          (some (Database.GoError.errorf "configuration has missing fields: %s"
            [String.intercalate "," (zeroRequiredFields c)])) := by
  simp only [RPConfig.validate, missingFieldsLoop_eq, List.nil_append, List.length_eq_zero]
  rfl

theorem zeroRequiredFields_eq_nil_iff (c : Configuration) :
    zeroRequiredFields c = [] ↔
      ∀ i, (typeField i).required = true → (c i).IsZero = false := by
  simp only [zeroRequiredFields, List.map_eq_nil_iff, List.filter_eq_nil_iff,
    List.mem_finRange, true_implies, Bool.and_eq_true, not_and, Bool.not_eq_true]

theorem validate_eq_none_iff (loc sub rg : String) (c : Configuration) :
    RPConfig.validate ⟨loc, sub, rg, some c⟩ = Database.Outcome.returned none ↔
      ∀ i, (typeField i).required = true → (c i).IsZero = false := by
  rw [validate_eq, ← zeroRequiredFields_eq_nil_iff]
  by_cases h : zeroRequiredFields c = []
  · simp [h]
  · simp [h]

/-- C21: for every RPConfig with a non-nil Configuration, `validate` returns (it does not
panic); it returns nil exactly when every field tagged `value:"required"` is non-zero;
otherwise it returns the error "configuration has missing fields: %s" whose argument is
the Go names of the zero required fields, in declaration order, joined by commas.  A
field without the tag has no influence: two Configurations that agree on the required
fields validate alike. -/
theorem validate_spec (loc sub rg : String) (c : Configuration) :
    (RPConfig.validate ⟨loc, sub, rg, some c⟩ = Database.Outcome.returned none ↔
      ∀ i, (typeField i).required = true → (c i).IsZero = false) ∧
    (RPConfig.validate ⟨loc, sub, rg, some c⟩ ≠ Database.Outcome.returned none →
      RPConfig.validate ⟨loc, sub, rg, some c⟩ =
        Database.Outcome.returned
          (some (Database.GoError.errorf "configuration has missing fields: %s"
            [String.intercalate ","
              (((List.finRange NumField).filter
                (fun i => (typeField i).required && (c i).IsZero)).map
                  (fun i => (typeField i).Name))]))) ∧
    (∀ i : Fin NumField, ConfigurationType.get? i.val = some (typeField i)) ∧
    (∀ c2 : Configuration, (∀ i, (typeField i).required = true → c2 i = c i) →
      RPConfig.validate ⟨loc, sub, rg, some c2⟩ =
        RPConfig.validate ⟨loc, sub, rg, some c⟩) := by
  refine ⟨validate_eq_none_iff loc sub rg c, ?_, ?_, ?_⟩
  · intro hne
    rw [validate_eq] at hne ⊢
    by_cases h : zeroRequiredFields c = []
    · simp [h] at hne
    · simp only [h, if_false]
      rfl
  · intro i
    have hlt : i.val < ConfigurationType.length := by
      have := i.isLt
      simp [ConfigurationType_length, this]
    simp [typeField, List.getD, List.getElem?_eq_getElem hlt]
  · intro c2 hagree
    have hz : zeroRequiredFields c2 = zeroRequiredFields c := by
      unfold zeroRequiredFields
      congr 1
      apply List.filter_congr
      intro i _
      cases hr : (typeField i).required with
      | false => simp
      | true => simp [hagree i hr]
    rw [validate_eq, validate_eq, hz]

theorem mergeConfig_eq (p s : Configuration) :
    mergeConfig (some p) (some s) =
      Database.Outcome.returned (some (fun i => if (p i).IsZero = true then s i else p i), none) := by
  obtain ⟨q, hq, hqi⟩ := mergeFields_some s (List.finRange NumField)
    (List.nodup_finRange NumField) p
  have hfun : q = fun i => if (p i).IsZero = true then s i else p i := by
    funext i
    rw [hqi i]
    simp
  simp [mergeConfig, hq, hfun]

/-- C28: for all non-nil Configurations `p` and `s`, `mergeConfig(p, s)` returns a
Configuration `merged` with a nil error; an RPConfig holding `merged` validates exactly
when every required field is non-zero in `p` or in `s`; so when `s` alone validates, the
merge validates whatever `p` is; and merging `s` into `merged` once more returns
`merged` again. -/
theorem mergeConfig_validate (loc sub rg : String) (p s : Configuration) :
    ∃ merged : Configuration,
      mergeConfig (some p) (some s) = Database.Outcome.returned (some merged, none) ∧
      (RPConfig.validate ⟨loc, sub, rg, some merged⟩ = Database.Outcome.returned none ↔
        ∀ i, (typeField i).required = true →
          (p i).IsZero = false ∨ (s i).IsZero = false) ∧
      (RPConfig.validate ⟨loc, sub, rg, some s⟩ = Database.Outcome.returned none →
        RPConfig.validate ⟨loc, sub, rg, some merged⟩ = Database.Outcome.returned none) ∧
      mergeConfig (some merged) (some s) = Database.Outcome.returned (some merged, none) := by
  have hzero : ∀ i, (if (p i).IsZero = true then s i else p i).IsZero = false ↔
      ((p i).IsZero = false ∨ (s i).IsZero = false) := by
    intro i
    cases hp : (p i).IsZero <;> simp [hp]
  refine ⟨fun i => if (p i).IsZero = true then s i else p i, mergeConfig_eq p s, ?_, ?_, ?_⟩
  · rw [validate_eq_none_iff]
    constructor
    · intro h i hr
      exact (hzero i).mp (h i hr)
    · intro h i hr
      exact (hzero i).mpr (h i hr)
  · rw [validate_eq_none_iff, validate_eq_none_iff]
    intro h i hr
    exact (hzero i).mpr (Or.inr (h i hr))
  · rw [mergeConfig_eq]
    congr 3
    funext i
    cases hp : (p i).IsZero with
    | false => simp [hp]
    | true =>
      simp only [hp, if_true]
      split <;> rfl

theorem getConfigLoop_no_match (config : Config) (path location : String)
    (l : List RPConfig) (h : ∀ c ∈ l, c.Location ≠ location) :
    getConfigLoop config path location l =
      Database.Outcome.returned
        (none, some (Database.GoError.errorf "location %s not found in %s" [location, path])) := by
  induction l with
  | nil => rfl
  | cons c rest ih =>
    unfold getConfigLoop
    rw [if_neg (h c (by simp))]
    exact ih (fun x hx => h x (List.mem_cons_of_mem _ hx))

theorem getConfigLoop_first_match (config : Config) (path location : String)
    (pre : List RPConfig) (c : RPConfig) (post : List RPConfig)
    (hpre : ∀ x ∈ pre, x.Location ≠ location) (hc : c.Location = location) :
    getConfigLoop config path location (pre ++ c :: post) =
      getConfigLoop config path location [c] := by
  induction pre with
  | nil => simp [getConfigLoop, hc]
  | cons x rest ih =>
    simp only [List.cons_append]
    unfold getConfigLoop
    rw [if_neg (hpre x (by simp))]
    exact ih (fun y hy => hpre y (List.mem_cons_of_mem _ hy))

/-- `GetConfig` on a decoded file whose first entry for the location and whose top level
both have a `configuration` block: the entry is returned with its Configuration
replaced by the merge and its other fields as they are; without an entry for the
location the "not found" error is returned. -/
theorem GetConfig_of_configurations (readFile : String → String × Option Database.GoError)
    (unmarshal : String → Option Config × Option Database.GoError)
    (path location : String) (config : Config)
    (hread : (readFile path).2 = none)
    (hparse : unmarshal (readFile path).1 = (some config, none)) :
    (∀ pre c post p s, config.RPs = pre ++ c :: post →
      (∀ x ∈ pre, x.Location ≠ location) → c.Location = location →
      c.Configuration = some p → config.Configuration = some s →
      GetConfig readFile unmarshal path location =
        Database.Outcome.returned
          (some { c with
            Configuration := some (fun i => if (p i).IsZero = true then s i else p i) },
            none)) ∧
    ((∀ x ∈ config.RPs, x.Location ≠ location) →
      GetConfig readFile unmarshal path location =
        Database.Outcome.returned
          (none,
            some (Database.GoError.errorf "location %s not found in %s" [location, path]))) := by
  constructor
  · intro pre c post p s hrps hpre hc hcp hcs
    simp only [GetConfig, hread, hparse]
    rw [hrps, getConfigLoop_first_match config path location pre c post hpre hc]
    simp [getConfigLoop, hc, hcp, hcs, mergeConfig_eq]
  · intro hno
    simp only [GetConfig, hread, hparse]
    exact getConfigLoop_no_match config path location config.RPs hno

/-- C22, the failing input evaluated: the file decodes to `exampleConfig`, whose entry
for `eastus` has no `configuration` block; asked for `eastus`, `GetConfig` panics inside
`mergeConfig` and returns nothing; so it does on an empty document, which decodes to a
nil `config`. -/
theorem GetConfig_without_configuration_panics :
    GetConfig (fun _ => ("", none)) (fun _ => (some exampleConfig, none)) "config.yaml"
        "eastus" = Database.Outcome.panicked ∧
      GetConfig (fun _ => ("", none)) (fun _ => (none, none)) "config.yaml" "eastus" =
        Database.Outcome.panicked := by
  constructor <;> rfl

end Deploy

namespace Portal

/-! ## The list the handler `clusters` serialises -/

theorem clustersLoop_eq (api : ProvisioningStates) (l : List OpenShiftClusterDocument) :
    ∀ acc, clustersLoop api l acc =
      acc ++ (l.filter (listed api)).map (fun d => d.OpenShiftCluster.ID) := by
  induction l with
  | nil => intro acc; simp [clustersLoop]
  | cons doc rest ih =>
    intro acc
    unfold clustersLoop
    dsimp only
    split
    · rename_i h
      have hl : listed api doc = false := by
        simp only [listed]
        rcases h with h | h | ⟨h1, h2⟩
        · simp [h]
        · simp [h]
        · rcases h2 with h2 | h2 <;> simp [h1, h2]
      simp [List.filter, hl, ih]
    · rename_i h
      have hl : listed api doc = true := by
        simp only [not_or, not_and] at h
        obtain ⟨h1, h2, h3⟩ := h
        simp only [listed, Bool.and_eq_true, decide_eq_true_eq, Bool.not_eq_true',
          Bool.and_eq_false_imp, Bool.or_eq_false_iff, decide_eq_false_iff_not]
        exact ⟨⟨h1, h2⟩, fun hf => h3 hf⟩
      simp [List.filter, hl, ih]

/-- C26: for every list of cluster documents, the handler answers with a list that is a
rearrangement of the IDs of exactly the documents whose provisioning state is neither
Creating, nor Deleting, nor Failed with a failed provisioning state of Creating or
Deleting, every such document counted as often as it occurs, and that list is in
ascending order of strings. -/
theorem clusters_listed_sorted (api : ProvisioningStates)
    (docs : List OpenShiftClusterDocument) :
    ∃ l, clusters api (some docs, none) = Database.Outcome.returned (Response.json l) ∧
      l.Perm ((docs.filter (listed api)).map (fun d => d.OpenShiftCluster.ID)) ∧
      l.Sorted (fun a b => a ≤ b) := by
  refine ⟨sortStrings (clustersLoop api docs []), rfl, ?_, ?_⟩
  · rw [clustersLoop_eq]
    simp only [List.nil_append, sortStrings]
    exact List.perm_insertionSort _ _
  · exact List.sorted_insertionSort _ _

end Portal

namespace Generator

/-! ## Instances of a text in spliced bytes -/

theorem prefix_of_not_mem {pat : Bytes} {c : Char} (hc : c ∉ pat) (w v : Bytes)
    (h : pat <+: w ++ c :: v) : pat <+: w := by
  rcases Nat.lt_or_ge w.length pat.length with hl | hl
  · exfalso
    have h1 : w ++ [c] <+: w ++ c :: v := by
      rw [List.prefix_append_right_inj]
      exact ⟨v, rfl⟩
    have h2 : w ++ [c] <+: pat :=
      List.prefix_of_prefix_length_le h1 h (by simp; omega)
    exact hc (h2.subset (by simp))
  · exact List.prefix_of_prefix_length_le h (List.prefix_append _ _) hl

theorem infix_of_not_mem {pat : Bytes} {c : Char} (hc : c ∉ pat) (u v : Bytes)
    (h : pat <:+: u ++ c :: v) : pat <:+: u ∨ pat <:+: v := by
  induction u with
  | nil =>
    rw [List.nil_append, List.infix_cons_iff] at h
    rcases h with h | h
    · exact Or.inl (prefix_of_not_mem hc [] v h).isInfix
    · exact Or.inr h
  | cons x u ih =>
    rw [List.cons_append, List.infix_cons_iff] at h
    rcases h with h | h
    · exact Or.inl (prefix_of_not_mem hc (x :: u) v h).isInfix
    · rcases ih h with h | h
      · exact Or.inl (List.infix_cons h)
      · exact Or.inr h

theorem guarded_of {pat : Bytes} {a b : Char} (mid : Bytes) (ha : a ∉ pat) (hb : b ∉ pat)
    (hmid : ¬ pat <:+: mid) : Guarded pat (a :: (mid ++ [b])) := by
  intro u v h
  have h1 : pat <:+: u ++ a :: (mid ++ b :: v) := by simpa using h
  rcases infix_of_not_mem ha u _ h1 with h2 | h2
  · exact Or.inl h2
  · rcases infix_of_not_mem hb mid v h2 with h3 | h3
    · exact absurd h3 hmid
    · exact Or.inr h3

theorem not_infix_of_mem {pat l : Bytes} {c : Char} (hc : c ∈ pat) (hl : c ∉ l) :
    ¬ pat <:+: l :=
  fun h => hl (h.subset hc)

theorem Spliced_not_infix {pat r src out : Bytes} (hg : Guarded pat r)
    (hs : Spliced r src out) (hsrc : ¬ pat <:+: src) : ¬ pat <:+: out := by
  induction hs with
  | done src => exact hsrc
  | cons u m rest out _ ih =>
    intro h
    rcases hg u out h with h | h
    · exact hsrc (h.trans ⟨[], m ++ rest, by simp⟩)
    · exact ih (fun h2 => hsrc (h2.trans ⟨u ++ m, [], by simp⟩)) h

theorem Index_none {sep : Bytes} : ∀ s : Bytes, Index sep s = none → ¬ sep <:+: s
  | [], h => by
    unfold Index at h
    split at h
    · cases h
    · intro hi
      exact ‹¬ sep = []› (List.eq_nil_of_infix_nil hi)
  | c :: s, h => by
    unfold Index at h
    split at h
    · cases h
    · rename_i hp
      rw [List.infix_cons_iff]
      rintro (hi | hi)
      · exact hp hi
      · refine Index_none s ?_ hi
        cases hI : Index sep s with
        | none => rfl
        | some j => rw [hI] at h; cases h

theorem Index_some {sep : Bytes} (hsep : sep ≠ []) :
    ∀ (s : Bytes) (j : Nat), Index sep s = some j → ¬ sep <:+: s.take j
  | [], j, h => by
    simp only [List.take_nil]
    exact fun hi => hsep (List.eq_nil_of_infix_nil hi)
  | c :: s, j, h => by
    unfold Index at h
    split at h
    · cases h
      simp only [List.take_zero]
      exact fun hi => hsep (List.eq_nil_of_infix_nil hi)
    · rename_i hp
      cases hI : Index sep s with
      | none => rw [hI] at h; cases h
      | some k =>
        rw [hI] at h
        cases h
        rw [List.take_succ_cons, List.infix_cons_iff]
        rintro (hi | hi)
        · exact hp (hi.trans ((List.prefix_cons_inj c).2 (List.take_prefix k s)))
        · exact Index_some hsep s k hI hi

theorem replaceLoop_Spliced (old new : Bytes) :
    ∀ (fuel : Nat) (n : Int) (s : Bytes), Spliced new s (replaceLoop old new fuel n s)
  | 0, _, s => Spliced.done s
  | fuel + 1, n, s => by
    unfold replaceLoop
    split
    · exact Spliced.done s
    · split
      · exact Spliced.done s
      · rename_i j _
        have hs : s = s.take j ++ (s.drop j).take old.length ++ s.drop (j + old.length) := by
          rw [List.append_assoc, ← List.drop_drop, List.take_append_drop,
            List.take_append_drop]
        conv => lhs; rw [hs]
        exact Spliced.cons _ _ _ _ (replaceLoop_Spliced old new fuel (n - 1) _)

theorem replaceLoop_not_infix {old new : Bytes} (hold : old ≠ []) (hg : Guarded old new) :
    ∀ (fuel : Nat) (n : Int) (s : Bytes), n < 0 → s.length ≤ fuel →
      ¬ old <:+: replaceLoop old new fuel n s
  | 0, _, s, _, hl => by
    have : s = [] := List.length_eq_zero.1 (Nat.le_zero.1 hl)
    subst this
    exact fun hi => hold (List.eq_nil_of_infix_nil hi)
  | fuel + 1, n, s, hn, hl => by
    unfold replaceLoop
    rw [if_neg (by omega)]
    split
    · rename_i hI
      exact Index_none s hI
    · rename_i j hI
      intro hi
      have hlen : 0 < old.length := List.length_pos.2 hold
      rcases hg _ _ hi with h | h
      · exact Index_some hold s j hI h
      · refine replaceLoop_not_infix hold hg fuel (n - 1) _ (by omega) ?_ h
        rw [List.length_drop]
        omega

theorem ReplaceAll_not_infix {old new : Bytes} (hold : old ≠ []) (hg : Guarded old new)
    (s : Bytes) : ¬ old <:+: ReplaceAll s old new :=
  replaceLoop_not_infix hold hg s.length (-1) s (by decide) (Nat.le_refl _)

theorem literalEngine_Spliced (pattern : String) (src repl : Bytes) :
    Spliced repl src (literalEngine pattern src repl) :=
  replaceLoop_Spliced _ _ _ _ _

theorem Replace_Spliced (s old new : Bytes) (n : Int) :
    Spliced new s (Replace s old new n) :=
  replaceLoop_Spliced _ _ _ _ _

theorem Index_split {sep : Bytes} :
    ∀ (s : Bytes) (j : Nat), Index sep s = some j →
      s = s.take j ++ sep ++ s.drop (j + sep.length)
  | [], j, h => by
    unfold Index at h
    split at h
    · rename_i hs
      cases h
      simp [hs]
    · cases h
  | c :: s, j, h => by
    unfold Index at h
    split at h
    · rename_i hp
      cases h
      obtain ⟨t, ht⟩ := hp
      rw [← ht]
      simp
    · cases hI : Index sep s with
      | none => rw [hI] at h; cases h
      | some k =>
        rw [hI] at h
        cases h
        have ih := Index_split s k hI
        rw [List.take_succ_cons, Nat.add_right_comm, List.drop_succ_cons, List.cons_append,
          List.cons_append, ← ih]

theorem Index_leftmost {sep : Bytes} (hsep : sep ≠ []) :
    ∀ (s : Bytes) (j : Nat), Index sep s = some j →
      ¬ sep <:+: (s.take j ++ sep).dropLast
  | [], j, h => by
    unfold Index at h
    split at h
    · exact absurd ‹sep = []› hsep
    · cases h
  | c :: s, j, h => by
    unfold Index at h
    split at h
    · cases h
      intro hi
      have h1 := hi.length_le
      have h2 : 0 < sep.length := List.length_pos.2 hsep
      simp at h1
      omega
    · rename_i hp
      cases hI : Index sep s with
      | none => rw [hI] at h; cases h
      | some k =>
        rw [hI] at h
        cases h
        have hne : s.take k ++ sep ≠ [] := by simp [hsep]
        rw [List.take_succ_cons, List.cons_append, List.dropLast_cons_of_ne_nil hne,
          List.infix_cons_iff]
        rintro (hi | hi)
        · refine hp (hi.trans ((List.prefix_cons_inj c).2 ?_))
          refine (List.dropLast_prefix _).trans ?_
          exact ⟨s.drop (k + sep.length), (Index_split s k hI).symm⟩
        · exact Index_leftmost hsep s k hI hi

theorem replaceLoop_zero (old new : Bytes) (fuel : Nat) (s : Bytes) :
    replaceLoop old new fuel 0 s = s := by
  cases fuel <;> simp [replaceLoop]

theorem replaceLoop_ReplacedEvery {old new : Bytes} (hold : old ≠ []) :
    ∀ (fuel : Nat) (n : Int) (s : Bytes), n < 0 → s.length ≤ fuel →
      ReplacedEvery old new s (replaceLoop old new fuel n s)
  | 0, _, s, _, hl => by
    have : s = [] := List.length_eq_zero.1 (Nat.le_zero.1 hl)
    subst this
    exact ReplacedEvery.done [] (fun hi => hold (List.eq_nil_of_infix_nil hi))
  | fuel + 1, n, s, hn, hl => by
    unfold replaceLoop
    rw [if_neg (by omega)]
    split
    · rename_i hI
      exact ReplacedEvery.done s (Index_none s hI)
    · rename_i j hI
      have hlen : 0 < old.length := List.length_pos.2 hold
      have hrec : ReplacedEvery old new (s.drop (j + old.length))
          (replaceLoop old new fuel (n - 1) (s.drop (j + old.length))) :=
        replaceLoop_ReplacedEvery hold fuel (n - 1) (s.drop (j + old.length))
          (by omega) (by rw [List.length_drop]; omega)
      have hcons := ReplacedEvery.cons (s.take j) _ _ (Index_leftmost hold s j hI) hrec
      rw [← Index_split s j hI] at hcons
      exact hcons

theorem ReplaceAll_ReplacedEvery {old new : Bytes} (hold : old ≠ []) (s : Bytes) :
    ReplacedEvery old new s (ReplaceAll s old new) :=
  replaceLoop_ReplacedEvery hold s.length (-1) s (by decide) (Nat.le_refl _)

theorem Replace_one_ReplacedFirst {old new : Bytes} (hold : old ≠ []) (s : Bytes) :
    ReplacedFirst old new s (Replace s old new 1) := by
  unfold Replace
  cases hlen : s.length with
  | zero => exact ReplacedFirst.none s (by
      have : s = [] := List.length_eq_zero.1 hlen
      subst this
      exact fun hi => hold (List.eq_nil_of_infix_nil hi))
  | succ k =>
    unfold replaceLoop
    rw [if_neg (by decide)]
    split
    · rename_i hI
      exact ReplacedFirst.none s (Index_none s hI)
    · rename_i j hI
      have hfirst : ReplacedFirst old new (s.take j ++ old ++ s.drop (j + old.length))
          (s.take j ++ new ++ s.drop (j + old.length)) :=
        ReplacedFirst.first (s.take j) (s.drop (j + old.length)) (Index_leftmost hold s j hI)
      rw [← Index_split s j hI] at hfirst
      simpa [replaceLoop_zero] using hfirst

theorem tenantIDHack_guarded {a b : Char} (mid : Bytes) (ha : a ∉ bytes tenantIDHack)
    (hb : b ∉ bytes tenantIDHack) (hmid : '-' ∉ mid) :
    Guarded (bytes tenantIDHack) (a :: (mid ++ [b])) :=
  guarded_of mid ha hb (not_infix_of_mem (by decide) hmid)

theorem tenantIDHack_guarded_subscription :
    Guarded (bytes tenantIDHack) (bytes "[subscription().tenantId]") :=
  tenantIDHack_guarded (bytes "subscription().tenantId") (by decide) (by decide) (by decide)

theorem tenantIDHack_guarded_ciCapacity :
    Guarded (bytes tenantIDHack) (bytes "\"capacity\": \"[parameters('ciCapacity')]\"") :=
  tenantIDHack_guarded (bytes "capacity\": \"[parameters('ciCapacity')]") (by decide)
    (by decide) (by decide)

theorem tenantIDHack_guarded_rpVmssCapacity :
    Guarded (bytes tenantIDHack)
      (bytes "\"capacity\": \"[parameters('rpVmssCapacity')]\"") :=
  tenantIDHack_guarded (bytes "capacity\": \"[parameters('rpVmssCapacity')]") (by decide)
    (by decide) (by decide)

theorem tenantIDHack_guarded_cluster :
    Guarded (bytes tenantIDHack)
      (bytes "\"accessPolicies\": \"[concat(variables('clusterKeyvaultAccessPolicies'), parameters('extraClusterKeyvaultAccessPolicies'))]\"") :=
  tenantIDHack_guarded
    (bytes "accessPolicies\": \"[concat(variables('clusterKeyvaultAccessPolicies'), parameters('extraClusterKeyvaultAccessPolicies'))]")
    (by decide) (by decide) (by decide)

theorem tenantIDHack_guarded_portal :
    Guarded (bytes tenantIDHack)
      (bytes "\"accessPolicies\": \"[concat(variables('portalKeyvaultAccessPolicies'), parameters('extraPortalKeyvaultAccessPolicies'))]\"") :=
  tenantIDHack_guarded
    (bytes "accessPolicies\": \"[concat(variables('portalKeyvaultAccessPolicies'), parameters('extraPortalKeyvaultAccessPolicies'))]")
    (by decide) (by decide) (by decide)

theorem tenantIDHack_guarded_service :
    Guarded (bytes tenantIDHack)
      (bytes "\"accessPolicies\": \"[concat(variables('serviceKeyvaultAccessPolicies'), parameters('extraServiceKeyvaultAccessPolicies'))]\"") :=
  tenantIDHack_guarded
    (bytes "accessPolicies\": \"[concat(variables('serviceKeyvaultAccessPolicies'), parameters('extraServiceKeyvaultAccessPolicies'))]")
    (by decide) (by decide) (by decide)

theorem tenantIDHack_guarded_sourceAddressPrefixes :
    Guarded (bytes tenantIDHack)
      (bytes "\"sourceAddressPrefixes\": \"[parameters('rpNsgSourceAddressPrefixes')]\"") :=
  tenantIDHack_guarded
    (bytes "sourceAddressPrefixes\": \"[parameters('rpNsgSourceAddressPrefixes')]")
    (by decide) (by decide) (by decide)

theorem tenantIDHack_guarded_encryptionAtHost :
    Guarded (bytes tenantIDHack)
      (bytes "\"encryptionAtHost\": \"[parameters('encryptionAtHost')]\"") :=
  tenantIDHack_guarded (bytes "encryptionAtHost\": \"[parameters('encryptionAtHost')]")
    (by decide) (by decide) (by decide)

theorem not_infix_append_newline {body : Bytes} (h : ¬ bytes tenantIDHack <:+: body) :
    ¬ bytes tenantIDHack <:+: body ++ ['\n'] := by
  intro hi
  rcases infix_of_not_mem (by decide) body [] hi with h1 | h1
  · exact h h1
  · exact absurd (List.eq_nil_of_infix_nil h1) (by decide)

/-- C29: for every template that marshals to bytes `b`, in both modes and for every
regular-expression engine whose `ReplaceAll` with a replacement text free of `$` returns
its source with some regions replaced by that text, `templateFixup` returns, without an
error, `body` with one newline appended, where `body` comes from `b` as follows: `b1` is
`b` with every instance of the placeholder tenant ID replaced by
`[subscription().tenantId]`; `b2` and `b3` come from it by replacing every instance of
the two capacity placeholders; in development mode `body` is `b3`; in production mode
the three regular expressions are applied to `b3` in turn and then the first instance
of each of the two production placeholders is replaced.  Neither `b1`, nor `body`, nor
the returned bytes hold an instance of the placeholder tenant ID. -/
theorem templateFixup_no_tenantIDHack {τ : Type} (re : String → Bytes → Bytes → Bytes)
    (hre : ∀ pattern src repl, '$' ∉ repl → Spliced repl src (re pattern src repl))
    (production : Bool) (MarshalIndent : τ → Bytes × Option Database.GoError) (t : τ)
    (b : Bytes) (hb : MarshalIndent t = (b, none)) :
    ∃ b1 b2 b3 body : Bytes,
      ReplacedEvery (bytes tenantIDHack) (bytes "[subscription().tenantId]") b b1 ∧
      ReplacedEvery (bytes "\"capacity\": 1337")
        (bytes "\"capacity\": \"[parameters('ciCapacity')]\"") b1 b2 ∧
      ReplacedEvery (bytes "\"capacity\": 1338")
        (bytes "\"capacity\": \"[parameters('rpVmssCapacity')]\"") b2 b3 ∧
      (production = false → body = b3) ∧
      (production = true → ∃ b6 b7 : Bytes,
        b6 = re ("(?m)\"accessPolicies\": \\[[^]]*" ++ serviceAccessPolicyHack ++ "[^]]*\\]")
          (re ("(?m)\"accessPolicies\": \\[[^]]*" ++ portalAccessPolicyHack ++ "[^]]*\\]")
            (re ("(?m)\"accessPolicies\": \\[[^]]*" ++ clusterAccessPolicyHack ++ "[^]]*\\]") b3
              (bytes "\"accessPolicies\": \"[concat(variables('clusterKeyvaultAccessPolicies'), parameters('extraClusterKeyvaultAccessPolicies'))]\""))
            (bytes "\"accessPolicies\": \"[concat(variables('portalKeyvaultAccessPolicies'), parameters('extraPortalKeyvaultAccessPolicies'))]\""))
          (bytes "\"accessPolicies\": \"[concat(variables('serviceKeyvaultAccessPolicies'), parameters('extraServiceKeyvaultAccessPolicies'))]\"") ∧
        ReplacedFirst (bytes "\"sourceAddressPrefixes\": []")
          (bytes "\"sourceAddressPrefixes\": \"[parameters('rpNsgSourceAddressPrefixes')]\"")
          b6 b7 ∧
        ReplacedFirst (bytes "\"encryptionAtHost\": true")
          (bytes "\"encryptionAtHost\": \"[parameters('encryptionAtHost')]\"") b7 body) ∧
      templateFixup re production MarshalIndent t = (body ++ ['\n'], none) ∧
      ¬ bytes tenantIDHack <:+: b1 ∧ ¬ bytes tenantIDHack <:+: body ∧
      ¬ bytes tenantIDHack <:+: body ++ ['\n'] := by
  have h1 : ¬ bytes tenantIDHack <:+:
      ReplaceAll b (bytes tenantIDHack) (bytes "[subscription().tenantId]") :=
    ReplaceAll_not_infix (by decide) tenantIDHack_guarded_subscription b
  have key : ∀ (r old s : Bytes) (n : Int), Guarded (bytes tenantIDHack) r →
      ¬ bytes tenantIDHack <:+: s → ¬ bytes tenantIDHack <:+: Replace s old r n :=
    fun r old s n hg hs => Spliced_not_infix hg (Replace_Spliced s old r n) hs
  have keyre : ∀ (r : Bytes) (pattern : String) (s : Bytes), '$' ∉ r →
      Guarded (bytes tenantIDHack) r →
      ¬ bytes tenantIDHack <:+: s → ¬ bytes tenantIDHack <:+: re pattern s r :=
    fun r pattern s hd hg hs => Spliced_not_infix hg (hre pattern s r hd) hs
  have h2 := key _ (bytes "\"capacity\": 1337") _ (-1) tenantIDHack_guarded_ciCapacity h1
  have h3 := key _ (bytes "\"capacity\": 1338") _ (-1) tenantIDHack_guarded_rpVmssCapacity h2
  have hfix : ∀ p : Bool, templateFixup re p MarshalIndent t =
      ((if p then
          Replace
            (Replace
              (re ("(?m)\"accessPolicies\": \\[[^]]*" ++ serviceAccessPolicyHack ++ "[^]]*\\]")
                (re ("(?m)\"accessPolicies\": \\[[^]]*" ++ portalAccessPolicyHack ++ "[^]]*\\]")
                  (re ("(?m)\"accessPolicies\": \\[[^]]*" ++ clusterAccessPolicyHack ++ "[^]]*\\]")
                    (ReplaceAll
                      (ReplaceAll
                        (ReplaceAll b (bytes tenantIDHack) (bytes "[subscription().tenantId]"))
                        (bytes "\"capacity\": 1337")
                        (bytes "\"capacity\": \"[parameters('ciCapacity')]\""))
                      (bytes "\"capacity\": 1338")
                      (bytes "\"capacity\": \"[parameters('rpVmssCapacity')]\""))
                    (bytes "\"accessPolicies\": \"[concat(variables('clusterKeyvaultAccessPolicies'), parameters('extraClusterKeyvaultAccessPolicies'))]\""))
                  (bytes "\"accessPolicies\": \"[concat(variables('portalKeyvaultAccessPolicies'), parameters('extraPortalKeyvaultAccessPolicies'))]\""))
                (bytes "\"accessPolicies\": \"[concat(variables('serviceKeyvaultAccessPolicies'), parameters('extraServiceKeyvaultAccessPolicies'))]\""))
              (bytes "\"sourceAddressPrefixes\": []")
              (bytes "\"sourceAddressPrefixes\": \"[parameters('rpNsgSourceAddressPrefixes')]\"")
              1)
            (bytes "\"encryptionAtHost\": true")
            (bytes "\"encryptionAtHost\": \"[parameters('encryptionAtHost')]\"") 1
        else
          ReplaceAll
            (ReplaceAll
              (ReplaceAll b (bytes tenantIDHack) (bytes "[subscription().tenantId]"))
              (bytes "\"capacity\": 1337")
              (bytes "\"capacity\": \"[parameters('ciCapacity')]\""))
            (bytes "\"capacity\": 1338")
            (bytes "\"capacity\": \"[parameters('rpVmssCapacity')]\"")) ++ ['\n'], none) := by
    intro p
    unfold templateFixup
    rw [hb]
  cases production
  · exact ⟨_, _, _, _, ReplaceAll_ReplacedEvery (by decide) b,
      ReplaceAll_ReplacedEvery (by decide) _, ReplaceAll_ReplacedEvery (by decide) _,
      fun _ => rfl, fun h => absurd h (by decide), hfix false, h1, h3,
      not_infix_append_newline h3⟩
  · have h4 := keyre _
      ("(?m)\"accessPolicies\": \\[[^]]*" ++ clusterAccessPolicyHack ++ "[^]]*\\]") _
      (by decide) tenantIDHack_guarded_cluster h3
    have h5 := keyre _
      ("(?m)\"accessPolicies\": \\[[^]]*" ++ portalAccessPolicyHack ++ "[^]]*\\]") _
      (by decide) tenantIDHack_guarded_portal h4
    have h6 := keyre _
      ("(?m)\"accessPolicies\": \\[[^]]*" ++ serviceAccessPolicyHack ++ "[^]]*\\]") _
      (by decide) tenantIDHack_guarded_service h5
    have h7 := key _ (bytes "\"sourceAddressPrefixes\": []") _ 1
      tenantIDHack_guarded_sourceAddressPrefixes h6
    have h8 := key _ (bytes "\"encryptionAtHost\": true") _ 1
      tenantIDHack_guarded_encryptionAtHost h7
    exact ⟨_, _, _, _, ReplaceAll_ReplacedEvery (by decide) b,
      ReplaceAll_ReplacedEvery (by decide) _, ReplaceAll_ReplacedEvery (by decide) _,
      fun h => absurd h (by decide),
      fun _ => ⟨_, _, rfl, Replace_one_ReplacedFirst (by decide) _,
        Replace_one_ReplacedFirst (by decide) _⟩,
      hfix true, h1, h8, not_infix_append_newline h8⟩

/-- C29, witness: the example template in production mode, with an engine that reads
its pattern as a literal text. -/
theorem templateFixup_no_tenantIDHack_witness :
    ∃ b1 b2 b3 body : Bytes,
      ReplacedEvery (bytes tenantIDHack) (bytes "[subscription().tenantId]") exampleTemplate b1 ∧
      ReplacedEvery (bytes "\"capacity\": 1337")
        (bytes "\"capacity\": \"[parameters('ciCapacity')]\"") b1 b2 ∧
      ReplacedEvery (bytes "\"capacity\": 1338")
        (bytes "\"capacity\": \"[parameters('rpVmssCapacity')]\"") b2 b3 ∧
      (true = false → body = b3) ∧
      (true = true → ∃ b6 b7 : Bytes,
        b6 = literalEngine ("(?m)\"accessPolicies\": \\[[^]]*" ++ serviceAccessPolicyHack ++ "[^]]*\\]")
          (literalEngine ("(?m)\"accessPolicies\": \\[[^]]*" ++ portalAccessPolicyHack ++ "[^]]*\\]")
            (literalEngine ("(?m)\"accessPolicies\": \\[[^]]*" ++ clusterAccessPolicyHack ++ "[^]]*\\]") b3
              (bytes "\"accessPolicies\": \"[concat(variables('clusterKeyvaultAccessPolicies'), parameters('extraClusterKeyvaultAccessPolicies'))]\""))
            (bytes "\"accessPolicies\": \"[concat(variables('portalKeyvaultAccessPolicies'), parameters('extraPortalKeyvaultAccessPolicies'))]\""))
          (bytes "\"accessPolicies\": \"[concat(variables('serviceKeyvaultAccessPolicies'), parameters('extraServiceKeyvaultAccessPolicies'))]\"") ∧
        ReplacedFirst (bytes "\"sourceAddressPrefixes\": []")
          (bytes "\"sourceAddressPrefixes\": \"[parameters('rpNsgSourceAddressPrefixes')]\"")
          b6 b7 ∧
        ReplacedFirst (bytes "\"encryptionAtHost\": true")
          (bytes "\"encryptionAtHost\": \"[parameters('encryptionAtHost')]\"") b7 body) ∧
      templateFixup literalEngine true (fun _ : Unit => (exampleTemplate, none)) () = (body ++ ['\n'], none) ∧
      ¬ bytes tenantIDHack <:+: b1 ∧ ¬ bytes tenantIDHack <:+: body ∧
      ¬ bytes tenantIDHack <:+: body ++ ['\n'] :=
  templateFixup_no_tenantIDHack literalEngine
    (fun pattern src repl _ => literalEngine_Spliced pattern src repl) true
    (fun _ : Unit => (exampleTemplate, none)) () exampleTemplate rfl

end Generator
